import Mathlib

/-!
# Gravitax social-feed backend: content interaction and social graph

A shallow embedding of the request handlers of `server.js`.

* The four JSON documents (`users.json`, `posts.json`, `notifications.json`,
  `friends.json`) are the first four fields of `State`.  Every handler reads the
  documents it needs, mutates the parsed value in memory and writes it back only
  on the paths that reach `writeX`; a handler is therefore a function
  `State → Clock → … → Outcome × State` whose second component is the state after
  the request.  An exception thrown inside a handler is caught by its `try` and
  answered 500 (`Outcome.internal`) before any `writeX` is reached.
* Route identifiers are decimal numerals (`Nat`), on which `==`, `parseInt`
  followed by `===`, and equality of natural numbers agree.
* A body field that its handler validates with `!x` is a `String`, and the empty
  string stands for every value the test rejects.  A body field that its handler
  does not validate is a `Field`: absent (`undefined`), `null` or a string; the
  stored property it is copied to is a `Field` too (`JSON.stringify` drops a key
  whose value is `undefined`), and an array element it is pushed to is an
  `Option String` (`undefined` is written as `null`).
* Counters are integers (`likes++`, `(reports || 0) - 1` are `+ 1` and `- 1`).
* A property that may be missing from a stored object is an `Option`; `none` is
  the missing key.
* `friends.json` holds a plain object, so a lookup `friendsData[k]` also finds
  the members that every object inherits from `Object.prototype`
  (`prototypeMembers`).  Those objects live in the memory of the server process,
  not in a document: `Heap`, the fifth field of `State`, holds the `followers`
  arrays that `POST /follow` leaves on them.
* `Date.now()` and `new Date().toISOString()` are the two fields of `Clock`.
* The characters of a JavaScript string are its UTF-16 code units: `utf16` lists
  them, and `slice` and `length` count them.
-/

namespace Gravitax

/-! ## Data model -/

/-- Result of a request: `success` is a 2xx answer, the others follow the error
taxonomy (`invalidArgument` and `conflict` are both HTTP 400, `notFound` 404,
`forbidden` 403, `internal` the 500 of a `catch` block). -/
inductive Outcome where
  | success
  | invalidArgument
  | notFound
  | conflict
  | forbidden
  | internal
  deriving DecidableEq

/-- Clock readings taken while a request is served: `Date.now()` and
`new Date().toISOString()`. -/
structure Clock where
  now : Nat
  iso : String
  deriving DecidableEq

/-- A value of `req.body.x` that the handler does not validate, or a stored
property copied from one: `undefined` (no such key), `null`, or a string. -/
inductive Field where
  | absent
  | null
  | text (s : String)
  deriving DecidableEq

/-- The `optionIndex` of a vote: missing, an integer, or a number that lies
strictly between `floor` and `floor + 1`. -/
inductive OptionIndex where
  | missing
  | integer (i : Int)
  | between (floor : Int)
  deriving DecidableEq

/-- A sequence of UTF-16 code units, the value of a JavaScript string. -/
abbrev Utf16 := List Nat

/-- A record of `users.json`. -/
structure User where
  username : String
  userEmail : String
  photoURL : Option String
  bio : Option String
  bannerURL : Option String
  deriving DecidableEq

/-- A comment object; every property may be missing
(`POST /posts/:id/comment` stores `username` and `text` only). -/
inductive Comment where
  | mk (id : Option Nat) (username : Field) (text : Field)
      (likedBy : Option (List String)) (replies : Option (List Comment))

namespace Comment

/-- Field `id`. -/
def id : Comment → Option Nat
  | mk i _ _ _ _ => i

/-- Field `username`. -/
def username : Comment → Field
  | mk _ u _ _ _ => u

/-- Field `text`. -/
def text : Comment → Field
  | mk _ _ t _ _ => t

/-- Field `likedBy`. -/
def likedBy : Comment → Option (List String)
  | mk _ _ _ l _ => l

/-- Field `replies`. -/
def replies : Comment → Option (List Comment)
  | mk _ _ _ _ r => r

/-- The assignment `comment.likedBy = l`. -/
def setLikedBy (l : List String) : Comment → Comment
  | mk i u t _ r => mk i u t (some l) r

/-- The assignment `comment.replies = rs`. -/
def setReplies (rs : List Comment) : Comment → Comment
  | mk i u t l _ => mk i u t l (some rs)

end Comment

/-- The optional poll of a post; an entry `none` of `votes` or `votedBy` is a
JSON `null`. -/
structure Poll where
  options : List String
  votes : List (Option Int)
  votedBy : Option (List (Option String))
  deriving DecidableEq

/-- A record of `posts.json`; an element `none` of a username array is a JSON
`null`. -/
structure Post where
  id : Nat
  username : Field
  userEmail : Field
  caption : Field
  tag : Option String
  date : String
  likes : Int
  reports : Int
  comments : List Comment
  media : Option String
  mediaType : Option String
  likedBy : Option (List (Option String))
  reportedBy : Option (List (Option String))
  bookmarkedBy : Option (List (Option String))
  poll : Option Poll

/-- The `type` tag of a notification. -/
inductive NotificationType where
  | like
  | comment
  | commentLike
  | commentReply
  | friendRequest
  | friendAccept
  | follow
  deriving DecidableEq

/-- A record of `notifications.json`. -/
structure Notification where
  id : Nat
  type : NotificationType
  actor : Field
  message : Utf16
  recipient : Field
  postId : Option Nat
  date : String
  deriving DecidableEq

/-- A pending friend request `{ from, to, date }`. -/
structure FriendRequest where
  fromUser : String
  toUser : String
  date : String
  deriving DecidableEq

/-- The entry of one user in `friends.json`, as it is stored: the keys
`following` and `followers` are missing from an entry that
`POST /friend-request` or `POST /friend-request/accept` created. -/
structure GraphEntry where
  friends : List String
  requests : List FriendRequest
  following : Option (List String)
  followers : Option (List String)
  deriving DecidableEq

/-- The object stored in `friends.json`: its own keys and their entries. -/
abbrev Graph := String → Option GraphEntry

/-- An object of the server process that a lookup in `friendsData` can reach
through the prototype chain: a member of `Object.prototype` (the name
`__proto__` stands for `Object.prototype` itself), or an array on the heap. -/
inductive Ref where
  | member (name : String)
  | array (addr : Nat)
  deriving DecidableEq

/-- The part of the process memory that the handlers of the social graph can
read and write: the arrays they have created for objects outside
`friendsData`, by address, and the own property `followers` of each such
object. -/
structure Heap where
  arrays : List (List String)
  followers : Ref → Option Nat

/-- The four persisted collections and the heap of the server process. -/
structure State where
  users : List User
  posts : List Post
  notifications : List Notification
  friends : Graph
  heap : Heap

/-- A freshly started process: no array created, no `followers` property set. -/
def Heap.empty : Heap :=
  { arrays := [], followers := fun _ => none }

/-- All four documents freshly created (`[]`, `[]`, `[]`, `{}`) in a freshly
started process. -/
def State.empty : State :=
  { users := [], posts := [], notifications := [], friends := fun _ => none,
    heap := Heap.empty }

/-! ## Helpers shared by the handlers -/

/-- The UTF-16 code units of one character: itself below `0x10000`, a surrogate
pair above. -/
def utf16Char (c : Char) : Utf16 :=
  if c.toNat < 0x10000 then [c.toNat]
  else [0xD800 + (c.toNat - 0x10000) / 0x400, 0xDC00 + (c.toNat - 0x10000) % 0x400]

/-- The UTF-16 code units of a string. -/
def utf16 (s : String) : Utf16 :=
  s.data.flatMap utf16Char

/-- The inline expression
`${t.slice(0, 50)}${t.length > 50 ? '...' : ''}` of the four notification
messages that embed free text; `slice` and `length` work on code units. -/
def sliceEllipsis (t : String) : Utf16 :=
  (utf16 t).take 50 ++ (if (utf16 t).length > 50 then utf16 "..." else [])

/-- The array element that `arr.push(x)` leaves in the document: `undefined`
and `null` are both written as `null`. -/
def Field.element : Field → Option String
  | .text s => some s
  | _ => none

/-- The test `arr.includes(x)` on an array read from a document: `undefined`
equals none of its elements, `null` equals the `null` elements. -/
def includes (arr : List (Option String)) : Field → Bool
  | .absent => false
  | .null => arr.contains none
  | .text s => arr.contains (some s)

/-- The array `arr.filter(user => user !== x)`. -/
def without (arr : List (Option String)) : Field → List (Option String)
  | .absent => arr
  | .null => arr.filter (fun user => user ≠ none)
  | .text s => arr.filter (fun user => user ≠ some s)

/-- The lookup `posts.find(p => p.id == id)` (written with `==` on the route
parameter or with `===` on its `parseInt`): the first post with the identifier. -/
def findPost (posts : List Post) (id : Nat) : Option Post :=
  posts.find? (fun p => p.id == id)

/-- Writing the posts array back after the object returned by
`posts.find(p => p.id == id)` was mutated in place into `p'`. -/
def replacePost : List Post → Nat → Post → List Post
  | [], _, _ => []
  | q :: qs, id, p' => if q.id = id then p' :: qs else q :: replacePost qs id p'

/-- The lookup `users.find(u => u.username === name)` used as a truth value. -/
def hasUser (users : List User) (name : String) : Bool :=
  users.any (fun u => u.username == name)

/-- The call `arr.splice(arr.findIndex(p), 1)` when the index is not `-1`. -/
def spliceFirst {α : Type} (p : α → Bool) : List α → List α
  | [] => []
  | x :: xs => if p x then xs else x :: spliceFirst p xs

/-! ## Comment-tree search -/

mutual
/-- Loop body of `findComment`: the identifier test on one comment, then the
recursive call on its replies. -/
def findIn (commentId : Nat) : Comment → Option Comment
  | .mk i u t l r =>
    if i = some commentId then some (.mk i u t l r)
    else findInReplies commentId r
termination_by structural c => c
/-- The closure `findComment(comments)`: `some target` when it returns `true`
with `targetComment = target`, `none` when it returns `false`. -/
def findComment (commentId : Nat) : List Comment → Option Comment
  | [] => none
  | c :: rest =>
    match findIn commentId c with
    | some target => some target
    | none => findComment commentId rest
termination_by structural cs => cs
/-- The guard `comment.replies && findComment(comment.replies)`. -/
def findInReplies (commentId : Nat) : Option (List Comment) → Option Comment
  | none => none
  | some rs => findComment commentId rs
termination_by structural r => r
end

mutual
/-- Writing through the reference `targetComment`: the comment that `findIn`
selects is replaced by `new`; `none` when no comment is selected. -/
def writeIn (commentId : Nat) (new : Comment) : Comment → Option Comment
  | .mk i u t l r =>
    if i = some commentId then some new
    else match writeInReplies commentId new r with
      | some rs => some (.mk i u t l (some rs))
      | none => none
termination_by structural c => c
/-- Writing through the reference `targetComment` in a comment array. -/
def writeTarget (commentId : Nat) (new : Comment) : List Comment → Option (List Comment)
  | [] => none
  | c :: rest =>
    match writeIn commentId new c with
    | some c' => some (c' :: rest)
    | none =>
      match writeTarget commentId new rest with
      | some rest' => some (c :: rest')
      | none => none
termination_by structural cs => cs
/-- Writing through the reference `targetComment` in an optional replies array. -/
def writeInReplies (commentId : Nat) (new : Comment) :
    Option (List Comment) → Option (List Comment)
  | none => none
  | some rs => writeTarget commentId new rs
termination_by structural r => r
end

/-! ## Users -/

/-- Handler of `POST /users`: upsert keyed on `userEmail`. -/
def upsertUser (s : State) (username userEmail : String) (photoURL : Option String) :
    Outcome × State :=
  if username = "" ∨ userEmail = "" then (.invalidArgument, s)
  else
    let record : User :=
      { username := username, userEmail := userEmail, photoURL := photoURL,
        bio := none, bannerURL := none }
    match s.users.findIdx? (fun u => u.userEmail == userEmail) with
    | some existingUserIndex =>
      (.success, { s with users := s.users.set existingUserIndex record })
    | none => (.success, { s with users := s.users ++ [record] })

/-- Handler of `POST /users/update`; `banner` is the stored file name of an
accepted upload. -/
def updateUser (s : State) (username : String) (bio banner : Option String) :
    Outcome × State :=
  if username = "" then (.invalidArgument, s)
  else
    match s.users.findIdx? (fun u => u.username == username) with
    | none => (.notFound, s)
    | some userIndex =>
      let withBio (u : User) : User :=
        match bio with
        | some b => if b = "" then u else { u with bio := some b }
        | none => u
      let withBanner (u : User) : User :=
        match banner with
        | some file => { u with bannerURL := some ("/uploads/banners/" ++ file) }
        | none => u
      (.success, { s with users := s.users.modify (fun u => withBanner (withBio u)) userIndex })

/-! ## Posts -/

/-- Handler of `POST /posts`; `file` is the stored file name of an accepted
upload. No body field is validated. -/
def createPost (s : State) (clock : Clock) (username userEmail caption : Field)
    (tag file : Option String) : Outcome × State :=
  let media := file.map (fun name => "/uploads/" ++ name)
  let newPost : Post :=
    { id := clock.now, username := username, userEmail := userEmail, caption := caption,
      tag := tag.filter (fun t => t ≠ ""), date := clock.iso, likes := 0, reports := 0,
      comments := [], media := media,
      mediaType := if media.isSome then some "image" else none,
      likedBy := some [], reportedBy := some [], bookmarkedBy := some [], poll := none }
  (.success, { s with posts := s.posts ++ [newPost] })

/-- Handler of `POST /posts/:id/bookmark`. -/
def bookmark (s : State) (id : Nat) (username : Field) : Outcome × State :=
  match findPost s.posts id with
  | none => (.notFound, s)
  | some post =>
    let bookmarkedBy := post.bookmarkedBy.getD []
    if includes bookmarkedBy username then (.conflict, s)
    else
      let post' : Post :=
        { post with bookmarkedBy := some (bookmarkedBy ++ [username.element]) }
      (.success, { s with posts := replacePost s.posts id post' })

/-- Handler of `POST /posts/:id/unbookmark`. -/
def unbookmark (s : State) (id : Nat) (username : Field) : Outcome × State :=
  match findPost s.posts id with
  | none => (.notFound, s)
  | some post =>
    match post.bookmarkedBy with
    | none => (.conflict, s)
    | some bookmarkedBy =>
      if ¬ includes bookmarkedBy username then (.conflict, s)
      else
        let post' : Post := { post with bookmarkedBy := some (without bookmarkedBy username) }
        (.success, { s with posts := replacePost s.posts id post' })

/-- Handler of `POST /posts/:id/like`. The message reads `post.caption.slice`,
which throws when the post was stored without a caption; nothing has been
written by then. -/
def like (s : State) (clock : Clock) (id : Nat) (username : Field) : Outcome × State :=
  match findPost s.posts id with
  | none => (.notFound, s)
  | some post =>
    let likedBy := post.likedBy.getD []
    if includes likedBy username then (.conflict, s)
    else
      let post' : Post :=
        { post with likes := post.likes + 1, likedBy := some (likedBy ++ [username.element]) }
      if post.username ≠ username then
        match post.caption with
        | .text caption =>
          let notification : Notification :=
            { id := clock.now, type := .like, actor := username,
              message := utf16 "liked your post: \"" ++ sliceEllipsis caption ++ utf16 "\"",
              recipient := post.username, postId := some post.id, date := clock.iso }
          (.success, { s with
            posts := replacePost s.posts id post',
            notifications := s.notifications ++ [notification] })
        | _ => (.internal, s)
      else (.success, { s with posts := replacePost s.posts id post' })

/-- Handler of `POST /posts/:id/report`. -/
def report (s : State) (id : Nat) (username : Field) : Outcome × State :=
  match findPost s.posts id with
  | none => (.notFound, s)
  | some post =>
    let reportedBy := post.reportedBy.getD []
    if includes reportedBy username then (.conflict, s)
    else
      let post' : Post :=
        { post with
          reports := post.reports + 1, reportedBy := some (reportedBy ++ [username.element]) }
      (.success, { s with posts := replacePost s.posts id post' })

/-- Handler of `POST /posts/:id/unlike`. -/
def unlike (s : State) (id : Nat) (username : Field) : Outcome × State :=
  match findPost s.posts id with
  | none => (.notFound, s)
  | some post =>
    match post.likedBy with
    | none => (.conflict, s)
    | some likedBy =>
      if ¬ includes likedBy username then (.conflict, s)
      else
        let post' : Post :=
          { post with likedBy := some (without likedBy username), likes := post.likes - 1 }
        (.success, { s with posts := replacePost s.posts id post' })

/-- Handler of `POST /posts/:id/unreport`. -/
def unreport (s : State) (id : Nat) (username : Field) : Outcome × State :=
  match findPost s.posts id with
  | none => (.notFound, s)
  | some post =>
    match post.reportedBy with
    | none => (.conflict, s)
    | some reportedBy =>
      if ¬ includes reportedBy username then (.conflict, s)
      else
        let post' : Post :=
          { post with
            reportedBy := some (without reportedBy username), reports := post.reports - 1 }
        (.success, { s with posts := replacePost s.posts id post' })

/-- Handler of `POST /posts/:id/comment`. The message reads
`newComment.text.slice`, which throws when the body has no text; nothing has
been written by then. -/
def comment (s : State) (clock : Clock) (id : Nat) (username text : Field) :
    Outcome × State :=
  match findPost s.posts id with
  | none => (.notFound, s)
  | some post =>
    let newComment := Comment.mk none username text none none
    let post' : Post := { post with comments := post.comments ++ [newComment] }
    if post.username ≠ username then
      match text with
      | .text t =>
        let notification : Notification :=
          { id := clock.now, type := .comment, actor := username,
            message := utf16 "commented on your post: \"" ++ sliceEllipsis t ++ utf16 "\"",
            recipient := post.username, postId := some post.id, date := clock.iso }
        (.success, { s with
          posts := replacePost s.posts id post',
          notifications := s.notifications ++ [notification] })
      | _ => (.internal, s)
    else (.success, { s with posts := replacePost s.posts id post' })

/-- The statement `votes[optionIndex]++` on the parsed JSON array, as it reads
after `JSON.stringify`, for an integer index: a number is incremented, a `null`
becomes `1`, an index past the end leaves `null` there and in the holes before
it. -/
def bumpVote (votes : List (Option Int)) (optionIndex : Nat) : List (Option Int) :=
  if optionIndex < votes.length then
    votes.modify (fun v => match v with
      | some n => some (n + 1)
      | none => some 1) optionIndex
  else votes ++ List.replicate (optionIndex - votes.length) none ++ [none]

/-- The guard `optionIndex < 0 || optionIndex >= post.poll.options.length`:
both comparisons are false on `undefined`. -/
def OptionIndex.rejected (optionCount : Nat) : OptionIndex → Bool
  | .missing => false
  | .integer i => decide (i < 0 ∨ i ≥ optionCount)
  | .between floor => decide (floor < 0 ∨ floor ≥ optionCount)

/-- The statement `votes[optionIndex]++` as it reads after `JSON.stringify`:
with a key that is not an array index it sets a property that is not
written. -/
def OptionIndex.bump (votes : List (Option Int)) : OptionIndex → List (Option Int)
  | .integer i => bumpVote votes i.toNat
  | _ => votes

/-- Handler of `POST /posts/:id/vote`. -/
def vote (s : State) (id : Nat) (username : Field) (optionIndex : OptionIndex) :
    Outcome × State :=
  match findPost s.posts id with
  | none => (.notFound, s)
  | some post =>
    match post.poll with
    | none => (.notFound, s)
    | some poll =>
      if optionIndex.rejected poll.options.length then (.invalidArgument, s)
      else
        let votedBy := poll.votedBy.getD []
        if includes votedBy username then (.conflict, s)
        else
          let poll' : Poll :=
            { poll with
              votes := optionIndex.bump poll.votes,
              votedBy := some (votedBy ++ [username.element]) }
          let post' : Post := { post with poll := some poll' }
          (.success, { s with posts := replacePost s.posts id post' })

/-- Handler of `DELETE /posts/:id`; unlinking the media file touches no
collection. -/
def deletePost (s : State) (id : Nat) (username : String) : Outcome × State :=
  if username = "" then (.invalidArgument, s)
  else
    match findPost s.posts id with
    | none => (.notFound, s)
    | some post =>
      if post.username ≠ .text username then (.forbidden, s)
      else (.success, { s with posts := s.posts.filter (fun p => p.id ≠ id) })

/-! ## Comments -/

/-- Handler of `POST /posts/:id/comments/:commentId/like`. The message reads
`targetComment.text.slice`, which throws on a comment stored without a text. -/
def likeComment (s : State) (clock : Clock) (id commentId : Nat) (username : String) :
    Outcome × State :=
  if username = "" then (.invalidArgument, s)
  else
    match findPost s.posts id with
    | none => (.notFound, s)
    | some post =>
      match findComment commentId post.comments with
      | none => (.notFound, s)
      | some targetComment =>
        let likedBy := targetComment.likedBy.getD []
        if username ∈ likedBy then (.conflict, s)
        else
          let target' := targetComment.setLikedBy (likedBy ++ [username])
          let post' : Post :=
            { post with
              comments := (writeTarget commentId target' post.comments).getD post.comments }
          if targetComment.username ≠ .text username then
            match targetComment.text with
            | .text t =>
              let notification : Notification :=
                { id := clock.now, type := .commentLike, actor := .text username,
                  message := utf16 "liked your comment: \"" ++ sliceEllipsis t ++ utf16 "\"",
                  recipient := targetComment.username, postId := some post.id,
                  date := clock.iso }
              (.success, { s with
                posts := replacePost s.posts id post',
                notifications := s.notifications ++ [notification] })
            | _ => (.internal, s)
          else (.success, { s with posts := replacePost s.posts id post' })

/-- Handler of `POST /posts/:id/comments/:commentId/unlike`. -/
def unlikeComment (s : State) (id commentId : Nat) (username : String) : Outcome × State :=
  if username = "" then (.invalidArgument, s)
  else
    match findPost s.posts id with
    | none => (.notFound, s)
    | some post =>
      match findComment commentId post.comments with
      | none => (.notFound, s)
      | some targetComment =>
        match targetComment.likedBy with
        | none => (.conflict, s)
        | some likedBy =>
          if username ∉ likedBy then (.conflict, s)
          else
            let target' := targetComment.setLikedBy (likedBy.filter (fun user => user ≠ username))
            let post' : Post :=
              { post with
                comments := (writeTarget commentId target' post.comments).getD post.comments }
            (.success, { s with posts := replacePost s.posts id post' })

/-- Handler of `POST /posts/:id/comments/:commentId/reply`. -/
def replyComment (s : State) (clock : Clock) (id commentId : Nat) (username text : String) :
    Outcome × State :=
  if username = "" ∨ text = "" then (.invalidArgument, s)
  else
    match findPost s.posts id with
    | none => (.notFound, s)
    | some post =>
      match findComment commentId post.comments with
      | none => (.notFound, s)
      | some targetComment =>
        let newReply :=
          Comment.mk (some clock.now) (.text username) (.text text) (some []) (some [])
        let target' := targetComment.setReplies (targetComment.replies.getD [] ++ [newReply])
        let post' : Post :=
          { post with comments := (writeTarget commentId target' post.comments).getD post.comments }
        let notification : Notification :=
          { id := clock.now, type := .commentReply, actor := .text username,
            message := utf16 "replied to your comment: \"" ++ sliceEllipsis text ++ utf16 "\"",
            recipient := targetComment.username, postId := some post.id, date := clock.iso }
        (.success, { s with
          posts := replacePost s.posts id post',
          notifications :=
            if targetComment.username ≠ .text username then s.notifications ++ [notification]
            else s.notifications })

/-! ## Notifications -/

/-- Handler of `GET /notifications`; a read. -/
def getNotifications (s : State) (username : String) : Outcome × State :=
  if username = "" then (.invalidArgument, s) else (.success, s)

/-- Handler of `DELETE /notifications/:id`. -/
def deleteNotification (s : State) (id : Nat) (username : String) : Outcome × State :=
  if username = "" then (.invalidArgument, s)
  else
    match s.notifications.find? (fun n => n.id == id) with
    | none => (.notFound, s)
    | some notification =>
      if notification.recipient ≠ .text username then (.forbidden, s)
      else (.success, { s with notifications := s.notifications.filter (fun n => n.id ≠ id) })

/-- Handler of `DELETE /notifications` (bulk). -/
def deleteAllNotifications (s : State) (username : String) : Outcome × State :=
  if username = "" then (.invalidArgument, s)
  else
    (.success, { s with
      notifications := s.notifications.filter (fun n => n.recipient ≠ .text username) })

/-! ## Social graph -/

/-- The own property names of `Object.prototype`: for each of them
`friendsData[k]` is an object even when `friends.json` has no such key. -/
def prototypeMembers : List String :=
  ["constructor", "__defineGetter__", "__defineSetter__", "hasOwnProperty",
    "__lookupGetter__", "__lookupSetter__", "isPrototypeOf", "propertyIsEnumerable",
    "toString", "valueOf", "__proto__", "toLocaleString"]

/-- The `followers` array an entry holds while a request is served: an array of
its own, or the heap array that it found through the prototype chain. -/
inductive FollowersRef where
  | own (l : List String)
  | shared (addr : Nat)

/-- An entry of `friendsData` while a request is served. -/
structure MemEntry where
  friends : List String
  requests : List FriendRequest
  following : Option (List String)
  followers : Option FollowersRef

/-- The object `friendsData` while a request is served: its own keys. -/
abbrev MemGraph := String → Option MemEntry

/-- The value of `friendsData[k]` when it is not `undefined`: an entry of the
object, or an object found through the prototype chain. -/
inductive Slot where
  | entry (e : MemEntry)
  | object (r : Ref)

/-- The object literal `{ friends: [], requests: [], following: [], followers: [] }`. -/
def MemEntry.full : MemEntry :=
  { friends := [], requests := [], following := some [], followers := some (.own []) }

/-- The object literal `{ friends: [], requests: [] }`. -/
def MemEntry.bare : MemEntry :=
  { friends := [], requests := [], following := none, followers := none }

/-- The entry `{ friends: [], requests: [], following: [], followers: [] }` as it
is stored. -/
def GraphEntry.empty : GraphEntry :=
  { friends := [], requests := [], following := some [], followers := some [] }

/-- The stored entry of `k`, an entry that is not there counting as empty. -/
def Graph.entry (g : Graph) (k : String) : GraphEntry :=
  (g k).getD GraphEntry.empty

/-- The assignment `friendsData[k] = e`. -/
def MemGraph.set (m : MemGraph) (k : String) (e : MemEntry) : MemGraph :=
  fun x => if x = k then some e else m x

/-- The array at a heap address. -/
def Heap.read (h : Heap) (addr : Nat) : List String :=
  h.arrays.getD addr []

/-- The call `array.push(x)` on the array at a heap address. -/
def Heap.push (h : Heap) (addr : Nat) (x : String) : Heap :=
  { h with arrays := h.arrays.modify (fun l => l ++ [x]) addr }

/-- A new array on the heap; its address is the former number of arrays. -/
def Heap.alloc (h : Heap) (l : List String) : Heap :=
  { h with arrays := h.arrays ++ [l] }

/-- The assignment `o.followers = array` on an object outside `friendsData`. -/
def Heap.setFollowers (h : Heap) (r : Ref) (addr : Nat) : Heap :=
  { h with followers := fun x => if x = r then some addr else h.followers x }

/-- The value of `o.followers` on an object outside `friendsData`: its own
property, else the property of `Object.prototype`, which every object
inherits. -/
def Heap.followersOf (h : Heap) (r : Ref) : Option Nat :=
  match h.followers r with
  | some addr => some addr
  | none => if r = .member "__proto__" then none else h.followers (.member "__proto__")

/-- The second `readFriends` (the function declaration that is in force): the
parsed document, in which every entry gets `following || []` and
`followers || []`. An entry without an own `followers` finds the array of
`Object.prototype` when there is one. -/
def readFriends (g : Graph) (h : Heap) : MemGraph := fun k =>
  (g k).map fun e =>
    { friends := e.friends, requests := e.requests,
      following := some (e.following.getD []),
      followers := some (match e.followers with
        | some l => .own l
        | none =>
          match h.followers (.member "__proto__") with
          | some addr => .shared addr
          | none => .own []) }

/-- The function `writeFriends`: `JSON.stringify` of the own keys. -/
def writeFriends (m : MemGraph) (h : Heap) : Graph := fun k =>
  (m k).map fun e =>
    { friends := e.friends, requests := e.requests, following := e.following,
      followers := e.followers.map (fun r =>
        match r with
        | .own l => l
        | .shared addr => h.read addr) }

/-- The value of `friendsData[k]`: an own key, else a member of
`Object.prototype`, else (for the key `followers`) the array that
`Object.prototype` has got as property `followers`; `none` is `undefined`. -/
def lookup (m : MemGraph) (h : Heap) (k : String) : Option Slot :=
  match m k with
  | some e => some (.entry e)
  | none =>
    if k ∈ prototypeMembers then some (.object (.member k))
    else if k = "followers" then
      (h.followers (.member "__proto__")).map (fun addr => .object (.array addr))
    else none

/-- The statement `if (!friendsData[k]) friendsData[k] = e`. -/
def ensure (m : MemGraph) (h : Heap) (k : String) (e : MemEntry) : MemGraph :=
  match lookup m h k with
  | some _ => m
  | none => m.set k e

/-- The object literal `{ id: Date.now(), type, actor, message, recipient,
date: new Date().toISOString() }` of the three notifications of the social
graph. -/
def Clock.notification (clock : Clock) (type : NotificationType)
    (actor : String) (message : String) (recipient : String) : Notification :=
  { id := clock.now, type := type, actor := .text actor, message := utf16 message,
    recipient := .text recipient, postId := none, date := clock.iso }

/-- The two statements `friendsData[followed].followers =
friendsData[followed].followers || []` and `.push(follower)` of `POST /follow`. -/
def addFollower (m : MemGraph) (h : Heap) (followed follower : String) : MemGraph × Heap :=
  match m followed with
  | some e =>
    match e.followers with
    | some (.own l) => (m.set followed { e with followers := some (.own (l ++ [follower])) }, h)
    | some (.shared addr) => (m, h.push addr follower)
    | none =>
      match h.followers (.member "__proto__") with
      | some addr =>
        (m.set followed { e with followers := some (.shared addr) }, h.push addr follower)
      | none => (m.set followed { e with followers := some (.own [follower]) }, h)
  | none =>
    match lookup m h followed with
    | some (.object r) =>
      match h.followersOf r with
      | some addr => (m, (h.setFollowers r addr).push addr follower)
      | none => (m, ((h.alloc []).setFollowers r h.arrays.length).push h.arrays.length follower)
    | _ => (m, h)

/-- The statement `friendsData[followed].followers =
friendsData[followed].followers.filter(user => user !== follower)` of
`POST /unfollow`; `none` when `followers` is `undefined` and `filter` throws. -/
def removeFollower (m : MemGraph) (h : Heap) (followed follower : String) :
    Option (MemGraph × Heap) :=
  match m followed with
  | some e =>
    match e.followers with
    | some (.own l) =>
      some (m.set followed
        { e with followers := some (.own (l.filter (fun user => user ≠ follower))) }, h)
    | some (.shared addr) =>
      some (m.set followed
        { e with
          followers := some (.own ((h.read addr).filter (fun user => user ≠ follower))) }, h)
    | none =>
      match h.followers (.member "__proto__") with
      | some addr =>
        some (m.set followed
          { e with
            followers := some (.own ((h.read addr).filter (fun user => user ≠ follower))) }, h)
      | none => none
  | none =>
    match lookup m h followed with
    | some (.object r) =>
      match h.followersOf r with
      | some addr =>
        some (m, (h.alloc ((h.read addr).filter (fun user => user ≠ follower))).setFollowers r
          h.arrays.length)
      | none => none
    | _ => none

/-- Handler of `GET /friends`: creates and writes the caller's entry when
`friendsData[username]` is `undefined`. -/
def getFriends (s : State) (username : String) : Outcome × State :=
  if username = "" then (.invalidArgument, s)
  else
    let friendsData := readFriends s.friends s.heap
    match lookup friendsData s.heap username with
    | some _ => (.success, s)
    | none =>
      (.success, { s with friends := writeFriends (friendsData.set username MemEntry.full) s.heap })

/-- Handler of `POST /friend-request`. Reading `.friends` of an object found
through the prototype chain gives `undefined`, and `includes` throws. -/
def friendRequest (s : State) (clock : Clock) (fromUser toUser : String) : Outcome × State :=
  if fromUser = "" ∨ toUser = "" then (.invalidArgument, s)
  else if fromUser = toUser then (.invalidArgument, s)
  else
    let friendsData := ensure (ensure (readFriends s.friends s.heap) s.heap fromUser
      MemEntry.bare) s.heap toUser MemEntry.bare
    if ¬ (hasUser s.users fromUser ∧ hasUser s.users toUser) then (.notFound, s)
    else
      match friendsData fromUser with
      | none => (.internal, s)
      | some fromEntry =>
        if toUser ∈ fromEntry.friends then (.conflict, s)
        else
          match friendsData toUser with
          | none => (.internal, s)
          | some toEntry =>
            if fromUser ∈ toEntry.friends then (.conflict, s)
            else if toEntry.requests.any
                (fun r => r.fromUser == fromUser && r.toUser == toUser) then (.conflict, s)
            else
              let request : FriendRequest :=
                { fromUser := fromUser, toUser := toUser, date := clock.iso }
              let pushed := friendsData.set toUser
                { toEntry with requests := toEntry.requests ++ [request] }
              (.success, { s with
                friends := writeFriends pushed s.heap,
                notifications := s.notifications ++
                  [clock.notification .friendRequest fromUser "sent you a friend request"
                    toUser] })

/-- Handler of `POST /friend-request/accept`. Reading `.requests` or `.friends`
of an object found through the prototype chain gives `undefined`, and
`findIndex` or `push` throws. -/
def acceptRequest (s : State) (clock : Clock) (fromUser toUser : String) : Outcome × State :=
  if fromUser = "" ∨ toUser = "" then (.invalidArgument, s)
  else
    let friendsData := ensure (ensure (readFriends s.friends s.heap) s.heap fromUser
      MemEntry.bare) s.heap toUser MemEntry.bare
    let isRequest : FriendRequest → Bool :=
      fun r => r.fromUser == fromUser && r.toUser == toUser
    match friendsData toUser with
    | none => (.internal, s)
    | some toEntry =>
      if ¬ toEntry.requests.any isRequest then (.notFound, s)
      else
        let spliced := friendsData.set toUser
          { toEntry with requests := spliceFirst isRequest toEntry.requests }
        match spliced fromUser with
        | none => (.internal, s)
        | some fromEntry =>
          let pushed := spliced.set fromUser
            { fromEntry with friends := fromEntry.friends ++ [toUser] }
          match pushed toUser with
          | none => (.internal, s)
          | some toEntry' =>
            let pushedBoth := pushed.set toUser
              { toEntry' with friends := toEntry'.friends ++ [fromUser] }
            (.success, { s with
              friends := writeFriends pushedBoth s.heap,
              notifications := s.notifications ++
                [clock.notification .friendAccept toUser "accepted your friend request"
                  fromUser] })

/-- Handler of `POST /follow`. Reading `.following` of an object found through
the prototype chain gives `undefined`, and `includes` throws; `followers` of
such an object is set and pushed on in the memory of the process. -/
def follow (s : State) (clock : Clock) (follower followed : String) : Outcome × State :=
  if follower = "" ∨ followed = "" then (.invalidArgument, s)
  else if follower = followed then (.invalidArgument, s)
  else
    let friendsData := ensure (ensure (readFriends s.friends s.heap) s.heap follower
      MemEntry.full) s.heap followed MemEntry.full
    if ¬ (hasUser s.users follower ∧ hasUser s.users followed) then (.notFound, s)
    else
      match friendsData follower with
      | none => (.internal, s)
      | some followerEntry =>
        match followerEntry.following with
        | none => (.internal, s)
        | some following =>
          if followed ∈ following then (.conflict, s)
          else
            let pushed := friendsData.set follower
              { followerEntry with following := some (following ++ [followed]) }
            let both := addFollower pushed s.heap followed follower
            (.success, { s with
              friends := writeFriends both.1 both.2,
              heap := both.2,
              notifications := s.notifications ++
                [clock.notification .follow follower "started following you" followed] })

/-- Handler of `POST /unfollow`. -/
def unfollow (s : State) (follower followed : String) : Outcome × State :=
  if follower = "" ∨ followed = "" then (.invalidArgument, s)
  else
    let friendsData := readFriends s.friends s.heap
    match lookup friendsData s.heap follower, lookup friendsData s.heap followed with
    | some (.entry followerEntry), some _ =>
      match followerEntry.following with
      | none => (.internal, s)
      | some following =>
        if followed ∉ following then (.conflict, s)
        else
          let filtered := friendsData.set follower
            { followerEntry with
              following := some (following.filter (fun user => user ≠ followed)) }
          match removeFollower filtered s.heap followed follower with
          | none => (.internal, s)
          | some both =>
            (.success, { s with friends := writeFriends both.1 both.2, heap := both.2 })
    | some (.object _), some _ => (.internal, s)
    | _, _ => (.notFound, s)

/-! ## Requests -/

/-- One request of the API surface, with the route parameters and the body
fields its handler reads. -/
inductive Request where
  | getUsers
  | upsertUser (username userEmail : String) (photoURL : Option String)
  | updateUser (username : String) (bio banner : Option String)
  | getPosts
  | createPost (username userEmail caption : Field) (tag file : Option String)
  | bookmark (id : Nat) (username : Field)
  | unbookmark (id : Nat) (username : Field)
  | like (id : Nat) (username : Field)
  | unlike (id : Nat) (username : Field)
  | report (id : Nat) (username : Field)
  | unreport (id : Nat) (username : Field)
  | comment (id : Nat) (username text : Field)
  | vote (id : Nat) (username : Field) (optionIndex : OptionIndex)
  | deletePost (id : Nat) (username : String)
  | likeComment (id commentId : Nat) (username : String)
  | unlikeComment (id commentId : Nat) (username : String)
  | replyComment (id commentId : Nat) (username text : String)
  | getNotifications (username : String)
  | deleteNotification (id : Nat) (username : String)
  | deleteAllNotifications (username : String)
  | getFriends (username : String)
  | friendRequest (fromUser toUser : String)
  | acceptRequest (fromUser toUser : String)
  | follow (follower followed : String)
  | unfollow (follower followed : String)
  deriving DecidableEq

/-- Route dispatch: the outcome of a request and the state after it. -/
def handle (s : State) (clock : Clock) : Request → Outcome × State
  | .getUsers => (.success, s)
  | .upsertUser username userEmail photoURL => upsertUser s username userEmail photoURL
  | .updateUser username bio banner => updateUser s username bio banner
  | .getPosts => (.success, s)
  | .createPost username userEmail caption tag file =>
    createPost s clock username userEmail caption tag file
  | .bookmark id username => bookmark s id username
  | .unbookmark id username => unbookmark s id username
  | .like id username => like s clock id username
  | .unlike id username => unlike s id username
  | .report id username => report s id username
  | .unreport id username => unreport s id username
  | .comment id username text => comment s clock id username text
  | .vote id username optionIndex => vote s id username optionIndex
  | .deletePost id username => deletePost s id username
  | .likeComment id commentId username => likeComment s clock id commentId username
  | .unlikeComment id commentId username => unlikeComment s id commentId username
  | .replyComment id commentId username text => replyComment s clock id commentId username text
  | .getNotifications username => getNotifications s username
  | .deleteNotification id username => deleteNotification s id username
  | .deleteAllNotifications username => deleteAllNotifications s username
  | .getFriends username => getFriends s username
  | .friendRequest fromUser toUser => friendRequest s clock fromUser toUser
  | .acceptRequest fromUser toUser => acceptRequest s clock fromUser toUser
  | .follow follower followed => follow s clock follower followed
  | .unfollow follower followed => unfollow s follower followed

/-- States reached from `s₀` by serving, one after the other, requests that
satisfy `allowed`, each under its own clock readings. -/
inductive Reach (allowed : Request → Bool) (s₀ : State) : State → Prop where
  | init : Reach allowed s₀ s₀
  | step {s : State} (clock : Clock) (r : Request) :
      Reach allowed s₀ s → allowed r = true → Reach allowed s₀ (handle s clock r).2

/-! ## Specification-side definitions -/

/-- Every request of the API surface is allowed. -/
def anyRequest : Request → Bool := fun _ => true

/-- The five requests of the like and report counters. -/
def countRequest : Request → Bool
  | .createPost _ _ _ _ _ => true
  | .like _ _ => true
  | .unlike _ _ => true
  | .report _ _ => true
  | .unreport _ _ => true
  | _ => false

/-- The requests that read or write the social graph: follow, unfollow,
friend-request, accept and get-friends. -/
def graphRequest : Request → Bool
  | .follow _ _ => true
  | .unfollow _ _ => true
  | .friendRequest _ _ => true
  | .acceptRequest _ _ => true
  | .getFriends _ => true
  | _ => false

/-- The friend-request and accept requests. -/
def friendshipRequest : Request → Bool
  | .friendRequest _ _ => true
  | .acceptRequest _ _ => true
  | _ => false

/-- The four requests that write edges of the social graph: friend-request,
accept, follow and unfollow. -/
def edgeRequest : Request → Bool
  | .friendRequest _ _ => true
  | .acceptRequest _ _ => true
  | .follow _ _ => true
  | .unfollow _ _ => true
  | _ => false

/-- The create-post requests. -/
def isCreatePost : Request → Bool
  | .createPost _ _ _ _ _ => true
  | _ => false

/-- The user upserts. -/
def upsertRequest : Request → Bool
  | .upsertUser _ _ _ => true
  | _ => false

/-- The user upserts in which the email submitted with a username is always
`emailOf username`: no username comes with two different emails. -/
def upsertKeyed (emailOf : String → String) : Request → Bool
  | .upsertUser username userEmail _ => userEmail == emailOf username
  | _ => false

/-- Serving a sequence of requests one after the other, each under its own clock
readings. -/
def serve (s : State) : List (Clock × Request) → State
  | [] => s
  | step :: rest => serve (handle s step.1 step.2).2 rest

/-- The three toggles on a post. -/
inductive Toggle where
  | like
  | report
  | bookmark
  deriving DecidableEq

/-- The "on" request of a toggle. -/
def Toggle.on : Toggle → Nat → Field → Request
  | .like, id, username => .like id username
  | .report, id, username => .report id username
  | .bookmark, id, username => .bookmark id username

/-- The "off" request of a toggle. -/
def Toggle.off : Toggle → Nat → Field → Request
  | .like, id, username => .unlike id username
  | .report, id, username => .unreport id username
  | .bookmark, id, username => .unbookmark id username

/-- The username array a toggle works on. -/
def Toggle.members : Toggle → Post → Option (List (Option String))
  | .like, p => p.likedBy
  | .report, p => p.reportedBy
  | .bookmark, p => p.bookmarkedBy

/-- The pending requests of every entry have distinct sender and recipient. -/
def RequestsOk (g : Graph) : Prop :=
  ∀ k e, g k = some e → ∀ r ∈ e.requests, r.fromUser ≠ r.toUser

/-- No stored notification is addressed to its own actor, and no pending
friend request is addressed to its own sender. -/
def SelfFree (s : State) : Prop :=
  (∀ n ∈ s.notifications, n.actor ≠ n.recipient) ∧ RequestsOk s.friends

/-- Friendship is symmetric: `y ∈ friends(x)` exactly when `x ∈ friends(y)`. -/
def FriendsSymmetric (g : Graph) : Prop :=
  ∀ x y, y ∈ (g.entry x).friends ↔ x ∈ (g.entry y).friends

/-- A post as the API leaves it: no poll, and comments that are the bare
`{ username, text }` objects of `POST /posts/:id/comment`. -/
def Plain (p : Post) : Prop :=
  p.poll = none ∧ ∀ c ∈ p.comments, c.id = none ∧ c.replies = none

mutual
/-- Pre-order listing of one comment: the comment, then its replies. -/
def preOrderOf : Comment → List Comment
  | .mk i u t l r => .mk i u t l r :: preOrderReplies r
termination_by structural c => c
/-- Pre-order listing of a comment forest: a comment before its replies,
siblings in sequence order. -/
def preOrder : List Comment → List Comment
  | [] => []
  | c :: rest => preOrderOf c ++ preOrder rest
termination_by structural cs => cs
/-- Pre-order listing of an optional replies array. -/
def preOrderReplies : Option (List Comment) → List Comment
  | none => []
  | some rs => preOrder rs
termination_by structural r => r
end

/-- The node reached from a forest by a path of child indices; a path of
length `N + 1` ends at depth `N`. -/
def nodeAt : List Comment → List Nat → Option Comment
  | _, [] => none
  | cs, [i] => cs[i]?
  | cs, i :: j :: path =>
    match cs[i]? with
    | some c => nodeAt (c.replies.getD []) (j :: path)
    | none => none

/-- The forest with the node at a path replaced by `new`, every other node
kept. -/
def replaceAt : List Comment → List Nat → Comment → List Comment
  | cs, [], _ => cs
  | cs, [i], new => cs.set i new
  | cs, i :: j :: path, new =>
    match cs[i]? with
    | some (.mk id u t l (some rs)) =>
      cs.set i (.mk id u t l (some (replaceAt rs (j :: path) new)))
    | _ => cs

/-- The number a `votes` entry stands for in a sum: a JSON `null` adds `0`. -/
def voteCount (v : Option Int) : Int := v.getD 0

/-- The sum of the vote counts of a poll. -/
def sumVotes (votes : List (Option Int)) : Int := (votes.map voteCount).sum

/-- The handler of `DELETE /posts/:id` together with its media collaborator:
`unlinkFails` is whether `fs.unlink` reports an error to its callback, and the
third component is what that callback passes to `console.error`. The callback
does nothing else, and `fs.unlink` is called only after `writePosts`. -/
def deletePostMedia (s : State) (id : Nat) (username : String) (unlinkFails : Bool) :
    Outcome × State × List String :=
  if username = "" then (.invalidArgument, s, [])
  else
    match findPost s.posts id with
    | none => (.notFound, s, [])
    | some post =>
      if post.username ≠ .text username then (.forbidden, s, [])
      else
        (.success, { s with posts := s.posts.filter (fun p => p.id ≠ id) },
          if post.media.isSome ∧ unlinkFails = true then ["Error deleting media file:"]
          else [])

/-- The `friends` array of `friendsData[k]` while a request is served, an entry
that is not there counting as empty. -/
def MemGraph.friendsOf (m : MemGraph) (k : String) : List String :=
  ((m k).map (fun e => e.friends)).getD []

/-- The `requests` array of `friendsData[k]` while a request is served, an entry
that is not there counting as empty. -/
def MemGraph.requestsOf (m : MemGraph) (k : String) : List FriendRequest :=
  ((m k).map (fun e => e.requests)).getD []

/-! ### Example states -/

/-- Users alice and bob, no posts, no notifications, an empty graph object. -/
def twoUsers : State :=
  { State.empty with
    users := [⟨"alice", "alice@example.org", none, none, none⟩,
              ⟨"bob", "bob@example.org", none, none, none⟩] }

/-- The state after alice creates the post `hello` at clock reading 1000. -/
def onePost : State :=
  (handle State.empty ⟨1000, "t0"⟩
    (.createPost (.text "alice") (.text "alice@example.org") (.text "hello") none none)).2

/-- The post of `onePost`, as `POST /posts` stored it. -/
def helloPost : Post :=
  { id := 1000, username := .text "alice", userEmail := .text "alice@example.org",
    caption := .text "hello", tag := none, date := "t0", likes := 0, reports := 0,
    comments := [], media := none, mediaType := none, likedBy := some [],
    reportedBy := some [], bookmarkedBy := some [], poll := none }

/-- The state after alice and then bob like the post of `onePost`. -/
def selfWitness : State :=
  (handle (handle onePost ⟨1001, "t1"⟩ (.like 1000 (.text "alice"))).2 ⟨1002, "t2"⟩
    (.like 1000 (.text "bob"))).2

/-- The reply 9 (by dave) at depth 2 of `threadedPost`. -/
def deepReply : Comment :=
  .mk (some 9) (.text "dave") (.text "third") (some []) (some [])

/-- A post of alice whose comment 7 (by bob) has the reply 8 (by carol), which
has the reply 9 (by dave). -/
def threadedPost : Post :=
  { id := 1000, username := .text "alice", userEmail := .text "alice@example.org",
    caption := .text "hello", tag := none, date := "t0", likes := 0, reports := 0,
    comments := [
      .mk (some 7) (.text "bob") (.text "first") (some []) (some [
        .mk (some 8) (.text "carol") (.text "second") (some []) (some [deepReply])])],
    media := none, mediaType := none, likedBy := some [], reportedBy := some [],
    bookmarkedBy := some [], poll := none }

/-- The posts collection holding `threadedPost` only. -/
def threaded : State :=
  { State.empty with posts := [threadedPost] }

/-- A text of 60 characters. -/
def sixty : String := "123456789012345678901234567890123456789012345678901234567890"

/-- A two-option poll in which bob voted for option 0. -/
def teaPoll : Poll :=
  { options := ["yes", "no"], votes := [some 1, some 0], votedBy := some [some "bob"] }

/-- A post of alice carrying `teaPoll`. -/
def pollPost : Post :=
  { id := 1000, username := .text "alice", userEmail := .text "alice@example.org",
    caption := .text "tea?", tag := none, date := "t0", likes := 0, reports := 0,
    comments := [], media := none, mediaType := none, likedBy := some [],
    reportedBy := some [], bookmarkedBy := some [], poll := some teaPoll }

/-- The posts collection holding `pollPost` only. -/
def polled : State :=
  { State.empty with posts := [pollPost] }

/-- The state after alice posts at clock reading 1000, bob posts at 1001, and
carol likes both posts within the same millisecond 5000: two notifications with
the identifier 5000, the first to alice, the second to bob. -/
def sameMillisecond : State :=
  (handle (handle (handle (handle State.empty ⟨1000, "t0"⟩
    (.createPost (.text "alice") (.text "alice@example.org") (.text "hello") none none)).2
    ⟨1001, "t1"⟩
    (.createPost (.text "bob") (.text "bob@example.org") (.text "hi") none none)).2
    ⟨5000, "t5"⟩ (.like 1000 (.text "carol"))).2 ⟨5000, "t5"⟩ (.like 1001 (.text "carol"))).2

/-- The state after alice sends bob a friend request, from `twoUsers`. -/
def requested : State :=
  (handle twoUsers ⟨5, "t5"⟩ (.friendRequest "alice" "bob")).2

/-- The state after bob accepts the friend request of `requested`. -/
def befriended : State :=
  (handle requested ⟨6, "t6"⟩ (.acceptRequest "alice" "bob")).2

/-- Two create-post requests served within the same millisecond 1000. -/
def twinPosts : List (Clock × Request) :=
  [(⟨1000, "t0"⟩,
      .createPost (.text "alice") (.text "alice@example.org") (.text "hello") none none),
   (⟨1000, "t0"⟩, .createPost (.text "bob") (.text "bob@example.org") (.text "hi") none none)]

/-- Two create-post requests served one millisecond apart. -/
def spacedPosts : List (Clock × Request) :=
  [(⟨1000, "t0"⟩,
      .createPost (.text "alice") (.text "alice@example.org") (.text "hello") none none),
   (⟨1001, "t1"⟩, .createPost (.text "bob") (.text "bob@example.org") (.text "hi") none none)]

/-- The state after alice and bob send each other a friend request and both
requests are accepted, from `twoUsers`. -/
def crossed : State :=
  (handle (handle (handle requested ⟨6, "t6"⟩ (.friendRequest "bob" "alice")).2
    ⟨7, "t7"⟩ (.acceptRequest "alice" "bob")).2 ⟨8, "t8"⟩ (.acceptRequest "bob" "alice")).2

/-- The users collection after upserts for alice and bob. -/
def registered : State :=
  (handle (handle State.empty ⟨1, "t1"⟩ (.upsertUser "alice" "alice@example.org" none)).2
    ⟨2, "t2"⟩ (.upsertUser "bob" "bob@example.org" none)).2

/-- The users collection after two upserts for the username alice under two
emails. -/
def sameName : State :=
  (handle (handle State.empty ⟨1, "t1"⟩ (.upsertUser "alice" "alice@example.org" none)).2
    ⟨2, "t2"⟩ (.upsertUser "alice" "alice@example.net" none)).2

/-- The email under which each username of `registered` was submitted. -/
def exampleEmail (username : String) : String := username ++ "@example.org"

/-- The state after alice creates the post `hello` and bob comments on it. -/
def commented : State :=
  (handle onePost ⟨1001, "t1"⟩ (.comment 1000 (.text "bob") (.text "nice"))).2

/-- The state after two like requests without a username on the post of
`onePost`. -/
def likedTwice : State :=
  (handle (handle onePost ⟨1001, "t1"⟩ (.like 1000 .absent)).2 ⟨1002, "t2"⟩
    (.like 1000 .absent)).2

/-- The state after an unlike request with the username `null` on `likedTwice`. -/
def unlikedOnce : State :=
  (handle likedTwice ⟨1003, "t3"⟩ (.unlike 1000 .null)).2

/-- Users alice and constructor, nothing else: the state after the two
upserts. -/
def inheritedName : State :=
  (handle (handle State.empty ⟨1, "t1"⟩ (.upsertUser "alice" "alice@example.org" none)).2
    ⟨2, "t2"⟩ (.upsertUser "constructor" "constructor@example.org" none)).2

/-- Users alice, bob and `__proto__`, nothing else: the state after the three
upserts. -/
def protoUsers : State :=
  (handle (handle (handle State.empty ⟨1, "t1"⟩
    (.upsertUser "alice" "alice@example.org" none)).2
    ⟨2, "t2"⟩ (.upsertUser "bob" "bob@example.org" none)).2
    ⟨3, "t3"⟩ (.upsertUser "__proto__" "proto@example.org" none)).2

/-- The state after alice follows `__proto__`, bob sends alice a friend request
and bob follows `__proto__`, from `protoUsers`. -/
def selfEdge : State :=
  (handle (handle (handle protoUsers ⟨5, "t5"⟩ (.follow "alice" "__proto__")).2 ⟨6, "t6"⟩
    (.friendRequest "bob" "alice")).2 ⟨7, "t7"⟩ (.follow "bob" "__proto__")).2

/-- The state after the two create-post requests of `twinPosts`: two posts with
the identifier 1000, the first of alice, the second of bob. -/
def twins : State := serve State.empty twinPosts

/-- The state after carol likes post 1000 in `twins`. -/
def twinLiked : State :=
  (handle twins ⟨2000, "t2"⟩ (.like 1000 (.text "carol"))).2

/-- The state after alice creates a post without a caption at clock reading
1000. -/
def captionless : State :=
  (handle State.empty ⟨1000, "t0"⟩
    (.createPost (.text "alice") (.text "alice@example.org") .absent none none)).2

/-- A text of 30 characters outside the Basic Multilingual Plane (U+1F600), each
of which takes two UTF-16 code units. -/
def thirtyAstral : String := String.mk (List.replicate 30 (Char.ofNat 0x1F600))

/-- The state after dave replies to comment 7 and to comment 8 of `threaded`
within the same millisecond 5000 and erin likes comment 5000. -/
def twinReplies : State :=
  (handle (handle (handle threaded ⟨5000, "t5"⟩ (.replyComment 1000 7 "dave" "a")).2
    ⟨5000, "t5"⟩ (.replyComment 1000 8 "dave" "b")).2
    ⟨5001, "t6"⟩ (.likeComment 1000 5000 "erin")).2

/-- Users alice and bob with a complete empty graph entry each. -/
def withEntries : State :=
  { twoUsers with
    friends := fun k => if k = "alice" ∨ k = "bob" then some GraphEntry.empty else none }

/-- Users alice and bob with a graph entry each, in which the `followers` of bob
already list alice although the `following` of alice do not list bob. -/
def lopsided : State :=
  { twoUsers with
    friends := fun k =>
      if k = "alice" then some GraphEntry.empty
      else if k = "bob" then some { GraphEntry.empty with followers := some ["alice"] }
      else none }

/-- Users alice, bob and carol, nothing else: the state after the three
upserts. -/
def threeUsers : State :=
  (handle (handle (handle State.empty ⟨1, "t1"⟩
    (.upsertUser "alice" "alice@example.org" none)).2
    ⟨2, "t2"⟩ (.upsertUser "bob" "bob@example.org" none)).2
    ⟨3, "t3"⟩ (.upsertUser "carol" "carol@example.org" none)).2

/-- The state after get-friends requests of alice and of bob and a friend
request of carol to alice, from `threeUsers`: alice and bob have complete
entries, the entry of carol is `{ friends: [], requests: [] }`. -/
def withBare : State :=
  (handle (handle (handle threeUsers ⟨4, "t4"⟩ (.getFriends "alice")).2
    ⟨5, "t5"⟩ (.getFriends "bob")).2
    ⟨6, "t6"⟩ (.friendRequest "carol" "alice")).2

/-! ## Theorems -/

set_option linter.unusedTactic false

/-! ### Lemmas on the posts array -/

theorem findPost_some {posts : List Post} {id : Nat} {p : Post}
    (h : findPost posts id = some p) : p ∈ posts ∧ p.id = id := by
  unfold findPost at h
  exact ⟨List.mem_of_find?_eq_some h, by simpa using List.find?_some h⟩

theorem mem_replacePost {posts : List Post} {id : Nat} {p' q : Post}
    (h : q ∈ replacePost posts id p') : q = p' ∨ q ∈ posts := by
  induction posts with
  | nil => simp [replacePost] at h
  | cons a as ih =>
    simp only [replacePost] at h
    split at h
    · rcases List.mem_cons.1 h with h | h
      · exact Or.inl h
      · exact Or.inr (List.mem_cons_of_mem _ h)
    · rcases List.mem_cons.1 h with h | h
      · exact Or.inr (h ▸ List.mem_cons_self _ _)
      · rcases ih h with h | h
        · exact Or.inl h
        · exact Or.inr (List.mem_cons_of_mem _ h)

theorem findPost_replacePost {posts : List Post} {id : Nat} {p p' : Post}
    (h : findPost posts id = some p) (hid : p'.id = id) :
    findPost (replacePost posts id p') id = some p' := by
  induction posts with
  | nil => simp [findPost] at h
  | cons a as ih =>
    by_cases ha : a.id = id
    · simp [replacePost, ha, findPost, hid]
    · have : findPost as id = some p := by
        simpa [findPost, List.find?_cons, ha] using h
      simp only [replacePost, ha, if_false]
      simpa [findPost, List.find?_cons, ha] using ih this

theorem replacePost_replacePost (posts : List Post) (id : Nat) (p' p'' : Post)
    (hid : p'.id = id) :
    replacePost (replacePost posts id p') id p'' = replacePost posts id p'' := by
  induction posts with
  | nil => rfl
  | cons a as ih =>
    by_cases ha : a.id = id
    · simp [replacePost, ha, hid]
    · simp [replacePost, ha, ih]

theorem replacePost_self {posts : List Post} {id : Nat} {p : Post}
    (h : findPost posts id = some p) : replacePost posts id p = posts := by
  induction posts with
  | nil => rfl
  | cons a as ih =>
    by_cases ha : a.id = id
    · have hap : a = p := by simpa [findPost, List.find?_cons, ha] using h
      subst hap
      simp [replacePost, ha]
    · have : findPost as id = some p := by
        simpa [findPost, List.find?_cons, ha] using h
      simp [replacePost, ha, ih this]

theorem replacePost_eq_self_of_eq {posts : List Post} {id : Nat} {p q : Post}
    (h : findPost posts id = some p) (hq : q = p) : replacePost posts id q = posts :=
  hq ▸ replacePost_self h

theorem replacePost_split {posts : List Post} {id : Nat} {p : Post} (p' : Post)
    (h : findPost posts id = some p) :
    ∃ before after, posts = before ++ p :: after ∧ (∀ q ∈ before, q.id ≠ id) ∧
      replacePost posts id p' = before ++ p' :: after := by
  induction posts with
  | nil => simp [findPost] at h
  | cons a as ih =>
    by_cases ha : a.id = id
    · have : a = p := by simpa [findPost, List.find?_cons, ha] using h
      exact ⟨[], as, by simp [this], by simp, by simp [replacePost, ha]⟩
    · have : findPost as id = some p := by
        simpa [findPost, List.find?_cons, ha] using h
      obtain ⟨b, c, h1, h2, h3⟩ := ih this
      refine ⟨a :: b, c, by simp [h1], ?_, by simp [replacePost, ha, h3]⟩
      intro q hq
      rcases List.mem_cons.1 hq with hq | hq
      · exact hq ▸ ha
      · exact h2 q hq

theorem forall_replacePost {P : Post → Prop} {posts : List Post} {id : Nat} {p' : Post}
    (h : ∀ q ∈ posts, P q) (hp : P p') : ∀ q ∈ replacePost posts id p', P q := by
  intro q hq
  rcases mem_replacePost hq with rfl | hq
  · exact hp
  · exact h q hq

/-! ### Lemmas on username arrays -/

theorem includes_element_iff (arr : List (Option String)) (u : Field) (h : u ≠ .absent) :
    includes arr u = true ↔ u.element ∈ arr := by
  cases u with
  | absent => exact absurd rfl h
  | null => simp [includes, Field.element]
  | text s => simp [includes, Field.element]

theorem includes_append_element (arr : List (Option String)) (u : Field) (h : u ≠ .absent) :
    includes (arr ++ [u.element]) u = true := by
  rw [includes_element_iff _ _ h]
  simp

theorem without_eq_filter (arr : List (Option String)) (u : Field) (h : u ≠ .absent) :
    without arr u = arr.filter (fun user => user ≠ u.element) := by
  cases u with
  | absent => exact absurd rfl h
  | null => rfl
  | text s => rfl

theorem filter_ne_of_not_mem {α : Type} [DecidableEq α] {l : List α} {u : α} (hu : u ∉ l) :
    l.filter (fun user => user ≠ u) = l := by
  apply List.filter_eq_self.2
  intro x hx
  have : x ≠ u := fun e => hu (e ▸ hx)
  simpa using this

theorem filter_append_singleton_self {α : Type} [DecidableEq α] {l : List α} {u : α}
    (hu : u ∉ l) : (l ++ [u]).filter (fun user => user ≠ u) = l := by
  rw [List.filter_append, filter_ne_of_not_mem hu]
  simp

theorem without_append_element {arr : List (Option String)} {u : Field} (h : u ≠ .absent)
    (hu : includes arr u = false) : without (arr ++ [u.element]) u = arr := by
  rw [without_eq_filter _ _ h]
  apply filter_append_singleton_self
  intro hm
  rw [← includes_element_iff _ _ h, hu] at hm
  cases hm

/-! ### Lemmas on the graph object -/

theorem entry_writeFriends_friends (m : MemGraph) (h : Heap) (k : String) :
    ((writeFriends m h).entry k).friends = m.friendsOf k := by
  cases hm : m k <;> simp [Graph.entry, writeFriends, MemGraph.friendsOf, hm, GraphEntry.empty]

theorem entry_writeFriends_requests (m : MemGraph) (h : Heap) (k : String) :
    ((writeFriends m h).entry k).requests = m.requestsOf k := by
  cases hm : m k <;> simp [Graph.entry, writeFriends, MemGraph.requestsOf, hm, GraphEntry.empty]

theorem friendsOf_readFriends (g : Graph) (h : Heap) (k : String) :
    (readFriends g h).friendsOf k = (g.entry k).friends := by
  cases hg : g k <;> simp [Graph.entry, readFriends, MemGraph.friendsOf, hg, GraphEntry.empty]

theorem requestsOf_readFriends (g : Graph) (h : Heap) (k : String) :
    (readFriends g h).requestsOf k = (g.entry k).requests := by
  cases hg : g k <;> simp [Graph.entry, readFriends, MemGraph.requestsOf, hg, GraphEntry.empty]

theorem friendsOf_set (m : MemGraph) (k : String) (e : MemEntry) (x : String) :
    (m.set k e).friendsOf x = if x = k then e.friends else m.friendsOf x := by
  unfold MemGraph.friendsOf MemGraph.set
  by_cases h : x = k <;> simp [h]

theorem requestsOf_set (m : MemGraph) (k : String) (e : MemEntry) (x : String) :
    (m.set k e).requestsOf x = if x = k then e.requests else m.requestsOf x := by
  unfold MemGraph.requestsOf MemGraph.set
  by_cases h : x = k <;> simp [h]

theorem friendsOf_of_some {m : MemGraph} {k : String} {e : MemEntry} (h : m k = some e) :
    m.friendsOf k = e.friends := by
  simp [MemGraph.friendsOf, h]

theorem requestsOf_of_some {m : MemGraph} {k : String} {e : MemEntry} (h : m k = some e) :
    m.requestsOf k = e.requests := by
  simp [MemGraph.requestsOf, h]

theorem friendsOf_set_same (m : MemGraph) {k : String} {e e' : MemEntry} (x : String)
    (h : m k = some e) (he : e'.friends = e.friends) :
    (m.set k e').friendsOf x = m.friendsOf x := by
  rw [friendsOf_set]
  by_cases hx : x = k
  · subst hx; simp [friendsOf_of_some h, he]
  · simp [hx]

theorem requestsOf_set_same (m : MemGraph) {k : String} {e e' : MemEntry} (x : String)
    (h : m k = some e) (he : e'.requests = e.requests) :
    (m.set k e').requestsOf x = m.requestsOf x := by
  rw [requestsOf_set]
  by_cases hx : x = k
  · subst hx; simp [requestsOf_of_some h, he]
  · simp [hx]

theorem friendsOf_set_following (m : MemGraph) {k : String} {e : MemEntry}
    (fo : Option (List String)) (x : String) (h : m k = some e) :
    (m.set k { e with following := fo }).friendsOf x = m.friendsOf x :=
  friendsOf_set_same m x h rfl

theorem requestsOf_set_following (m : MemGraph) {k : String} {e : MemEntry}
    (fo : Option (List String)) (x : String) (h : m k = some e) :
    (m.set k { e with following := fo }).requestsOf x = m.requestsOf x :=
  requestsOf_set_same m x h rfl

theorem friendsOf_set_requests (m : MemGraph) {k : String} {e : MemEntry}
    (rq : List FriendRequest) (x : String) (h : m k = some e) :
    (m.set k { e with requests := rq }).friendsOf x = m.friendsOf x :=
  friendsOf_set_same m x h rfl

theorem requestsOf_set_friends (m : MemGraph) {k : String} {e : MemEntry}
    (fr : List String) (x : String) (h : m k = some e) :
    (m.set k { e with friends := fr }).requestsOf x = m.requestsOf x :=
  requestsOf_set_same m x h rfl

theorem ensure_cases (m : MemGraph) (h : Heap) (k : String) (e : MemEntry) :
    ensure m h k e = m ∨ (m k = none ∧ ensure m h k e = m.set k e) := by
  unfold ensure
  cases hl : lookup m h k with
  | some _ => exact Or.inl rfl
  | none =>
    right
    refine ⟨?_, rfl⟩
    unfold lookup at hl
    cases hm : m k with
    | none => rfl
    | some e' => simp [hm] at hl

theorem friendsOf_ensure (m : MemGraph) (h : Heap) (k : String) (e : MemEntry) (x : String)
    (he : e.friends = []) : (ensure m h k e).friendsOf x = m.friendsOf x := by
  rcases ensure_cases m h k e with hs | ⟨hn, hs⟩
  · rw [hs]
  · rw [hs, friendsOf_set]
    by_cases hx : x = k
    · subst hx; simp [MemGraph.friendsOf, hn, he]
    · simp [hx]

theorem requestsOf_ensure (m : MemGraph) (h : Heap) (k : String) (e : MemEntry) (x : String)
    (he : e.requests = []) : (ensure m h k e).requestsOf x = m.requestsOf x := by
  rcases ensure_cases m h k e with hs | ⟨hn, hs⟩
  · rw [hs]
  · rw [hs, requestsOf_set]
    by_cases hx : x = k
    · subst hx; simp [MemGraph.requestsOf, hn, he]
    · simp [hx]

theorem friendsOf_addFollower (m : MemGraph) (h : Heap) (b a x : String) :
    (addFollower m h b a).1.friendsOf x = m.friendsOf x := by
  unfold addFollower
  cases hm : m b with
  | none => simp only []; repeat' split
            all_goals rfl
  | some e =>
    simp only []
    repeat' split
    all_goals first
      | rfl
      | exact friendsOf_set_same m x hm rfl

theorem requestsOf_addFollower (m : MemGraph) (h : Heap) (b a x : String) :
    (addFollower m h b a).1.requestsOf x = m.requestsOf x := by
  unfold addFollower
  cases hm : m b with
  | none => simp only []; repeat' split
            all_goals rfl
  | some e =>
    simp only []
    repeat' split
    all_goals first
      | rfl
      | exact requestsOf_set_same m x hm rfl

theorem friendsOf_removeFollower {m : MemGraph} {h : Heap} {b a : String}
    {both : MemGraph × Heap} (hr : removeFollower m h b a = some both) (x : String) :
    both.1.friendsOf x = m.friendsOf x := by
  unfold removeFollower at hr
  cases hm : m b with
  | none =>
    simp only [hm] at hr
    repeat' split at hr
    all_goals (cases hr <;> rfl)
  | some e =>
    simp only [hm] at hr
    repeat' split at hr
    all_goals (cases hr <;> exact friendsOf_set_same m x hm rfl)

theorem requestsOf_removeFollower {m : MemGraph} {h : Heap} {b a : String}
    {both : MemGraph × Heap} (hr : removeFollower m h b a = some both) (x : String) :
    both.1.requestsOf x = m.requestsOf x := by
  unfold removeFollower at hr
  cases hm : m b with
  | none =>
    simp only [hm] at hr
    repeat' split at hr
    all_goals (cases hr <;> rfl)
  | some e =>
    simp only [hm] at hr
    repeat' split at hr
    all_goals (cases hr <;> exact requestsOf_set_same m x hm rfl)

/-! ### Lemmas on graph entries -/

theorem friendsOf_initial (g : Graph) (h : Heap) (a b : String) (e e' : MemEntry)
    (he : e.friends = []) (he' : e'.friends = []) (x : String) :
    (ensure (ensure (readFriends g h) h a e) h b e').friendsOf x = (g.entry x).friends := by
  rw [friendsOf_ensure _ _ _ _ _ he', friendsOf_ensure _ _ _ _ _ he, friendsOf_readFriends]

theorem requestsOf_initial (g : Graph) (h : Heap) (a b : String) (e e' : MemEntry)
    (he : e.requests = []) (he' : e'.requests = []) (x : String) :
    (ensure (ensure (readFriends g h) h a e) h b e').requestsOf x = (g.entry x).requests := by
  rw [requestsOf_ensure _ _ _ _ _ he', requestsOf_ensure _ _ _ _ _ he, requestsOf_readFriends]

theorem getFriends_entries (s : State) (username x : String) :
    ((getFriends s username).2.friends.entry x).friends = (s.friends.entry x).friends ∧
    ((getFriends s username).2.friends.entry x).requests = (s.friends.entry x).requests := by
  simp only [getFriends]
  split
  · exact ⟨rfl, rfl⟩
  · split
    · exact ⟨rfl, rfl⟩
    · rename_i hl
      have hn : readFriends s.friends s.heap username = none := by
        unfold lookup at hl
        cases hm : readFriends s.friends s.heap username with
        | none => rfl
        | some e => simp [hm] at hl
      constructor
      · show ((writeFriends _ _).entry x).friends = _
        rw [entry_writeFriends_friends, friendsOf_set, ← friendsOf_readFriends _ s.heap]
        by_cases hx : x = username
        · subst hx; simp [MemGraph.friendsOf, hn, MemEntry.full]
        · simp [hx]
      · show ((writeFriends _ _).entry x).requests = _
        rw [entry_writeFriends_requests, requestsOf_set, ← requestsOf_readFriends _ s.heap]
        by_cases hx : x = username
        · subst hx; simp [MemGraph.requestsOf, hn, MemEntry.full]
        · simp [hx]

theorem follow_entries (s : State) (clock : Clock) (a b x : String) :
    ((follow s clock a b).2.friends.entry x).friends = (s.friends.entry x).friends ∧
    ((follow s clock a b).2.friends.entry x).requests = (s.friends.entry x).requests := by
  simp only [follow]
  split
  · exact ⟨rfl, rfl⟩
  split
  · exact ⟨rfl, rfl⟩
  split
  · exact ⟨rfl, rfl⟩
  cases hfe : ensure (ensure (readFriends s.friends s.heap) s.heap a MemEntry.full) s.heap b
      MemEntry.full a with
  | none => exact ⟨rfl, rfl⟩
  | some followerEntry =>
    simp only []
    cases hfo : followerEntry.following with
    | none => exact ⟨rfl, rfl⟩
    | some following =>
      simp only []
      split
      · exact ⟨rfl, rfl⟩
      · constructor
        · show ((writeFriends _ _).entry x).friends = _
          rw [entry_writeFriends_friends, friendsOf_addFollower,
            friendsOf_set_following _ _ x hfe, friendsOf_initial _ _ _ _ _ _ rfl rfl]
        · show ((writeFriends _ _).entry x).requests = _
          rw [entry_writeFriends_requests, requestsOf_addFollower,
            requestsOf_set_following _ _ x hfe, requestsOf_initial _ _ _ _ _ _ rfl rfl]

theorem lookup_entry {m : MemGraph} {h : Heap} {k : String} {e : MemEntry}
    (hl : lookup m h k = some (.entry e)) : m k = some e := by
  unfold lookup at hl
  cases hm : m k with
  | none =>
    simp only [hm] at hl
    split at hl
    · cases hl
    · split at hl
      · cases hp : h.followers (Ref.member "__proto__") <;> simp [hp] at hl
      · cases hl
  | some e' =>
    simp only [hm, Option.some.injEq, Slot.entry.injEq] at hl
    rw [hl]

theorem unfollow_entries (s : State) (a b x : String) :
    ((unfollow s a b).2.friends.entry x).friends = (s.friends.entry x).friends ∧
    ((unfollow s a b).2.friends.entry x).requests = (s.friends.entry x).requests := by
  simp only [unfollow]
  split
  · exact ⟨rfl, rfl⟩
  cases hla : lookup (readFriends s.friends s.heap) s.heap a with
  | none => exact ⟨rfl, rfl⟩
  | some slot =>
    cases hlb : lookup (readFriends s.friends s.heap) s.heap b with
    | none => cases slot <;> exact ⟨rfl, rfl⟩
    | some slot' =>
      cases slot with
      | object r => exact ⟨rfl, rfl⟩
      | entry followerEntry =>
        have hfe := lookup_entry hla
        simp only []
        cases hfo : followerEntry.following with
        | none => exact ⟨rfl, rfl⟩
        | some following =>
          simp only []
          split
          · exact ⟨rfl, rfl⟩
          · cases hrem : removeFollower ((readFriends s.friends s.heap).set a
                { followerEntry with
                  following := some (following.filter (fun user => user ≠ b)) })
                s.heap b a with
            | none => exact ⟨rfl, rfl⟩
            | some both =>
              constructor
              · show ((writeFriends _ _).entry x).friends = _
                rw [entry_writeFriends_friends, friendsOf_removeFollower hrem,
                  friendsOf_set_following _ _ x hfe, friendsOf_readFriends]
              · show ((writeFriends _ _).entry x).requests = _
                rw [entry_writeFriends_requests, requestsOf_removeFollower hrem,
                  requestsOf_set_following _ _ x hfe, requestsOf_readFriends]

theorem friendRequest_cases (s : State) (clock : Clock) (a b : String) :
    ((friendRequest s clock a b).1 ≠ .success ∧ (friendRequest s clock a b).2 = s) ∨
    ((friendRequest s clock a b).1 = .success ∧ a ≠ b ∧
      b ∉ (s.friends.entry a).friends ∧ a ∉ (s.friends.entry b).friends ∧
      (s.friends.entry b).requests.any (fun r => r.fromUser == a && r.toUser == b) = false ∧
      (∀ x, ((friendRequest s clock a b).2.friends.entry x).friends
          = (s.friends.entry x).friends ∧
        ((friendRequest s clock a b).2.friends.entry x).requests
          = (s.friends.entry x).requests ++
            (if x = b then [{ fromUser := a, toUser := b, date := clock.iso }] else [])) ∧
      (friendRequest s clock a b).2.notifications = s.notifications ++
        [{ id := clock.now, type := .friendRequest, actor := .text a,
           message := utf16 "sent you a friend request", recipient := .text b,
           postId := none, date := clock.iso }] ∧
      (friendRequest s clock a b).2.users = s.users ∧
      (friendRequest s clock a b).2.posts = s.posts ∧
      (friendRequest s clock a b).2.heap = s.heap) := by
  simp only [friendRequest]
  split
  · exact Or.inl ⟨by simp, rfl⟩
  split
  · exact Or.inl ⟨by simp, rfl⟩
  rename_i hab
  split
  · exact Or.inl ⟨by simp, rfl⟩
  cases hfe : ensure (ensure (readFriends s.friends s.heap) s.heap a MemEntry.bare) s.heap b
      MemEntry.bare a with
  | none => exact Or.inl ⟨by simp, rfl⟩
  | some fromEntry =>
    simp only []
    have hfa := friendsOf_initial s.friends s.heap a b MemEntry.bare MemEntry.bare rfl rfl a
    rw [friendsOf_of_some hfe] at hfa
    split
    · exact Or.inl ⟨by simp, rfl⟩
    rename_i h1
    cases hte : ensure (ensure (readFriends s.friends s.heap) s.heap a MemEntry.bare) s.heap b
        MemEntry.bare b with
    | none => exact Or.inl ⟨by simp, rfl⟩
    | some toEntry =>
      simp only []
      have hfb := friendsOf_initial s.friends s.heap a b MemEntry.bare MemEntry.bare rfl rfl b
      rw [friendsOf_of_some hte] at hfb
      have hrb := requestsOf_initial s.friends s.heap a b MemEntry.bare MemEntry.bare rfl rfl b
      rw [requestsOf_of_some hte] at hrb
      split
      · exact Or.inl ⟨by simp, rfl⟩
      rename_i h2
      split
      · exact Or.inl ⟨by simp, rfl⟩
      rename_i h3
      right
      refine ⟨rfl, hab, hfa ▸ h1, hfb ▸ h2, ?_, ?_, rfl, rfl, rfl, rfl⟩
      · rw [← hrb]; simpa using h3
      · intro x
        constructor
        · show ((writeFriends _ _).entry x).friends = _
          rw [entry_writeFriends_friends, friendsOf_set_requests _ _ x hte,
            friendsOf_initial _ _ _ _ MemEntry.bare MemEntry.bare rfl rfl]
        · show ((writeFriends _ _).entry x).requests = _
          rw [entry_writeFriends_requests, requestsOf_set]
          by_cases hx : x = b
          · subst hx; simp [hrb]
          · simp [hx, requestsOf_initial _ _ _ _ MemEntry.bare MemEntry.bare rfl rfl]

theorem acceptRequest_cases (s : State) (clock : Clock) (a b : String) :
    ((acceptRequest s clock a b).1 ≠ .success ∧ (acceptRequest s clock a b).2 = s) ∨
    ((acceptRequest s clock a b).1 = .success ∧
      (s.friends.entry b).requests.any (fun r => r.fromUser == a && r.toUser == b) = true ∧
      (∀ x, ((acceptRequest s clock a b).2.friends.entry x).friends
          = (s.friends.entry x).friends ++ (if x = a then [b] else []) ++
            (if x = b then [a] else []) ∧
        ((acceptRequest s clock a b).2.friends.entry x).requests
          = (if x = b then
              spliceFirst (fun r => r.fromUser == a && r.toUser == b)
                (s.friends.entry x).requests
            else (s.friends.entry x).requests)) ∧
      (acceptRequest s clock a b).2.notifications = s.notifications ++
        [{ id := clock.now, type := .friendAccept, actor := .text b,
           message := utf16 "accepted your friend request", recipient := .text a,
           postId := none, date := clock.iso }] ∧
      (acceptRequest s clock a b).2.users = s.users ∧
      (acceptRequest s clock a b).2.posts = s.posts ∧
      (acceptRequest s clock a b).2.heap = s.heap) := by
  simp only [acceptRequest]
  split
  · exact Or.inl ⟨by simp, rfl⟩
  cases hte : ensure (ensure (readFriends s.friends s.heap) s.heap a MemEntry.bare) s.heap b
      MemEntry.bare b with
  | none => exact Or.inl ⟨by simp, rfl⟩
  | some toEntry =>
    simp only []
    have hfb := friendsOf_initial s.friends s.heap a b MemEntry.bare MemEntry.bare rfl rfl b
    rw [friendsOf_of_some hte] at hfb
    have hrb := requestsOf_initial s.friends s.heap a b MemEntry.bare MemEntry.bare rfl rfl b
    rw [requestsOf_of_some hte] at hrb
    split
    · exact Or.inl ⟨by simp, rfl⟩
    rename_i h1
    cases hfe : (ensure (ensure (readFriends s.friends s.heap) s.heap a MemEntry.bare) s.heap b
        MemEntry.bare).set b
        { toEntry with
          requests := spliceFirst (fun r => r.fromUser == a && r.toUser == b)
            toEntry.requests } a with
    | none => exact Or.inl ⟨by simp, rfl⟩
    | some fromEntry =>
      simp only []
      cases hte' : (((ensure (ensure (readFriends s.friends s.heap) s.heap a MemEntry.bare)
          s.heap b MemEntry.bare).set b
          { toEntry with
            requests := spliceFirst (fun r => r.fromUser == a && r.toUser == b)
              toEntry.requests }).set a
          { fromEntry with friends := fromEntry.friends ++ [b] }) b with
      | none => exact Or.inl ⟨by simp, rfl⟩
      | some toEntry' =>
        simp only []
        right
        refine ⟨trivial, ?_, ?_, rfl, trivial, trivial, trivial⟩
        · rw [← hrb]; simpa using h1
        · intro x
          constructor
          · show ((writeFriends _ _).entry x).friends = _
            rw [entry_writeFriends_friends, friendsOf_set]
            by_cases hxb : x = b
            · subst hxb
              rw [if_pos rfl, ← friendsOf_of_some hte', friendsOf_set]
              by_cases hxa : x = a
              · subst hxa
                simp only [if_true]
                rw [← friendsOf_of_some hfe, friendsOf_set_requests _ _ x hte,
                  friendsOf_initial _ _ _ _ MemEntry.bare MemEntry.bare rfl rfl]
              · simp only [hxa, if_false, List.append_nil]
                rw [friendsOf_set_requests _ _ x hte,
                  friendsOf_initial _ _ _ _ MemEntry.bare MemEntry.bare rfl rfl]
                simp
            · rw [if_neg hxb, friendsOf_set]
              by_cases hxa : x = a
              · subst hxa
                simp only [if_true, hxb, if_false, List.append_nil]
                rw [← friendsOf_of_some hfe, friendsOf_set_requests _ _ x hte,
                  friendsOf_initial _ _ _ _ MemEntry.bare MemEntry.bare rfl rfl]
              · simp only [hxa, hxb, if_false, List.append_nil]
                rw [friendsOf_set_requests _ _ x hte,
                  friendsOf_initial _ _ _ _ MemEntry.bare MemEntry.bare rfl rfl]
          · show ((writeFriends _ _).entry x).requests = _
            rw [entry_writeFriends_requests, requestsOf_set_friends _ _ x hte',
              requestsOf_set_friends _ _ x hfe, requestsOf_set]
            by_cases hxb : x = b
            · subst hxb; simp [hrb]
            · simp [hxb, requestsOf_initial _ _ _ _ MemEntry.bare MemEntry.bare rfl rfl]

/-! ### Lemmas on failing requests -/

theorem handle_success_or_same (s : State) (clock : Clock) (r : Request) :
    (handle s clock r).1 = .success ∨ (handle s clock r).2 = s := by
  cases r
  case getUsers => exact Or.inl rfl
  case getPosts => exact Or.inl rfl
  case createPost => exact Or.inl rfl
  case upsertUser =>
    simp only [handle, upsertUser]; repeat' split
    all_goals first | exact Or.inr rfl | exact Or.inl rfl
  case updateUser =>
    simp only [handle, updateUser]; repeat' split
    all_goals first | exact Or.inr rfl | exact Or.inl rfl
  case bookmark =>
    simp only [handle, bookmark]; repeat' split
    all_goals first | exact Or.inr rfl | exact Or.inl rfl
  case unbookmark =>
    simp only [handle, unbookmark]; repeat' split
    all_goals first | exact Or.inr rfl | exact Or.inl rfl
  case like =>
    simp only [handle, like]; repeat' split
    all_goals first | exact Or.inr rfl | exact Or.inl rfl
  case unlike =>
    simp only [handle, unlike]; repeat' split
    all_goals first | exact Or.inr rfl | exact Or.inl rfl
  case report =>
    simp only [handle, report]; repeat' split
    all_goals first | exact Or.inr rfl | exact Or.inl rfl
  case unreport =>
    simp only [handle, unreport]; repeat' split
    all_goals first | exact Or.inr rfl | exact Or.inl rfl
  case comment =>
    simp only [handle, comment]; repeat' split
    all_goals first | exact Or.inr rfl | exact Or.inl rfl
  case vote =>
    simp only [handle, vote]; repeat' split
    all_goals first | exact Or.inr rfl | exact Or.inl rfl
  case deletePost =>
    simp only [handle, deletePost]; repeat' split
    all_goals first | exact Or.inr rfl | exact Or.inl rfl
  case likeComment =>
    simp only [handle, likeComment]; repeat' split
    all_goals first | exact Or.inr rfl | exact Or.inl rfl
  case unlikeComment =>
    simp only [handle, unlikeComment]; repeat' split
    all_goals first | exact Or.inr rfl | exact Or.inl rfl
  case replyComment =>
    simp only [handle, replyComment]; repeat' split
    all_goals first | exact Or.inr rfl | exact Or.inl rfl
  case getNotifications =>
    simp only [handle, getNotifications]; repeat' split
    all_goals exact Or.inr rfl
  case deleteNotification =>
    simp only [handle, deleteNotification]; repeat' split
    all_goals first | exact Or.inr rfl | exact Or.inl rfl
  case deleteAllNotifications =>
    simp only [handle, deleteAllNotifications]; repeat' split
    all_goals first | exact Or.inr rfl | exact Or.inl rfl
  case getFriends =>
    simp only [handle, getFriends]; repeat' split
    all_goals first | exact Or.inr rfl | exact Or.inl rfl
  case friendRequest a b =>
    rcases friendRequest_cases s clock a b with ⟨_, h⟩ | ⟨h, _⟩
    · exact Or.inr h
    · exact Or.inl h
  case acceptRequest a b =>
    rcases acceptRequest_cases s clock a b with ⟨_, h⟩ | ⟨h, _⟩
    · exact Or.inr h
    · exact Or.inl h
  case follow =>
    simp only [handle, follow]; repeat' split
    all_goals first | exact Or.inr rfl | exact Or.inl rfl
  case unfollow =>
    simp only [handle, unfollow]; repeat' split
    all_goals first | exact Or.inr rfl | exact Or.inl rfl

/-! ### C1: count invariant -/

/-- C1 at a failing input, a state reached from the empty posts collection by
one create-post, two like requests without a username and one unlike request
with the username `null`: the two likes succeed and store `[null, null]` with
`likes = 2`; the unlike removes both elements and decrements once, so the post
ends with `likes = 1` and an empty `likedBy`. -/
theorem anonymous_likes_break_count :
    Reach countRequest State.empty unlikedOnce ∧
    (handle onePost ⟨1001, "t1"⟩ (.like 1000 .absent)).1 = .success ∧
    (handle (handle onePost ⟨1001, "t1"⟩ (.like 1000 .absent)).2 ⟨1002, "t2"⟩
      (.like 1000 .absent)).1 = .success ∧
    likedTwice.posts.map (fun p => (p.likes, p.likedBy)) = [(2, some [none, none])] ∧
    (handle likedTwice ⟨1003, "t3"⟩ (.unlike 1000 .null)).1 = .success ∧
    unlikedOnce.posts.map (fun p => (p.likes, p.likedBy)) = [(1, some [])] ∧
    ¬ (∀ p ∈ unlikedOnce.posts, p.likes = ((p.likedBy.getD []).length : Int)) := by
  refine ⟨?_, by decide, by decide, by decide, by decide, by decide, by decide⟩
  exact Reach.step _ _ (Reach.step _ _ (Reach.step _ _ (Reach.step _ _ Reach.init rfl) rfl)
    rfl) rfl

/-! ### C2: a repeated "on" request is a conflict -/

/-- C2 at a failing input: on the post of `onePost`, a like request without a
username succeeds, and the same request issued again succeeds too instead of
failing with Conflict: it stores a second `null`, raises `likes` to 2 and
appends a second notification. Report and bookmark requests without a username
behave alike. -/
theorem repeated_anonymous_on_succeeds :
    (handle onePost ⟨1001, "t1"⟩ (.like 1000 .absent)).1 = .success ∧
    (handle (handle onePost ⟨1001, "t1"⟩ (.like 1000 .absent)).2 ⟨1002, "t2"⟩
      (.like 1000 .absent)).1 = .success ∧
    (handle onePost ⟨1001, "t1"⟩ (.like 1000 .absent)).2.posts.map
      (fun p => (p.likes, p.likedBy)) = [(1, some [none])] ∧
    likedTwice.posts.map (fun p => (p.likes, p.likedBy)) = [(2, some [none, none])] ∧
    (handle onePost ⟨1001, "t1"⟩ (.like 1000 .absent)).2.notifications.length = 1 ∧
    likedTwice.notifications.length = 2 ∧
    (handle onePost ⟨1001, "t1"⟩ (.report 1000 .absent)).1 = .success ∧
    (handle (handle onePost ⟨1001, "t1"⟩ (.report 1000 .absent)).2 ⟨1002, "t2"⟩
      (.report 1000 .absent)).1 = .success ∧
    (handle (handle onePost ⟨1001, "t1"⟩ (.report 1000 .absent)).2 ⟨1002, "t2"⟩
      (.report 1000 .absent)).2.posts.map (fun p => (p.reports, p.reportedBy))
      = [(2, some [none, none])] ∧
    (handle onePost ⟨1001, "t1"⟩ (.bookmark 1000 .absent)).1 = .success ∧
    (handle (handle onePost ⟨1001, "t1"⟩ (.bookmark 1000 .absent)).2 ⟨1002, "t2"⟩
      (.bookmark 1000 .absent)).1 = .success ∧
    (handle (handle onePost ⟨1001, "t1"⟩ (.bookmark 1000 .absent)).2 ⟨1002, "t2"⟩
      (.bookmark 1000 .absent)).2.posts.map (fun p => p.bookmarkedBy)
      = [some [none, none]] := by
  refine ⟨by decide, by decide, by decide, by decide, by decide, by decide, by decide,
    by decide, by decide, by decide, by decide, by decide⟩

/-! ### C3: post toggles are inverse -/

theorem not_includes_text {arr : List (Option String)} {u : String} (h : some u ∉ arr) :
    includes arr (.text u) = false := by
  simpa [includes] using h

theorem includes_append_text (arr : List (Option String)) (u : String) :
    includes (arr ++ [some u]) (.text u) = true := by
  simp [includes]

theorem without_append_text {arr : List (Option String)} {u : String} (h : some u ∉ arr) :
    without (arr ++ [some u]) (.text u) = arr := by
  have := without_append_element (u := .text u) (by simp) (not_includes_text h)
  simpa [Field.element] using this

/-- Counterexample to C3 as stated: two posts were created in the same
millisecond, so both carry the identifier 1000, and carol has liked the first.
The second was created by create-post and carol is not in its `likedBy`; her
like of 1000 is answered Conflict, her unlike succeeds and removes her from the
`likedBy` of the first post: the posts collection is not what it was before the
like. -/
theorem toggle_misses_twin :
    Reach countRequest State.empty twinLiked ∧
    twinLiked.posts.map (fun p => (p.id, p.username, p.likes, p.likedBy))
      = [(1000, .text "alice", 1, some [some "carol"]), (1000, .text "bob", 0, some [])] ∧
    (handle twinLiked ⟨2001, "t3"⟩ (.like 1000 (.text "carol"))).1 = .conflict ∧
    (handle (handle twinLiked ⟨2001, "t3"⟩ (.like 1000 (.text "carol"))).2 ⟨2002, "t4"⟩
      (.unlike 1000 (.text "carol"))).1 = .success ∧
    (handle (handle twinLiked ⟨2001, "t3"⟩ (.like 1000 (.text "carol"))).2 ⟨2002, "t4"⟩
      (.unlike 1000 (.text "carol"))).2.posts.map
        (fun p => (p.id, p.username, p.likes, p.likedBy))
      = [(1000, .text "alice", 0, some []), (1000, .text "bob", 0, some [])] ∧
    (handle (handle twinLiked ⟨2001, "t3"⟩ (.like 1000 (.text "carol"))).2 ⟨2002, "t4"⟩
      (.unlike 1000 (.text "carol"))).2.posts ≠ twinLiked.posts := by
  refine ⟨?_, rfl, by decide, by decide, rfl, ?_⟩
  · exact Reach.step _ _ (Reach.step _ _ (Reach.step _ _ Reach.init rfl) rfl) rfl
  · intro h
    exact absurd (congrArg (List.map (fun p => p.likes)) h) (by decide)

/-- C3 as amended (post toggles are inverse). On the post that the identifier
locates (the first of the collection with that identifier), whose relevant array
is present and does not contain the username, like then unlike (report then
unreport, bookmark then unbookmark) both succeed and return the posts
collection exactly to its value before the "on" call; for like, the post has a
caption or the username is its owner. -/
theorem toggle_on_off_inverse (t : Toggle) (s : State) (clock clock' : Clock) (id : Nat)
    (username : String) (post : Post) (members : List (Option String))
    (hpost : findPost s.posts id = some post) (hm : t.members post = some members)
    (hu : some username ∉ members)
    (hcap : t = .like → post.username ≠ .text username → ∃ c, post.caption = .text c) :
    (handle s clock (t.on id (.text username))).1 = .success ∧
      (handle (handle s clock (t.on id (.text username))).2 clock'
        (t.off id (.text username))).1 = .success ∧
      (handle (handle s clock (t.on id (.text username))).2 clock'
        (t.off id (.text username))).2.posts = s.posts := by
  have hid := (findPost_some hpost).2
  have hinc := not_includes_text hu
  have hinc' := includes_append_text members username
  have hwo := without_append_text hu
  cases t with
  | like =>
    simp only [Toggle.members] at hm
    by_cases hown : post.username = .text username
    · simp [Toggle.on, Toggle.off, handle, like, unlike, hpost, hm, hinc, hinc', hwo, hown,
        findPost_replacePost hpost, hid, replacePost_replacePost, Field.element]
      apply replacePost_eq_self_of_eq hpost
      cases post
      simp_all
    · obtain ⟨c, hc⟩ := hcap rfl hown
      simp [Toggle.on, Toggle.off, handle, like, unlike, hpost, hm, hinc, hinc', hwo, hown, hc,
        findPost_replacePost hpost, hid, replacePost_replacePost, Field.element]
      apply replacePost_eq_self_of_eq hpost
      cases post
      simp_all
  | report =>
    simp only [Toggle.members] at hm
    simp [Toggle.on, Toggle.off, handle, report, unreport, hpost, hm, hinc, hinc', hwo,
      findPost_replacePost hpost, hid, replacePost_replacePost, Field.element]
    apply replacePost_eq_self_of_eq hpost
    cases post
    simp_all
  | bookmark =>
    simp only [Toggle.members] at hm
    simp [Toggle.on, Toggle.off, handle, bookmark, unbookmark, hpost, hm, hinc, hinc', hwo,
      findPost_replacePost hpost, hid, replacePost_replacePost, Field.element]
    apply replacePost_eq_self_of_eq hpost
    cases post
    simp_all

/-- Witness of amended C3: bob likes and unlikes the post alice created. -/
theorem toggle_on_off_inverse_witness :
    findPost onePost.posts 1000 = some helloPost ∧
      Toggle.like.members helloPost = some [] ∧ some "bob" ∉ ([] : List (Option String)) ∧
      (handle onePost ⟨1001, "t1"⟩ (.like 1000 (.text "bob"))).1 = .success ∧
      (handle (handle onePost ⟨1001, "t1"⟩ (.like 1000 (.text "bob"))).2 ⟨1002, "t2"⟩
        (.unlike 1000 (.text "bob"))).1 = .success ∧
      (handle (handle onePost ⟨1001, "t1"⟩ (.like 1000 (.text "bob"))).2 ⟨1002, "t2"⟩
        (.unlike 1000 (.text "bob"))).2.posts = onePost.posts :=
  ⟨rfl, rfl, by simp,
    toggle_on_off_inverse .like onePost ⟨1001, "t1"⟩ ⟨1002, "t2"⟩ 1000 "bob" helloPost []
      rfl rfl (by simp) (fun _ _ => ⟨"hello", rfl⟩)⟩

/-! ### C4: follow and unfollow -/

theorem ensure_of_some {m : MemGraph} (h : Heap) {k : String} {e : MemEntry} (e₀ : MemEntry)
    (hk : m k = some e) : ensure m h k e₀ = m := by
  simp [ensure, lookup, hk]

theorem lookup_of_some {m : MemGraph} {h : Heap} {k : String} {e : MemEntry}
    (hk : m k = some e) : lookup m h k = some (.entry e) := by
  simp [lookup, hk]

theorem readFriends_of_full {g : Graph} (h : Heap) {k : String}
    {friends : List String} {requests : List FriendRequest} {following followers : List String}
    (hk : g k = some ⟨friends, requests, some following, some followers⟩) :
    readFriends g h k = some ⟨friends, requests, some following, some (.own followers)⟩ := by
  simp [readFriends, hk]

theorem writeFriends_readFriends {g : Graph} (h : Heap)
    (hfull : ∀ k e, g k = some e → e.following.isSome ∧ e.followers.isSome) :
    writeFriends (readFriends g h) h = g := by
  funext k
  cases hk : g k with
  | none => simp [writeFriends, readFriends, hk]
  | some e =>
    obtain ⟨h1, h2⟩ := hfull k e hk
    obtain ⟨fr, rq, fo, fl⟩ := e
    obtain ⟨fo, rfl⟩ := Option.isSome_iff_exists.1 h1
    obtain ⟨fl, rfl⟩ := Option.isSome_iff_exists.1 h2
    simp [writeFriends, readFriends, hk]

theorem follow_of_entries {s : State} (clock : Clock) {a b : String}
    {fra frb : List String} {rqa rqb : List FriendRequest} {foa fla fob flb : List String}
    (h1 : a ≠ "") (h2 : b ≠ "") (hne : a ≠ b)
    (hua : hasUser s.users a = true) (hub : hasUser s.users b = true)
    (hea : s.friends a = some ⟨fra, rqa, some foa, some fla⟩)
    (heb : s.friends b = some ⟨frb, rqb, some fob, some flb⟩)
    (hfull : ∀ k e, s.friends k = some e → e.following.isSome ∧ e.followers.isSome)
    (hab : b ∉ foa) :
    follow s clock a b = (.success, { s with
      friends := fun k =>
        if k = b then some ⟨frb, rqb, some fob, some (flb ++ [a])⟩
        else if k = a then some ⟨fra, rqa, some (foa ++ [b]), some fla⟩
        else s.friends k,
      notifications := s.notifications ++
        [{ id := clock.now, type := .follow, actor := .text a,
           message := utf16 "started following you", recipient := .text b,
           postId := none, date := clock.iso }] }) := by
  have hma := readFriends_of_full s.heap hea
  have hmb := readFriends_of_full s.heap heb
  have hens1 := ensure_of_some s.heap MemEntry.full hma
  have hens2 := ensure_of_some s.heap MemEntry.full hmb
  have hne' : b ≠ a := fun e => hne e.symm
  simp only [follow, h1, h2, hne, hua, hub, hens2, hens1, hma, or_self, if_false, and_self,
    not_true_eq_false, hab, not_false_eq_true]
  simp only [addFollower, MemGraph.set, hne', if_false, hmb, if_true]
  refine Prod.ext rfl ?_
  have hw := writeFriends_readFriends s.heap hfull
  simp only [Clock.notification]
  congr 1
  funext k
  by_cases hkb : k = b
  · subst hkb
    simp [writeFriends, MemGraph.set]
  · by_cases hka : k = a
    · subst hka
      simp [writeFriends, MemGraph.set, hkb]
    · simp only [hkb, hka, if_false]
      rw [← congrFun hw k]
      simp [writeFriends, MemGraph.set, hkb, hka]

theorem unfollow_of_entries {s : State} {a b : String}
    {fra frb : List String} {rqa rqb : List FriendRequest} {foa fla fob flb : List String}
    (h1 : a ≠ "") (h2 : b ≠ "") (hne : a ≠ b)
    (hea : s.friends a = some ⟨fra, rqa, some foa, some fla⟩)
    (heb : s.friends b = some ⟨frb, rqb, some fob, some flb⟩)
    (hfull : ∀ k e, s.friends k = some e → e.following.isSome ∧ e.followers.isSome)
    (hab : b ∈ foa) :
    unfollow s a b = (.success, { s with
      friends := fun k =>
        if k = b then some ⟨frb, rqb, some fob, some (flb.filter (fun user => user ≠ a))⟩
        else if k = a then some ⟨fra, rqa, some (foa.filter (fun user => user ≠ b)), some fla⟩
        else s.friends k }) := by
  have hma := readFriends_of_full s.heap hea
  have hmb := readFriends_of_full s.heap heb
  have hne' : b ≠ a := fun e => hne e.symm
  simp only [unfollow, h1, h2, or_self, if_false, lookup_of_some hma, lookup_of_some hmb, hab,
    not_true_eq_false]
  simp only [removeFollower, MemGraph.set, hne', if_false, hmb]
  refine congrArg (Prod.mk Outcome.success) ?_
  have hw := writeFriends_readFriends s.heap hfull
  congr 1
  funext k
  by_cases hkb : k = b
  · subst hkb
    simp [writeFriends, MemGraph.set]
  · by_cases hka : k = a
    · subst hka
      simp [writeFriends, MemGraph.set, hkb]
    · simp only [hkb, hka, if_false]
      rw [← congrFun hw k]
      simp [writeFriends, MemGraph.set, hkb, hka]

/-- Counterexample to C4 as stated. With no graph entry for alice and bob,
follow then unfollow leaves two empty entries behind, so the graph is not the
empty object it was; where the `followers` of bob already list alice while the
`following` of alice do not list bob, the unfollow filter also removes the
older occurrence; and where carol has the entry `{ friends: [], requests: [] }`
that a friend request created, the follow of alice writes it back with empty
`following` and `followers` arrays. -/
theorem follow_unfollow_leaves_entries :
    ("alice" ≠ "bob" ∧ hasUser twoUsers.users "alice" = true ∧
      hasUser twoUsers.users "bob" = true ∧
      "bob" ∉ (twoUsers.friends.entry "alice").following.getD [] ∧
      (handle (handle twoUsers ⟨5, "t5"⟩ (.follow "alice" "bob")).2 ⟨6, "t6"⟩
        (.unfollow "alice" "bob")).2.friends ≠ twoUsers.friends) ∧
    ("alice" ≠ "bob" ∧ hasUser lopsided.users "alice" = true ∧
      hasUser lopsided.users "bob" = true ∧
      "bob" ∉ (lopsided.friends.entry "alice").following.getD [] ∧
      (handle (handle lopsided ⟨5, "t5"⟩ (.follow "alice" "bob")).2 ⟨6, "t6"⟩
        (.unfollow "alice" "bob")).2.friends ≠ lopsided.friends) ∧
    ("alice" ≠ "bob" ∧ hasUser withBare.users "alice" = true ∧
      hasUser withBare.users "bob" = true ∧
      (withBare.friends "alice").isSome = true ∧ (withBare.friends "bob").isSome = true ∧
      "bob" ∉ (withBare.friends.entry "alice").following.getD [] ∧
      "alice" ∉ (withBare.friends.entry "bob").followers.getD [] ∧
      withBare.friends "carol"
        = some { friends := [], requests := [], following := none, followers := none } ∧
      (handle (handle withBare ⟨7, "t7"⟩ (.follow "alice" "bob")).2 ⟨8, "t8"⟩
        (.unfollow "alice" "bob")).2.friends "carol"
        = some { friends := [], requests := [], following := some [], followers := some [] } ∧
      (handle (handle withBare ⟨7, "t7"⟩ (.follow "alice" "bob")).2 ⟨8, "t8"⟩
        (.unfollow "alice" "bob")).2.friends ≠ withBare.friends) := by
  refine ⟨⟨by decide, by decide, by decide, by decide, ?_⟩,
    ⟨by decide, by decide, by decide, by decide, ?_⟩,
    ⟨by decide, by decide, by decide, by decide, by decide, by decide, by decide, by decide,
      by decide, ?_⟩⟩
  · intro h
    exact absurd (congrFun h "alice") (by decide)
  · intro h
    exact absurd (congrFun h "bob") (by decide)
  · intro h
    exact absurd (congrFun h "carol") (by decide)

/-- C4 as amended (follow and unfollow are inverse on the graph). For
follower ≠ followed with User records that both already have a graph entry,
in a graph whose entries all have their `following` and `followers` arrays, and
with the edge recorded on neither side: follow then unfollow returns the graph
exactly to its value before (and leaves the memory of the process as it was);
with non-empty usernames both requests succeed. -/
theorem follow_unfollow_inverse (s : State) (clock clock' : Clock) (follower followed : String)
    (hne : follower ≠ followed)
    (hfollower : hasUser s.users follower = true) (hfollowed : hasUser s.users followed = true)
    (hea : (s.friends follower).isSome) (heb : (s.friends followed).isSome)
    (hfull : ∀ k e, s.friends k = some e → e.following.isSome ∧ e.followers.isSome)
    (hab : followed ∉ (s.friends.entry follower).following.getD [])
    (hba : follower ∉ (s.friends.entry followed).followers.getD []) :
    (handle (handle s clock (.follow follower followed)).2 clock'
      (.unfollow follower followed)).2.friends = s.friends ∧
    (handle (handle s clock (.follow follower followed)).2 clock'
      (.unfollow follower followed)).2.heap = s.heap ∧
    (follower ≠ "" → followed ≠ "" →
      (handle s clock (.follow follower followed)).1 = .success ∧
      (handle (handle s clock (.follow follower followed)).2 clock'
        (.unfollow follower followed)).1 = .success) := by
  by_cases h12 : follower = "" ∨ followed = ""
  · refine ⟨by simp [handle, follow, unfollow, h12], by simp [handle, follow, unfollow, h12],
      ?_⟩
    intro h1 h2
    rcases h12 with h | h
    · exact absurd h h1
    · exact absurd h h2
  have h1 : follower ≠ "" := fun e => h12 (Or.inl e)
  have h2 : followed ≠ "" := fun e => h12 (Or.inr e)
  obtain ⟨ea, hea⟩ := Option.isSome_iff_exists.1 hea
  obtain ⟨eb, heb⟩ := Option.isSome_iff_exists.1 heb
  obtain ⟨hfa1, hfa2⟩ := hfull follower ea hea
  obtain ⟨hfb1, hfb2⟩ := hfull followed eb heb
  obtain ⟨fra, rqa, foa, fla⟩ := ea
  obtain ⟨frb, rqb, fob, flb⟩ := eb
  obtain ⟨foa, rfl⟩ := Option.isSome_iff_exists.1 hfa1
  obtain ⟨fla, rfl⟩ := Option.isSome_iff_exists.1 hfa2
  obtain ⟨fob, rfl⟩ := Option.isSome_iff_exists.1 hfb1
  obtain ⟨flb, rfl⟩ := Option.isSome_iff_exists.1 hfb2
  have hab' : followed ∉ foa := by simpa [Graph.entry, hea] using hab
  have hba' : follower ∉ flb := by simpa [Graph.entry, heb] using hba
  have hne' : followed ≠ follower := fun e => hne e.symm
  have hf := follow_of_entries clock h1 h2 hne hfollower hfollowed hea heb hfull hab'
  simp only [handle]
  rw [hf]
  have hu := @unfollow_of_entries
    { s with
      friends := fun k =>
        if k = followed then some ⟨frb, rqb, some fob, some (flb ++ [follower])⟩
        else if k = follower then some ⟨fra, rqa, some (foa ++ [followed]), some fla⟩
        else s.friends k,
      notifications := s.notifications ++
        [{ id := clock.now, type := .follow, actor := .text follower,
           message := utf16 "started following you", recipient := .text followed,
           postId := none, date := clock.iso }] }
    follower followed fra frb rqa rqb (foa ++ [followed]) fla fob (flb ++ [follower])
    h1 h2 hne (by simp [hne]) (by simp)
    (by
      intro k e hk
      simp only at hk
      split at hk
      · cases hk; exact ⟨rfl, rfl⟩
      · split at hk
        · cases hk; exact ⟨rfl, rfl⟩
        · exact hfull k e hk)
    (by simp)
  rw [hu]
  refine ⟨?_, rfl, fun _ _ => ⟨rfl, rfl⟩⟩
  funext k
  have hfa := filter_append_singleton_self hab'
  have hfb := filter_append_singleton_self hba'
  by_cases hkb : k = followed
  · subst hkb
    simp only [if_true]
    rw [hfb, heb]
  · by_cases hka : k = follower
    · subst hka
      simp only [hkb, if_false, if_true]
      rw [hfa, hea]
    · simp only [hkb, hka, if_false]

/-- Witness of amended C4: alice and bob both have a complete empty entry. -/
theorem follow_unfollow_inverse_witness :
    "alice" ≠ "bob" ∧ hasUser withEntries.users "alice" = true ∧
      hasUser withEntries.users "bob" = true ∧
      "bob" ∉ (withEntries.friends.entry "alice").following.getD [] ∧
      "alice" ∉ (withEntries.friends.entry "bob").followers.getD [] ∧
      (handle withEntries ⟨5, "t5"⟩ (.follow "alice" "bob")).1 = .success ∧
      (handle (handle withEntries ⟨5, "t5"⟩ (.follow "alice" "bob")).2 ⟨6, "t6"⟩
        (.unfollow "alice" "bob")).1 = .success ∧
      (handle (handle withEntries ⟨5, "t5"⟩ (.follow "alice" "bob")).2 ⟨6, "t6"⟩
        (.unfollow "alice" "bob")).2.friends = withEntries.friends :=
  have h := follow_unfollow_inverse withEntries ⟨5, "t5"⟩ ⟨6, "t6"⟩ "alice" "bob" (by decide)
    (by decide) (by decide) (by decide) (by decide)
    (fun k e hk => by
      simp only [withEntries] at hk
      split at hk
      · cases hk; exact ⟨rfl, rfl⟩
      · cases hk)
    (by decide) (by decide)
  ⟨by decide, by decide, by decide, by decide, by decide, (h.2.2 (by decide) (by decide)).1,
    (h.2.2 (by decide) (by decide)).2, h.1⟩

/-! ### C5: like postcondition -/

/-- Counterexample to C5 as stated: in `twins` two posts carry the identifier
1000, the first of alice and the second of bob, and carol is in the `likedBy`
of neither. Her like of 1000 succeeds, but it is the post of alice that gets
her name and the notification: the post of bob is unchanged. And a like of bob
on the post that alice created without a caption is answered 500 and changes
nothing. -/
theorem like_hits_first_twin :
    Reach countRequest State.empty twins ∧
    twins.posts.map (fun p => (p.id, p.username, p.likes, p.likedBy))
      = [(1000, .text "alice", 0, some []), (1000, .text "bob", 0, some [])] ∧
    (handle twins ⟨2000, "t2"⟩ (.like 1000 (.text "carol"))).1 = .success ∧
    (handle twins ⟨2000, "t2"⟩ (.like 1000 (.text "carol"))).2.posts.map
        (fun p => (p.id, p.username, p.likes, p.likedBy))
      = [(1000, .text "alice", 1, some [some "carol"]), (1000, .text "bob", 0, some [])] ∧
    (handle twins ⟨2000, "t2"⟩ (.like 1000 (.text "carol"))).2.notifications.map
        (fun n => (n.actor, n.recipient))
      = [(.text "carol", .text "alice")] ∧
    captionless.posts.map (fun p => (p.id, p.username, p.caption, p.likedBy))
      = [(1000, .text "alice", .absent, some [])] ∧
    (handle captionless ⟨2000, "t2"⟩ (.like 1000 (.text "bob"))).1 = .internal ∧
    (handle captionless ⟨2000, "t2"⟩ (.like 1000 (.text "bob"))).2.posts.map
        (fun p => (p.likes, p.likedBy))
      = [(0, some [])] := by
  refine ⟨?_, rfl, by decide, rfl, by decide, rfl, by decide, by decide⟩
  exact Reach.step _ _ (Reach.step _ _ Reach.init rfl) rfl

/-- C5 as amended (like postcondition). For the post that the identifier locates
(the first of the collection with that identifier) and a username not in its
`likedBy`, where the post has a caption or the username is its owner, like
succeeds; the posts array is the old one with the `likedBy` of that post
extended by the username and its `likes` raised by one, every other post and
field kept; exactly one notification
`{ id, type: like, actor: username, message, recipient: owner, postId, date }`
is appended when the username is not the owner and none when it is; users and
graph are untouched. -/
theorem like_postcondition (s : State) (clock : Clock) (id : Nat) (username : String)
    (post : Post) (hpost : findPost s.posts id = some post)
    (hu : some username ∉ post.likedBy.getD [])
    (hcap : post.username ≠ .text username → ∃ c, post.caption = .text c) :
    (handle s clock (.like id (.text username))).1 = .success ∧
    (∃ before after, s.posts = before ++ post :: after ∧ (∀ q ∈ before, q.id ≠ id) ∧
      (handle s clock (.like id (.text username))).2.posts =
        before ++ { post with likes := post.likes + 1,
                              likedBy := some (post.likedBy.getD [] ++ [some username]) }
          :: after) ∧
    (post.username ≠ .text username → ∀ c, post.caption = .text c →
      (handle s clock (.like id (.text username))).2.notifications = s.notifications ++
        [{ id := clock.now, type := .like, actor := .text username,
           message := utf16 "liked your post: \"" ++ sliceEllipsis c ++ utf16 "\"",
           recipient := post.username, postId := some post.id, date := clock.iso }]) ∧
    (post.username = .text username →
      (handle s clock (.like id (.text username))).2.notifications = s.notifications) ∧
    (handle s clock (.like id (.text username))).2.users = s.users ∧
    (handle s clock (.like id (.text username))).2.friends = s.friends := by
  have hinc := not_includes_text hu
  obtain ⟨pid, pu, pe, pc, ptag, pdate, plikes, preports, pcomments, pmedia, pmt, pl, pr, pb,
    ppoll⟩ := post
  simp only at hinc hcap ⊢
  by_cases hown : pu = .text username
  · subst hown
    simp only [handle, like, hpost, hinc, Bool.false_eq_true, if_false, Field.element, ne_eq,
      not_true_eq_false]
    exact ⟨trivial, replacePost_split _ hpost, fun h => h.elim, fun _ => trivial,
      trivial, trivial⟩
  · obtain ⟨c, hc⟩ := hcap hown
    subst hc
    simp only [handle, like, hpost, hinc, Bool.false_eq_true, if_false, Field.element, ne_eq,
      hown, not_false_eq_true, if_true]
    refine ⟨trivial, replacePost_split _ hpost, ?_, fun h => absurd h (by trivial), trivial,
      trivial⟩
    intro _ c' hc'
    cases hc'
    rfl

/-- Witness of amended C5: bob likes the post alice created. -/
theorem like_postcondition_witness :
    findPost onePost.posts 1000 = some helloPost ∧ some "bob" ∉ helloPost.likedBy.getD [] ∧
      (handle onePost ⟨1001, "t1"⟩ (.like 1000 (.text "bob"))).1 = .success ∧
      (handle onePost ⟨1001, "t1"⟩ (.like 1000 (.text "bob"))).2.notifications
        = onePost.notifications ++
          [{ id := 1001, type := .like, actor := .text "bob",
             message := utf16 "liked your post: \"" ++ sliceEllipsis "hello" ++ utf16 "\"",
             recipient := .text "alice", postId := some 1000, date := "t1" }] :=
  have h := like_postcondition onePost ⟨1001, "t1"⟩ 1000 "bob" helloPost rfl (by decide)
    (fun _ => ⟨"hello", rfl⟩)
  ⟨rfl, by decide, h.1, h.2.2.1 (by decide) "hello" rfl⟩

/-! ### C6: no notification to oneself -/

theorem requestsOk_iff (g : Graph) :
    RequestsOk g ↔ ∀ k, ∀ r ∈ (g.entry k).requests, r.fromUser ≠ r.toUser := by
  constructor
  · intro h k r hr
    cases hg : g k with
    | none => simp [Graph.entry, hg, GraphEntry.empty] at hr
    | some e =>
      simp [Graph.entry, hg] at hr
      exact h k e hg r hr
  · intro h k e hk r hr
    apply h k r
    simpa [Graph.entry, hk] using hr

theorem requestsOk_of_entries {g g' : Graph} (h : RequestsOk g)
    (he : ∀ x, (g'.entry x).requests = (g.entry x).requests) : RequestsOk g' := by
  rw [requestsOk_iff] at h ⊢
  intro k r hr
  rw [he] at hr
  exact h k r hr

theorem mem_spliceFirst {α : Type} {p : α → Bool} {l : List α} {x : α}
    (h : x ∈ spliceFirst p l) : x ∈ l := by
  induction l with
  | nil => simp [spliceFirst] at h
  | cons a as ih =>
    simp only [spliceFirst] at h
    split at h
    · exact List.mem_cons_of_mem _ h
    · rcases List.mem_cons.1 h with h | h
      · exact h ▸ List.mem_cons_self _ _
      · exact List.mem_cons_of_mem _ (ih h)

theorem notif_append_if {ns : List Notification} {n : Notification} {c : Prop} [Decidable c]
    (h : ∀ m ∈ ns, m.actor ≠ m.recipient) (hn : c → n.actor ≠ n.recipient) :
    ∀ m ∈ (if c then ns ++ [n] else ns), m.actor ≠ m.recipient := by
  intro m hm
  split at hm
  · rename_i hc
    rcases List.mem_append.1 hm with hm | hm
    · exact h m hm
    · rw [List.mem_singleton.1 hm]
      exact hn hc
  · exact h m hm

theorem notif_append {ns : List Notification} {n : Notification}
    (h : ∀ m ∈ ns, m.actor ≠ m.recipient) (hn : n.actor ≠ n.recipient) :
    ∀ m ∈ ns ++ [n], m.actor ≠ m.recipient := by
  intro m hm
  rcases List.mem_append.1 hm with hm | hm
  · exact h m hm
  · rw [List.mem_singleton.1 hm]
    exact hn

theorem getFriends_notifications (s : State) (username : String) :
    (getFriends s username).2.notifications = s.notifications := by
  simp only [getFriends]
  repeat' split
  all_goals rfl

theorem unfollow_notifications (s : State) (a b : String) :
    (unfollow s a b).2.notifications = s.notifications := by
  simp only [unfollow]
  repeat' split
  all_goals rfl

theorem follow_notifications (s : State) (clock : Clock) (a b : String) :
    (follow s clock a b).2.notifications = s.notifications ∨
    (a ≠ b ∧ (follow s clock a b).2.notifications = s.notifications ++
      [{ id := clock.now, type := .follow, actor := .text a,
         message := utf16 "started following you", recipient := .text b,
         postId := none, date := clock.iso }]) := by
  simp only [follow]
  split
  · exact Or.inl rfl
  split
  · exact Or.inl rfl
  rename_i hab
  repeat' split
  all_goals first
    | exact Or.inl rfl
    | exact Or.inr ⟨hab, rfl⟩

theorem handle_selfFree (s : State) (clock : Clock) (r : Request) (h : SelfFree s) :
    SelfFree (handle s clock r).2 := by
  obtain ⟨hn, hg⟩ := h
  have hg' : RequestsOk s.friends := hg
  cases r with
  | getUsers => exact ⟨hn, hg⟩
  | getPosts => exact ⟨hn, hg⟩
  | upsertUser username userEmail photoURL =>
    simp only [handle, upsertUser]
    repeat' split
    all_goals exact ⟨hn, hg⟩
  | updateUser username bio banner =>
    simp only [handle, updateUser]
    repeat' split
    all_goals exact ⟨hn, hg⟩
  | createPost username userEmail caption tag file => exact ⟨hn, hg⟩
  | bookmark id username =>
    simp only [handle, bookmark]
    repeat' split
    all_goals exact ⟨hn, hg⟩
  | unbookmark id username =>
    simp only [handle, unbookmark]
    repeat' split
    all_goals exact ⟨hn, hg⟩
  | unlike id username =>
    simp only [handle, unlike]
    repeat' split
    all_goals exact ⟨hn, hg⟩
  | report id username =>
    simp only [handle, report]
    repeat' split
    all_goals exact ⟨hn, hg⟩
  | unreport id username =>
    simp only [handle, unreport]
    repeat' split
    all_goals exact ⟨hn, hg⟩
  | vote id username optionIndex =>
    simp only [handle, vote]
    repeat' split
    all_goals exact ⟨hn, hg⟩
  | deletePost id username =>
    simp only [handle, deletePost]
    repeat' split
    all_goals exact ⟨hn, hg⟩
  | unlikeComment id commentId username =>
    simp only [handle, unlikeComment]
    repeat' split
    all_goals exact ⟨hn, hg⟩
  | getNotifications username =>
    simp only [handle, getNotifications]
    repeat' split
    all_goals exact ⟨hn, hg⟩
  | like id username =>
    simp only [handle, like]
    cases hfp : findPost s.posts id with
    | none => exact ⟨hn, hg⟩
    | some post =>
      simp only []
      split
      · exact ⟨hn, hg⟩
      · split
        · rename_i hne
          split
          · exact ⟨notif_append hn (Ne.symm hne), hg⟩
          · exact ⟨hn, hg⟩
        · exact ⟨hn, hg⟩
  | comment id username text =>
    simp only [handle, comment]
    cases hfp : findPost s.posts id with
    | none => exact ⟨hn, hg⟩
    | some post =>
      simp only []
      split
      · rename_i hne
        split
        · exact ⟨notif_append hn (Ne.symm hne), hg⟩
        · exact ⟨hn, hg⟩
      · exact ⟨hn, hg⟩
  | likeComment id commentId username =>
    simp only [handle, likeComment]
    split
    · exact ⟨hn, hg⟩
    · cases hfp : findPost s.posts id with
      | none => exact ⟨hn, hg⟩
      | some post =>
        simp only []
        cases hfc : findComment commentId post.comments with
        | none => exact ⟨hn, hg⟩
        | some target =>
          simp only []
          split
          · exact ⟨hn, hg⟩
          · split
            · rename_i hne
              split
              · exact ⟨notif_append hn (Ne.symm hne), hg⟩
              · exact ⟨hn, hg⟩
            · exact ⟨hn, hg⟩
  | replyComment id commentId username text =>
    simp only [handle, replyComment]
    split
    · exact ⟨hn, hg⟩
    · cases hfp : findPost s.posts id with
      | none => exact ⟨hn, hg⟩
      | some post =>
        simp only []
        cases hfc : findComment commentId post.comments with
        | none => exact ⟨hn, hg⟩
        | some target => exact ⟨notif_append_if hn (fun hc => Ne.symm hc), hg⟩
  | deleteNotification id username =>
    simp only [handle, deleteNotification]
    repeat' split
    all_goals first
      | exact ⟨hn, hg⟩
      | exact ⟨fun m hm => hn m (List.mem_of_mem_filter hm), hg⟩
  | deleteAllNotifications username =>
    simp only [handle, deleteAllNotifications]
    repeat' split
    all_goals first
      | exact ⟨hn, hg⟩
      | exact ⟨fun m hm => hn m (List.mem_of_mem_filter hm), hg⟩
  | getFriends username =>
    simp only [handle]
    refine ⟨?_, requestsOk_of_entries hg' (fun x => (getFriends_entries s username x).2)⟩
    rw [getFriends_notifications]
    exact hn
  | friendRequest fromUser toUser =>
    simp only [handle]
    rcases friendRequest_cases s clock fromUser toUser with ⟨_, hs⟩ | ⟨_, hne, _, _, _, he, hno, _⟩
    · rw [hs]; exact ⟨hn, hg⟩
    · refine ⟨?_, ?_⟩
      · rw [hno]
        exact notif_append hn (by simpa using hne)
      · rw [requestsOk_iff] at hg' ⊢
        intro k r hr
        rw [(he k).2] at hr
        rcases List.mem_append.1 hr with hr | hr
        · exact hg' k r hr
        · split at hr
          · rw [List.mem_singleton.1 hr]; exact hne
          · cases hr
  | acceptRequest fromUser toUser =>
    simp only [handle]
    rcases acceptRequest_cases s clock fromUser toUser with ⟨_, hs⟩ | ⟨_, hany, he, hno, _⟩
    · rw [hs]; exact ⟨hn, hg⟩
    · rw [requestsOk_iff] at hg'
      obtain ⟨r, hr, hrq⟩ := List.any_eq_true.1 hany
      have hrne := hg' toUser r hr
      simp only [Bool.and_eq_true, beq_iff_eq] at hrq
      have hne : toUser ≠ fromUser := by
        intro e
        apply hrne
        rw [hrq.1, hrq.2, e]
      refine ⟨?_, ?_⟩
      · rw [hno]
        exact notif_append hn (by simpa using hne)
      · rw [requestsOk_iff]
        intro k r hr
        rw [(he k).2] at hr
        split at hr
        · exact hg' k r (mem_spliceFirst hr)
        · exact hg' k r hr
  | follow follower followed =>
    simp only [handle]
    refine ⟨?_, requestsOk_of_entries hg' (fun x => (follow_entries s clock follower followed x).2)⟩
    rcases follow_notifications s clock follower followed with h | ⟨hne, h⟩
    · rw [h]; exact hn
    · rw [h]
      exact notif_append hn (by simpa using hne)
  | unfollow follower followed =>
    simp only [handle]
    refine ⟨?_, requestsOk_of_entries hg' (fun x => (unfollow_entries s follower followed x).2)⟩
    rw [unfollow_notifications]
    exact hn

theorem reach_selfFree {s : State} (h : Reach anyRequest State.empty s) : SelfFree s := by
  induction h with
  | init => exact ⟨by simp [State.empty], fun k e hk => by simp [State.empty] at hk⟩
  | step clock r _ _ ih => exact handle_selfFree _ clock r ih

/-- C6 (self-interaction suppression). In every state reached from the empty
collections by any sequence of requests of the API surface, no stored
notification has its actor as recipient. -/
theorem no_self_notification (s : State) (h : Reach anyRequest State.empty s) :
    ∀ n ∈ s.notifications, n.actor ≠ n.recipient :=
  (reach_selfFree h).1

/-- Witness of C6: alice and then bob like the post of alice; only the like of
bob is notified. -/
theorem no_self_notification_witness :
    Reach anyRequest State.empty selfWitness ∧ selfWitness.notifications.length = 1 ∧
      ∀ n ∈ selfWitness.notifications, n.actor ≠ n.recipient :=
  have hr : Reach anyRequest State.empty selfWitness :=
    Reach.step _ _ (Reach.step _ _ (Reach.step _ _ Reach.init rfl) rfl) rfl
  ⟨hr, by decide, no_self_notification selfWitness hr⟩

/-! ### C7: truncation of embedded text -/

theorem utf16_of_basic (l : List Char) (h : ∀ c ∈ l, c.toNat < 0x10000) :
    l.flatMap utf16Char = l.map Char.toNat := by
  induction l with
  | nil => rfl
  | cons c rest ih =>
    have hc := h c (List.mem_cons_self _ _)
    have hr := ih (fun x hx => h x (List.mem_cons_of_mem _ hx))
    simp only [List.flatMap_cons, List.map_cons, hr]
    simp [utf16Char, hc]

/-- C7 (truncation rule). Lengths and characters are those of the JavaScript
string, its UTF-16 code units (for a text within the Basic Multilingual Plane
they are its characters). The fragment embedded in a notification message is
the text itself when it has at most 50 characters and its first 50 characters
followed by `...` otherwise, so it never exceeds 53 characters; the messages of
the stored like, comment, comment-like and comment-reply notifications embed
exactly this fragment of the caption, the comment text, the text of the liked
comment and the reply text, between the quotes of their fixed wording. -/
theorem truncation_rule (t : String) :
    ((utf16 t).length ≤ 50 → sliceEllipsis t = utf16 t) ∧
    (50 < (utf16 t).length → sliceEllipsis t = (utf16 t).take 50 ++ [46, 46, 46]) ∧
    (sliceEllipsis t).length ≤ 53 ∧
    ((∀ c ∈ t.data, c.toNat < 0x10000) → utf16 t = t.data.map Char.toNat) ∧
    (∀ (s : State) (clock : Clock) (id : Nat) (username : Field) (post : Post),
      findPost s.posts id = some post → post.caption = .text t →
      includes (post.likedBy.getD []) username = false → post.username ≠ username →
      (handle s clock (.like id username)).2.notifications = s.notifications ++
        [{ id := clock.now, type := .like, actor := username,
           message := utf16 "liked your post: \"" ++ sliceEllipsis t ++ utf16 "\"",
           recipient := post.username, postId := some post.id, date := clock.iso }]) ∧
    (∀ (s : State) (clock : Clock) (id : Nat) (username : Field) (post : Post),
      findPost s.posts id = some post → post.username ≠ username →
      (handle s clock (.comment id username (.text t))).2.notifications = s.notifications ++
        [{ id := clock.now, type := .comment, actor := username,
           message := utf16 "commented on your post: \"" ++ sliceEllipsis t ++ utf16 "\"",
           recipient := post.username, postId := some post.id, date := clock.iso }]) ∧
    (∀ (s : State) (clock : Clock) (id commentId : Nat) (username : String) (post : Post)
      (target : Comment),
      username ≠ "" → findPost s.posts id = some post →
      findComment commentId post.comments = some target → target.text = .text t →
      username ∉ target.likedBy.getD [] → target.username ≠ .text username →
      (handle s clock (.likeComment id commentId username)).2.notifications =
        s.notifications ++
        [{ id := clock.now, type := .commentLike, actor := .text username,
           message := utf16 "liked your comment: \"" ++ sliceEllipsis t ++ utf16 "\"",
           recipient := target.username, postId := some post.id, date := clock.iso }]) ∧
    (∀ (s : State) (clock : Clock) (id commentId : Nat) (username : String) (post : Post)
      (target : Comment),
      username ≠ "" → t ≠ "" → findPost s.posts id = some post →
      findComment commentId post.comments = some target → target.username ≠ .text username →
      (handle s clock (.replyComment id commentId username t)).2.notifications =
        s.notifications ++
        [{ id := clock.now, type := .commentReply, actor := .text username,
           message := utf16 "replied to your comment: \"" ++ sliceEllipsis t ++ utf16 "\"",
           recipient := target.username, postId := some post.id, date := clock.iso }]) := by
  refine ⟨?_, ?_, ?_, ?_, ?_, ?_, ?_, ?_⟩
  · intro h
    have h1 : ¬ (utf16 t).length > 50 := by omega
    simp [sliceEllipsis, h1, List.take_of_length_le h]
  · intro h
    have h3 : utf16 "..." = [46, 46, 46] := by decide
    simp [sliceEllipsis, h, h3]
  · have h50 : ((utf16 t).take 50).length ≤ 50 := by
      rw [List.length_take]
      exact Nat.min_le_left _ _
    have h3 : (utf16 "...").length = 3 := by decide
    unfold sliceEllipsis
    split
    · rw [List.length_append]
      omega
    · rw [List.length_append, List.length_nil]
      omega
  · intro h
    exact utf16_of_basic t.data h
  · intro s clock id username post hpost hc hu hne
    simp [handle, like, hpost, hu, hne, hc]
  · intro s clock id username post hpost hne
    simp [handle, comment, hpost, hne]
  · intro s clock id commentId username post target hu hpost htarget ht hl hne
    simp [handle, likeComment, hu, hpost, htarget, hl, hne, ht]
  · intro s clock id commentId username post target hu ht hpost htarget hne
    simp [handle, replyComment, hu, ht, hpost, htarget, hne]

/-- Witness of C7: a text of 60 characters, and a text of 30 characters outside
the Basic Multilingual Plane, which is 60 code units long and is cut after 25
of its characters. -/
theorem truncation_rule_witness :
    50 < (utf16 sixty).length ∧
    sliceEllipsis sixty = utf16 "12345678901234567890123456789012345678901234567890..." ∧
    50 < (utf16 thirtyAstral).length ∧
    sliceEllipsis thirtyAstral
      = (List.replicate 25 [0xD83D, 0xDE00]).flatten ++ [46, 46, 46] :=
  ⟨by decide, ((truncation_rule sixty).2.1 (by decide)).trans (by decide),
    by decide, ((truncation_rule thirtyAstral).2.1 (by decide)).trans (by decide)⟩

/-! ### C8: comment-tree search -/

mutual
theorem findIn_eq_find (commentId : Nat) : ∀ c : Comment,
    findIn commentId c = (preOrderOf c).find? (fun n => n.id == some commentId)
  | .mk i u t l r => by
    unfold findIn preOrderOf
    by_cases h : i = some commentId
    · simp [h, Comment.id]
    · rw [if_neg h, List.find?_cons_of_neg _ (by simpa [Comment.id] using h)]
      exact findInReplies_eq_find commentId r
theorem findComment_eq_find (commentId : Nat) : ∀ cs : List Comment,
    findComment commentId cs = (preOrder cs).find? (fun n => n.id == some commentId)
  | [] => by simp [findComment, preOrder]
  | c :: rest => by
    unfold findComment preOrder
    rw [List.find?_append, ← findIn_eq_find commentId c, ← findComment_eq_find commentId rest]
    cases findIn commentId c <;> rfl
theorem findInReplies_eq_find (commentId : Nat) : ∀ r : Option (List Comment),
    findInReplies commentId r = (preOrderReplies r).find? (fun n => n.id == some commentId)
  | none => by simp [findInReplies, preOrderReplies]
  | some rs => by
    unfold findInReplies preOrderReplies
    exact findComment_eq_find commentId rs
end

theorem nodeAt_cons_succ (c : Comment) (cs : List Comment) (i : Nat) (path : List Nat) :
    nodeAt (c :: cs) ((i + 1) :: path) = nodeAt cs (i :: path) := by
  cases path with
  | nil => simp [nodeAt]
  | cons j path => simp [nodeAt]

theorem nodeAt_nil (path : List Nat) : nodeAt [] path = none := by
  match path with
  | [] => rfl
  | [i] => simp [nodeAt]
  | i :: j :: path => simp [nodeAt]

theorem nodeAt_cons_zero (c : Comment) (cs : List Comment) (j : Nat) (path : List Nat) :
    nodeAt (c :: cs) (0 :: j :: path) = nodeAt (c.replies.getD []) (j :: path) := by
  simp [nodeAt]

mutual
theorem path_of_mem_preOrderOf : ∀ (c n : Comment), n ∈ preOrderOf c →
    n = c ∨ ∃ j path, nodeAt (c.replies.getD []) (j :: path) = some n
  | .mk i u t l r, n, h => by
    unfold preOrderOf at h
    rcases List.mem_cons.1 h with h | h
    · exact Or.inl h
    · exact Or.inr (path_of_mem_preOrderReplies r n h)
theorem path_of_mem_preOrder : ∀ (cs : List Comment) (n : Comment), n ∈ preOrder cs →
    ∃ j path, nodeAt cs (j :: path) = some n
  | [], n, h => by simp [preOrder] at h
  | c :: rest, n, h => by
    unfold preOrder at h
    rcases List.mem_append.1 h with h | h
    · rcases path_of_mem_preOrderOf c n h with h | ⟨j, path, h⟩
      · exact ⟨0, [], by simp [nodeAt, h]⟩
      · exact ⟨0, j :: path, by rw [nodeAt_cons_zero]; exact h⟩
    · obtain ⟨j, path, h⟩ := path_of_mem_preOrder rest n h
      exact ⟨j + 1, path, by rw [nodeAt_cons_succ]; exact h⟩
theorem path_of_mem_preOrderReplies : ∀ (r : Option (List Comment)) (n : Comment),
    n ∈ preOrderReplies r → ∃ j path, nodeAt (r.getD []) (j :: path) = some n
  | none, n, h => by simp [preOrderReplies] at h
  | some rs, n, h => by
    unfold preOrderReplies at h
    exact path_of_mem_preOrder rs n h
end

theorem self_mem_preOrderOf (c : Comment) : c ∈ preOrderOf c := by
  cases c
  simp [preOrderOf]

theorem preOrder_replies_subset (c : Comment) :
    ∀ n ∈ preOrder (c.replies.getD []), n ∈ preOrderOf c := by
  intro n hn
  cases c with
  | mk i u t l r =>
    cases r with
    | none => simp [Comment.replies, preOrder] at hn
    | some rs =>
      simp only [Comment.replies, Option.getD_some] at hn
      simp [preOrderOf, preOrderReplies, hn]

theorem preOrderOf_subset_of_mem {cs : List Comment} {c : Comment} (hc : c ∈ cs) :
    ∀ n ∈ preOrderOf c, n ∈ preOrder cs := by
  induction cs with
  | nil => simp at hc
  | cons a as ih =>
    intro n hn
    unfold preOrder
    rcases List.mem_cons.1 hc with h | h
    · subst h
      exact List.mem_append_left _ hn
    · exact List.mem_append_right _ (ih h n hn)

theorem mem_preOrder_of_nodeAt : ∀ (path : List Nat) (cs : List Comment) (n : Comment),
    nodeAt cs path = some n → n ∈ preOrder cs
  | [], cs, n, h => by simp [nodeAt] at h
  | [i], cs, n, h => by
    simp only [nodeAt] at h
    exact preOrderOf_subset_of_mem (List.getElem?_mem h) n (self_mem_preOrderOf n)
  | i :: j :: path, cs, n, h => by
    simp only [nodeAt] at h
    cases hi : cs[i]? with
    | none => simp [hi] at h
    | some c =>
      simp only [hi] at h
      have := mem_preOrder_of_nodeAt (j :: path) _ n h
      exact preOrderOf_subset_of_mem (List.getElem?_mem hi) n
        (preOrder_replies_subset c n this)

theorem findComment_isSome_iff (commentId : Nat) (cs : List Comment) :
    (findComment commentId cs).isSome ↔
      ∃ path n, nodeAt cs path = some n ∧ n.id = some commentId := by
  rw [findComment_eq_find, List.find?_isSome]
  constructor
  · rintro ⟨n, hn, hid⟩
    obtain ⟨j, path, h⟩ := path_of_mem_preOrder cs n hn
    exact ⟨j :: path, n, h, by simpa using hid⟩
  · rintro ⟨path, n, h, hid⟩
    exact ⟨n, mem_preOrder_of_nodeAt path cs n h, by simpa using hid⟩

theorem findComment_id {commentId : Nat} {cs : List Comment} {t : Comment}
    (h : findComment commentId cs = some t) : t.id = some commentId := by
  rw [findComment_eq_find] at h
  simpa using List.find?_some h

/-- C8 (comment-tree search). `findComment` is total; its result is the first
node in pre-order whose identifier is the requested one; it succeeds exactly
when some node at some path (any depth) carries that identifier; and when it
fails, comment like, unlike and reply answer NotFound and change nothing. -/
theorem findComment_correct (commentId : Nat) (comments : List Comment) :
    findComment commentId comments
        = (preOrder comments).find? (fun c => c.id == some commentId) ∧
    ((findComment commentId comments).isSome ↔
      ∃ path node, nodeAt comments path = some node ∧ node.id = some commentId) ∧
    (findComment commentId comments = none →
      ∀ (s : State) (clock : Clock) (id : Nat) (username text : String) (post : Post),
        findPost s.posts id = some post → post.comments = comments → username ≠ "" →
          handle s clock (.likeComment id commentId username) = (.notFound, s) ∧
          handle s clock (.unlikeComment id commentId username) = (.notFound, s) ∧
          (text ≠ "" →
            handle s clock (.replyComment id commentId username text) = (.notFound, s))) := by
  refine ⟨findComment_eq_find commentId comments, findComment_isSome_iff commentId comments, ?_⟩
  intro hnone s clock id username text post hpost hc hu
  subst hc
  refine ⟨?_, ?_, ?_⟩
  · simp [handle, likeComment, hu, hpost, hnone]
  · simp [handle, unlikeComment, hu, hpost, hnone]
  · intro ht
    simp [handle, replyComment, hu, ht, hpost, hnone]

/-- Witness of C8: the reply at depth 2 of `threadedPost` is found. -/
theorem findComment_correct_witness :
    findComment 9 threadedPost.comments = some deepReply ∧
    (findComment 9 threadedPost.comments
      = (preOrder threadedPost.comments).find? (fun c => c.id == some 9)) :=
  ⟨rfl, (findComment_correct 9 threadedPost.comments).1⟩

/-! ### C9: liking a comment at any depth -/

theorem replaceAt_cons_succ (c : Comment) (cs : List Comment) (i : Nat) (path : List Nat)
    (new : Comment) :
    replaceAt (c :: cs) ((i + 1) :: path) new = c :: replaceAt cs (i :: path) new := by
  cases path with
  | nil => simp [replaceAt]
  | cons j path =>
    simp only [replaceAt, List.getElem?_cons_succ]
    cases hi : cs[i]? with
    | none => rfl
    | some x =>
      cases x with
      | mk id u t l r =>
        cases r with
        | none => rfl
        | some rs => simp

theorem replaceAt_cons_zero (c : Comment) (cs : List Comment) (rs : List Comment)
    (j : Nat) (path : List Nat) (new : Comment) (h : c.replies = some rs) :
    replaceAt (c :: cs) (0 :: j :: path) new
      = c.setReplies (replaceAt rs (j :: path) new) :: cs := by
  cases c with
  | mk id u t l r =>
    simp only [Comment.replies] at h
    subst h
    simp [replaceAt, Comment.setReplies]

mutual
theorem writeIn_spec (commentId : Nat) : ∀ c : Comment,
    (findIn commentId c = none → ∀ new, writeIn commentId new c = none) ∧
    (∀ t, findIn commentId c = some t →
      (t = c ∧ ∀ new, writeIn commentId new c = some new) ∨
      (∃ rs j path, c.replies = some rs ∧ nodeAt rs (j :: path) = some t ∧
        ∀ new, writeIn commentId new c = some (c.setReplies (replaceAt rs (j :: path) new))))
  | .mk i u t l r => by
    have ih := writeInReplies_spec commentId r
    unfold findIn writeIn
    by_cases h : i = some commentId
    · simp [h]
    · simp only [if_neg h]
      refine ⟨?_, ?_⟩
      · intro hnone new
        rw [ih.1 hnone new]
      · intro t' ht
        obtain ⟨rs, j, path, hr, hnode, hw⟩ := ih.2 t' ht
        refine Or.inr ⟨rs, j, path, by simp [Comment.replies, hr], hnode, ?_⟩
        intro new
        rw [hw new]
        rfl
theorem writeTarget_spec (commentId : Nat) : ∀ cs : List Comment,
    (findComment commentId cs = none → ∀ new, writeTarget commentId new cs = none) ∧
    (∀ t, findComment commentId cs = some t →
      ∃ j path, nodeAt cs (j :: path) = some t ∧
        ∀ new, writeTarget commentId new cs = some (replaceAt cs (j :: path) new))
  | [] => by simp [findComment, writeTarget]
  | c :: rest => by
    have ihc := writeIn_spec commentId c
    have ihr := writeTarget_spec commentId rest
    unfold findComment writeTarget
    cases hc : findIn commentId c with
    | none =>
      simp only [ihc.1 hc]
      refine ⟨?_, ?_⟩
      · intro hnone new
        rw [ihr.1 hnone new]
      · intro t ht
        obtain ⟨j, path, hnode, hw⟩ := ihr.2 t ht
        refine ⟨j + 1, path, by rw [nodeAt_cons_succ]; exact hnode, ?_⟩
        intro new
        rw [hw new, replaceAt_cons_succ]
    | some t' =>
      refine ⟨by simp, ?_⟩
      intro t ht
      have htt : t' = t := by simpa using ht
      subst htt
      rcases ihc.2 t' hc with ⟨he, hw⟩ | ⟨rs, j, path, hr, hnode, hw⟩
      · refine ⟨0, [], by simp [nodeAt, he], ?_⟩
        intro new
        rw [hw new]
        simp [replaceAt]
      · refine ⟨0, j :: path, by rw [nodeAt_cons_zero, hr]; exact hnode, ?_⟩
        intro new
        rw [hw new, replaceAt_cons_zero c rest rs j path new hr]
theorem writeInReplies_spec (commentId : Nat) : ∀ r : Option (List Comment),
    (findInReplies commentId r = none → ∀ new, writeInReplies commentId new r = none) ∧
    (∀ t, findInReplies commentId r = some t →
      ∃ rs j path, r = some rs ∧ nodeAt rs (j :: path) = some t ∧
        ∀ new, writeInReplies commentId new r = some (replaceAt rs (j :: path) new))
  | none => by simp [findInReplies, writeInReplies]
  | some rs => by
    have ih := writeTarget_spec commentId rs
    unfold findInReplies writeInReplies
    refine ⟨ih.1, ?_⟩
    intro t ht
    obtain ⟨j, path, hnode, hw⟩ := ih.2 t ht
    exact ⟨rs, j, path, rfl, hnode, hw⟩
end

/-- Counterexample to C9 as stated: from `threaded`, dave replies to comment 7 and
to comment 8 within the same millisecond 5000, so both replies carry the
identifier 5000, and erin likes 5000, which reaches the first of them in
pre-order (the one under comment 8). The tree contains the node 5000 at path
`[0, 1]` (depth 1), erin is not in its `likedBy`, and her like of 5000 is
answered Conflict. -/
theorem likeComment_misses_twin :
    Reach anyRequest threaded twinReplies ∧
    twinReplies.posts.map (fun p => (nodeAt p.comments [0, 1]).map
        (fun c => (c.id, c.username, c.likedBy)))
      = [some (some 5000, .text "dave", some [])] ∧
    twinReplies.posts.map (fun p => (nodeAt p.comments [0, 0, 1]).map
        (fun c => (c.id, c.username, c.likedBy)))
      = [some (some 5000, .text "dave", some ["erin"])] ∧
    "erin" ∉ ([] : List String) ∧
    (handle twinReplies ⟨5002, "t7"⟩ (.likeComment 1000 5000 "erin")).1 = .conflict ∧
    (handle twinReplies ⟨5002, "t7"⟩ (.likeComment 1000 5000 "erin")).1 ≠ .success := by
  refine ⟨?_, rfl, rfl, by simp, by decide, by decide⟩
  exact Reach.step _ _ (Reach.step _ _ (Reach.step _ _ Reach.init rfl) rfl) rfl

/-- C9 as amended (a comment at any depth is likable). If the tree of the located
post has a node with the requested identifier at some path (of any length), the
username is non-empty and not in the `likedBy` of the node the search locates
(the first in pre-order with the identifier), and that node has a text or the
username is its author, then like-comment succeeds and the posts array is the
old one with the tree of that post replaced by the tree in which only the
located node changed: the username is appended to its `likedBy`. -/
theorem likeComment_any_depth (s : State) (clock : Clock) (id commentId : Nat)
    (username : String) (post : Post) (path : List Nat) (node : Comment)
    (hu : username ≠ "") (hpost : findPost s.posts id = some post)
    (hnode : nodeAt post.comments path = some node) (hid : node.id = some commentId)
    (hfresh : ∀ t, findComment commentId post.comments = some t →
      username ∉ t.likedBy.getD [])
    (htext : ∀ t, findComment commentId post.comments = some t →
      t.username ≠ .text username → ∃ x, t.text = .text x) :
    ∃ author text likedBy replies located before after,
      findComment commentId post.comments
        = some (Comment.mk (some commentId) author text likedBy replies) ∧
      (preOrder post.comments).find? (fun c => c.id == some commentId)
        = some (Comment.mk (some commentId) author text likedBy replies) ∧
      nodeAt post.comments located
        = some (Comment.mk (some commentId) author text likedBy replies) ∧
      s.posts = before ++ post :: after ∧ (∀ q ∈ before, q.id ≠ id) ∧
      (handle s clock (.likeComment id commentId username)).1 = .success ∧
      (handle s clock (.likeComment id commentId username)).2.posts =
        before ++
          { post with
            comments := replaceAt post.comments located
              (Comment.mk (some commentId) author text (some (likedBy.getD [] ++ [username]))
                replies) } :: after ∧
      (handle s clock (.likeComment id commentId username)).2.users = s.users ∧
      (handle s clock (.likeComment id commentId username)).2.friends = s.friends := by
  have hsome : (findComment commentId post.comments).isSome :=
    (findComment_isSome_iff commentId post.comments).2 ⟨path, node, hnode, hid⟩
  obtain ⟨target, htarget⟩ := Option.isSome_iff_exists.1 hsome
  obtain ⟨j, located, hloc, hw⟩ := (writeTarget_spec commentId post.comments).2 target htarget
  have hf := hfresh target htarget
  have hx := htext target htarget
  have hi := findComment_id htarget
  obtain ⟨i, author, text, likedBy, replies⟩ := target
  simp only [Comment.id] at hi
  subst hi
  simp only [Comment.likedBy] at hf
  simp only [Comment.username, Comment.text] at hx
  obtain ⟨before, after, h1, h2, h3⟩ := replacePost_split
    { post with
      comments := replaceAt post.comments (j :: located)
        (Comment.mk (some commentId) author text (some (likedBy.getD [] ++ [username]))
          replies) } hpost
  refine ⟨author, text, likedBy, replies, j :: located, before, after, htarget,
    (findComment_eq_find commentId post.comments) ▸ htarget, hloc, h1, h2, ?_⟩
  rw [← h3]
  by_cases hown : author = .text username
  · simp [handle, likeComment, hu, hpost, htarget, hf, hw, hown, Comment.likedBy,
      Comment.username, Comment.setLikedBy]
  · obtain ⟨x, hx⟩ := hx hown
    simp [handle, likeComment, hu, hpost, htarget, hf, hw, hown, hx, Comment.likedBy,
      Comment.username, Comment.text, Comment.setLikedBy]

/-- Witness of amended C9: erin likes the reply at depth 2 of `threadedPost`. -/
theorem likeComment_any_depth_witness :
    "erin" ≠ "" ∧ findPost threaded.posts 1000 = some threadedPost ∧
    nodeAt threadedPost.comments [0, 0, 0] = some deepReply ∧
    deepReply.id = some 9 ∧
    ∃ author text likedBy replies located before after,
      findComment 9 threadedPost.comments
        = some (Comment.mk (some 9) author text likedBy replies) ∧
      (preOrder threadedPost.comments).find? (fun c => c.id == some 9)
        = some (Comment.mk (some 9) author text likedBy replies) ∧
      nodeAt threadedPost.comments located
        = some (Comment.mk (some 9) author text likedBy replies) ∧
      threaded.posts = before ++ threadedPost :: after ∧ (∀ q ∈ before, q.id ≠ 1000) ∧
      (handle threaded ⟨2000, "t9"⟩ (.likeComment 1000 9 "erin")).1 = .success ∧
      (handle threaded ⟨2000, "t9"⟩ (.likeComment 1000 9 "erin")).2.posts =
        before ++
          { threadedPost with
            comments := replaceAt threadedPost.comments located
              (Comment.mk (some 9) author text (some (likedBy.getD [] ++ ["erin"]))
                replies) } :: after ∧
      (handle threaded ⟨2000, "t9"⟩ (.likeComment 1000 9 "erin")).2.users = threaded.users ∧
      (handle threaded ⟨2000, "t9"⟩ (.likeComment 1000 9 "erin")).2.friends
        = threaded.friends :=
  have h9 : findComment 9 threadedPost.comments = some deepReply := rfl
  ⟨by decide, rfl, rfl, rfl,
    likeComment_any_depth threaded ⟨2000, "t9"⟩ 1000 9 "erin" threadedPost [0, 0, 0] deepReply
      (by decide) rfl rfl rfl
      (fun t ht => by
        rw [h9] at ht
        cases ht
        decide)
      (fun t ht _ => by
        rw [h9] at ht
        cases ht
        exact ⟨"third", rfl⟩)⟩

/-! ### C10: add comment -/

/-- C10 at a failing input: the comment bob adds to the post of alice is stored
as `{ username, text }`, without `id`, `likedBy` or `replies`, and a like of or
a reply to the comment under the identifier of its creation time answers
NotFound. -/
theorem comment_stores_no_identifier :
    (handle onePost ⟨1001, "t1"⟩ (.comment 1000 (.text "bob") (.text "nice"))).1 = .success ∧
    (handle onePost ⟨1001, "t1"⟩ (.comment 1000 (.text "bob") (.text "nice"))).2.posts.map
        (fun p => p.comments) = [[Comment.mk none (.text "bob") (.text "nice") none none]] ∧
    (handle (handle onePost ⟨1001, "t1"⟩ (.comment 1000 (.text "bob") (.text "nice"))).2
        ⟨1002, "t2"⟩ (.likeComment 1000 1001 "alice")).1 = .notFound ∧
    (handle (handle onePost ⟨1001, "t1"⟩ (.comment 1000 (.text "bob") (.text "nice"))).2
        ⟨1002, "t2"⟩ (.replyComment 1000 1001 "alice" "thanks")).1 = .notFound :=
  ⟨by decide, rfl, by decide, by decide⟩

/-! ### C11: reply postcondition -/

theorem preOrder_append (a b : List Comment) : preOrder (a ++ b) = preOrder a ++ preOrder b := by
  induction a with
  | nil => simp [preOrder]
  | cons c rest ih => simp [preOrder, ih]

theorem preOrderOf_length (c : Comment) :
    (preOrderOf c).length = 1 + (preOrder (c.replies.getD [])).length := by
  cases c with
  | mk i u t l r =>
    cases r with
    | none => simp [preOrderOf, preOrderReplies, Comment.replies, preOrder]
    | some rs => simp [preOrderOf, preOrderReplies, Comment.replies]; omega

theorem preOrderOf_setReplies_length (c : Comment) (rs : List Comment) :
    (preOrderOf (c.setReplies rs)).length = 1 + (preOrder rs).length := by
  cases c with
  | mk i u t l r => simp [Comment.setReplies, preOrderOf, preOrderReplies]; omega

mutual
theorem writeIn_count (commentId : Nat) (new : Comment) : ∀ (c c' t : Comment),
    writeIn commentId new c = some c' → findIn commentId c = some t →
    (preOrderOf c').length + (preOrderOf t).length
      = (preOrderOf c).length + (preOrderOf new).length
  | .mk i u t0 l r, c', t, hw, hf => by
    unfold writeIn at hw
    unfold findIn at hf
    by_cases h : i = some commentId
    · subst h
      simp only [if_true, Option.some.injEq] at hw hf
      subst hw
      subst hf
      omega
    · simp only [if_neg h] at hw hf
      cases hr : writeInReplies commentId new r with
      | none => simp [hr] at hw
      | some rs' =>
        simp only [hr, Option.some.injEq] at hw
        subst hw
        have ih := writeInReplies_count commentId new r rs' t hr hf
        simp only [preOrderOf, preOrderReplies, List.length_cons] at ih ⊢
        omega
theorem writeTarget_count (commentId : Nat) (new : Comment) :
    ∀ (cs cs' : List Comment) (t : Comment),
    writeTarget commentId new cs = some cs' → findComment commentId cs = some t →
    (preOrder cs').length + (preOrderOf t).length
      = (preOrder cs).length + (preOrderOf new).length
  | [], cs', t, hw, _ => by simp [writeTarget] at hw
  | c :: rest, cs', t, hw, hf => by
    unfold writeTarget at hw
    unfold findComment at hf
    cases hc : findIn commentId c with
    | none =>
      have hwn := (writeIn_spec commentId c).1 hc new
      simp only [hc] at hf
      simp only [hwn] at hw
      cases hr : writeTarget commentId new rest with
      | none => simp [hr] at hw
      | some rest' =>
        simp only [hr, Option.some.injEq] at hw
        subst hw
        have ih := writeTarget_count commentId new rest rest' t hr hf
        simp only [preOrder, List.length_append]
        omega
    | some t' =>
      simp only [hc, Option.some.injEq] at hf
      subst hf
      cases hwc : writeIn commentId new c with
      | none =>
        rcases (writeIn_spec commentId c).2 t' hc with ⟨_, h⟩ | ⟨_, _, _, _, _, h⟩
        · rw [h new] at hwc; cases hwc
        · rw [h new] at hwc; cases hwc
      | some c' =>
        simp only [hwc, Option.some.injEq] at hw
        subst hw
        have ih := writeIn_count commentId new c c' t' hwc hc
        simp only [preOrder, List.length_append]
        omega
theorem writeInReplies_count (commentId : Nat) (new : Comment) :
    ∀ (r : Option (List Comment)) (rs' : List Comment) (t : Comment),
    writeInReplies commentId new r = some rs' → findInReplies commentId r = some t →
    (preOrder rs').length + (preOrderOf t).length
      = (preOrderReplies r).length + (preOrderOf new).length
  | none, rs', t, hw, _ => by simp [writeInReplies] at hw
  | some rs, rs', t, hw, hf => by
    unfold writeInReplies at hw
    unfold findInReplies at hf
    simp only [preOrderReplies]
    exact writeTarget_count commentId new rs rs' t hw hf
end

/-- C11 (reply postcondition). If the tree of the located post has a node with
the requested identifier and username and text are non-empty, reply succeeds;
the tree changes only at the parent the search locates, whose replies get the
new comment `{ id, username, text, likedBy: [], replies: [] }` as last element;
the tree has exactly one node more; every other post is kept; one notification
`{ id, type: comment_reply, actor: username, message, recipient: author of the
parent, postId, date }` is appended unless the replier is that author. -/
theorem reply_postcondition (s : State) (clock : Clock) (id commentId : Nat)
    (username text : String) (post : Post) (path : List Nat) (node : Comment)
    (hu : username ≠ "") (ht : text ≠ "") (hpost : findPost s.posts id = some post)
    (hnode : nodeAt post.comments path = some node) (hid : node.id = some commentId) :
    ∃ author parentText likedBy replies located before after,
      findComment commentId post.comments
        = some (Comment.mk (some commentId) author parentText likedBy replies) ∧
      nodeAt post.comments located
        = some (Comment.mk (some commentId) author parentText likedBy replies) ∧
      s.posts = before ++ post :: after ∧ (∀ q ∈ before, q.id ≠ id) ∧
      (handle s clock (.replyComment id commentId username text)).1 = .success ∧
      (handle s clock (.replyComment id commentId username text)).2.posts =
        before ++
          { post with
            comments := replaceAt post.comments located
              (Comment.mk (some commentId) author parentText likedBy
                (some (replies.getD [] ++
                  [Comment.mk (some clock.now) (.text username) (.text text) (some [])
                    (some [])]))) } :: after ∧
      (preOrder (replaceAt post.comments located
              (Comment.mk (some commentId) author parentText likedBy
                (some (replies.getD [] ++
                  [Comment.mk (some clock.now) (.text username) (.text text) (some [])
                    (some [])]))))).length
        = (preOrder post.comments).length + 1 ∧
      (author ≠ .text username →
        (handle s clock (.replyComment id commentId username text)).2.notifications =
          s.notifications ++
          [{ id := clock.now, type := .commentReply, actor := .text username,
             message := utf16 "replied to your comment: \"" ++ sliceEllipsis text ++ utf16 "\"",
             recipient := author, postId := some post.id, date := clock.iso }]) ∧
      (author = .text username →
        (handle s clock (.replyComment id commentId username text)).2.notifications =
          s.notifications) ∧
      (handle s clock (.replyComment id commentId username text)).2.users = s.users ∧
      (handle s clock (.replyComment id commentId username text)).2.friends = s.friends := by
  have hsome : (findComment commentId post.comments).isSome :=
    (findComment_isSome_iff commentId post.comments).2 ⟨path, node, hnode, hid⟩
  obtain ⟨parent, hparent⟩ := Option.isSome_iff_exists.1 hsome
  obtain ⟨j, located, hloc, hw⟩ := (writeTarget_spec commentId post.comments).2 parent hparent
  have hi := findComment_id hparent
  have hc := writeTarget_count commentId
    (parent.setReplies (parent.replies.getD [] ++
      [Comment.mk (some clock.now) (.text username) (.text text) (some []) (some [])]))
    post.comments _ parent (hw _) hparent
  rw [preOrderOf_setReplies_length, preOrder_append, List.length_append,
    preOrderOf_length parent] at hc
  obtain ⟨i, author, parentText, likedBy, replies⟩ := parent
  simp only [Comment.id] at hi
  subst hi
  simp only [Comment.setReplies, Comment.replies] at hc
  obtain ⟨before, after, h1, h2, h3⟩ := replacePost_split
    { post with
      comments := replaceAt post.comments (j :: located)
        (Comment.mk (some commentId) author parentText likedBy
          (some (replies.getD [] ++
            [Comment.mk (some clock.now) (.text username) (.text text) (some [])
              (some [])]))) } hpost
  refine ⟨author, parentText, likedBy, replies, j :: located, before, after, hparent, hloc,
    h1, h2, ?_, ?_, ?_, ?_, ?_, ?_, ?_⟩
  · simp [handle, replyComment, hu, ht, hpost, hparent]
  · rw [← h3]
    simp [handle, replyComment, hu, ht, hpost, hparent, hw, Comment.setReplies,
      Comment.replies]
  · simp only [preOrder, preOrderOf, preOrderReplies, List.length_append, List.length_cons,
      List.length_nil] at hc ⊢
    omega
  · intro hne
    simp [handle, replyComment, hu, ht, hpost, hparent, hne, Comment.username]
  · intro he
    simp [handle, replyComment, hu, ht, hpost, hparent, he, Comment.username]
  · simp [handle, replyComment, hu, ht, hpost, hparent]
  · simp [handle, replyComment, hu, ht, hpost, hparent]

/-- Witness of C11: erin replies to the reply at depth 2 of `threadedPost`, whose
author is dave. -/
theorem reply_postcondition_witness :
    "erin" ≠ "" ∧ "fourth" ≠ "" ∧ findPost threaded.posts 1000 = some threadedPost ∧
    nodeAt threadedPost.comments [0, 0, 0] = some deepReply ∧ deepReply.id = some 9 ∧
    (handle threaded ⟨2000, "t9"⟩ (.replyComment 1000 9 "erin" "fourth")).2.notifications
      = [{ id := 2000, type := .commentReply, actor := .text "erin",
           message := utf16 "replied to your comment: \"fourth\"",
           recipient := .text "dave", postId := some 1000, date := "t9" }] ∧
    ∃ author parentText likedBy replies located before after,
      findComment 9 threadedPost.comments
        = some (Comment.mk (some 9) author parentText likedBy replies) ∧
      nodeAt threadedPost.comments located
        = some (Comment.mk (some 9) author parentText likedBy replies) ∧
      threaded.posts = before ++ threadedPost :: after ∧ (∀ q ∈ before, q.id ≠ 1000) ∧
      (handle threaded ⟨2000, "t9"⟩ (.replyComment 1000 9 "erin" "fourth")).1 = .success ∧
      (handle threaded ⟨2000, "t9"⟩ (.replyComment 1000 9 "erin" "fourth")).2.posts =
        before ++
          { threadedPost with
            comments := replaceAt threadedPost.comments located
              (Comment.mk (some 9) author parentText likedBy
                (some (replies.getD [] ++
                  [Comment.mk (some 2000) (.text "erin") (.text "fourth") (some [])
                    (some [])]))) } :: after ∧
      (preOrder (replaceAt threadedPost.comments located
              (Comment.mk (some 9) author parentText likedBy
                (some (replies.getD [] ++
                  [Comment.mk (some 2000) (.text "erin") (.text "fourth") (some [])
                    (some [])]))))).length
        = (preOrder threadedPost.comments).length + 1 ∧
      (author ≠ .text "erin" →
        (handle threaded ⟨2000, "t9"⟩ (.replyComment 1000 9 "erin" "fourth")).2.notifications =
          threaded.notifications ++
          [{ id := 2000, type := .commentReply, actor := .text "erin",
             message := utf16 "replied to your comment: \"" ++ sliceEllipsis "fourth"
               ++ utf16 "\"",
             recipient := author, postId := some threadedPost.id, date := "t9" }]) ∧
      (author = .text "erin" →
        (handle threaded ⟨2000, "t9"⟩ (.replyComment 1000 9 "erin" "fourth")).2.notifications =
          threaded.notifications) ∧
      (handle threaded ⟨2000, "t9"⟩ (.replyComment 1000 9 "erin" "fourth")).2.users
        = threaded.users ∧
      (handle threaded ⟨2000, "t9"⟩ (.replyComment 1000 9 "erin" "fourth")).2.friends
        = threaded.friends :=
  ⟨by decide, by decide, rfl, rfl, rfl, by decide,
    reply_postcondition threaded ⟨2000, "t9"⟩ 1000 9 "erin" "fourth" threadedPost [0, 0, 0]
      deepReply (by decide) (by decide) rfl rfl rfl⟩

/-! ### C12: poll invariant -/

/-- C12 at a failing input: `pollPost` has two options, `votes = [1, 0]` and
`votedBy = [bob]`, so its vote counts sum to the number of voters. A vote of
carol without an option index passes the range guard and succeeds: carol is
appended to `votedBy` and no count is raised, so the counts sum to 1 with 2
voters. A vote of carol with the option index 0.5 does the same. -/
theorem vote_without_index_breaks_poll :
    findPost polled.posts 1000 = some pollPost ∧ pollPost.poll = some teaPoll ∧
    teaPoll.votes.length = teaPoll.options.length ∧
    sumVotes teaPoll.votes = ((teaPoll.votedBy.getD []).length : Int) ∧
    (handle polled ⟨2000, "t1"⟩ (.vote 1000 (.text "carol") .missing)).1 = .success ∧
    (handle polled ⟨2000, "t1"⟩ (.vote 1000 (.text "carol") .missing)).2.posts.map
      (fun p => p.poll.map (fun poll => (poll.votes, poll.votedBy)))
      = [some ([some 1, some 0], some [some "bob", some "carol"])] ∧
    (handle polled ⟨2000, "t1"⟩ (.vote 1000 (.text "carol") (.between 0))).1 = .success ∧
    (handle polled ⟨2000, "t1"⟩ (.vote 1000 (.text "carol") (.between 0))).2.posts.map
      (fun p => p.poll.map (fun poll => (poll.votes, poll.votedBy)))
      = [some ([some 1, some 0], some [some "bob", some "carol"])] ∧
    sumVotes [some 1, some 0]
      ≠ (([some "bob", some "carol"] : List (Option String)).length : Int) := by
  refine ⟨rfl, rfl, by decide, by decide, by decide, by decide, by decide, by decide,
    by decide⟩

/-! ### C13: a second vote -/

/-- Counterexample to C13 as stated: bob has voted in `teaPoll` (two options) and
votes again with option index 5; the answer is InvalidArgument, not Conflict. -/
theorem second_vote_invalid_index :
    findPost polled.posts 1000 = some pollPost ∧ pollPost.poll = some teaPoll ∧
    some "bob" ∈ teaPoll.votedBy.getD [] ∧
    (handle polled ⟨2000, "t1"⟩ (.vote 1000 (.text "bob") (.integer 5))).1 = .invalidArgument ∧
    (handle polled ⟨2000, "t1"⟩ (.vote 1000 (.text "bob") (.integer 5))).1 ≠ .conflict :=
  ⟨rfl, rfl, by decide, by decide, by decide⟩

/-- C13 as amended (a second vote is rejected). For a located post with a poll
and a username already in `votedBy`, a further vote by that username fails
with Conflict when its option index is in `[0, optionCount)` and with
InvalidArgument when it is not; in both cases nothing changes. The same holds of
an option index that is not an integer, by the integers it lies between, and a
request without an option index fails with Conflict. -/
theorem second_vote_rejected (s : State) (clock : Clock) (id : Nat) (username : String)
    (optionIndex : Int) (post : Post) (poll : Poll)
    (hpost : findPost s.posts id = some post) (hpoll : post.poll = some poll)
    (hvoted : some username ∈ poll.votedBy.getD []) :
    (0 ≤ optionIndex ∧ optionIndex < poll.options.length →
      (handle s clock (.vote id (.text username) (.integer optionIndex))).1 = .conflict) ∧
    (optionIndex < 0 ∨ (poll.options.length : Int) ≤ optionIndex →
      (handle s clock (.vote id (.text username) (.integer optionIndex))).1
        = .invalidArgument) ∧
    (handle s clock (.vote id (.text username) (.integer optionIndex))).2 = s ∧
    (0 ≤ optionIndex ∧ optionIndex < poll.options.length →
      (handle s clock (.vote id (.text username) (.between optionIndex))).1 = .conflict) ∧
    (optionIndex < 0 ∨ (poll.options.length : Int) ≤ optionIndex →
      (handle s clock (.vote id (.text username) (.between optionIndex))).1
        = .invalidArgument) ∧
    (handle s clock (.vote id (.text username) (.between optionIndex))).2 = s ∧
    handle s clock (.vote id (.text username) .missing) = (.conflict, s) := by
  have hinc : includes (poll.votedBy.getD []) (.text username) = true := by
    simpa [includes] using hvoted
  by_cases hidx : optionIndex < 0 ∨ optionIndex ≥ poll.options.length
  · refine ⟨?_, ?_, ?_, ?_, ?_, ?_, ?_⟩
    · intro h; omega
    · intro _; simp [handle, vote, hpost, hpoll, hidx, OptionIndex.rejected]
    · simp [handle, vote, hpost, hpoll, hidx, OptionIndex.rejected]
    · intro h; omega
    · intro _; simp [handle, vote, hpost, hpoll, hidx, OptionIndex.rejected]
    · simp [handle, vote, hpost, hpoll, hidx, OptionIndex.rejected]
    · simp [handle, vote, hpost, hpoll, OptionIndex.rejected, hinc]
  · refine ⟨?_, ?_, ?_, ?_, ?_, ?_, ?_⟩
    · intro _; simp [handle, vote, hpost, hpoll, hidx, OptionIndex.rejected, hinc]
    · intro h; exact absurd h hidx
    · simp [handle, vote, hpost, hpoll, hidx, OptionIndex.rejected, hinc]
    · intro _; simp [handle, vote, hpost, hpoll, hidx, OptionIndex.rejected, hinc]
    · intro h; exact absurd h hidx
    · simp [handle, vote, hpost, hpoll, hidx, OptionIndex.rejected, hinc]
    · simp [handle, vote, hpost, hpoll, OptionIndex.rejected, hinc]

/-- Witness of amended C13: bob, who voted, votes again for option 1. -/
theorem second_vote_rejected_witness :
    findPost polled.posts 1000 = some pollPost ∧ pollPost.poll = some teaPoll ∧
    some "bob" ∈ teaPoll.votedBy.getD [] ∧
    (handle polled ⟨2000, "t1"⟩ (.vote 1000 (.text "bob") (.integer 1))).1 = .conflict ∧
    (handle polled ⟨2000, "t1"⟩ (.vote 1000 (.text "bob") (.integer 1))).2 = polled :=
  have h := second_vote_rejected polled ⟨2000, "t1"⟩ 1000 "bob" 1 pollPost teaPoll rfl rfl
    (by decide)
  ⟨rfl, rfl, by decide, h.1 (by decide), h.2.2.1⟩

/-! ### C14: the follow relation is its own transpose -/

/-- C14 at a failing input, a state reached from an empty social graph by one
follow request: alice follows the user constructor. The request succeeds,
`friends.json` holds `constructor` in the `following` of alice and no entry for
constructor, so alice is not in the `followers` of constructor. -/
theorem follow_of_inherited_name_one_sided :
    (∀ k, inheritedName.friends k = none) ∧
    hasUser inheritedName.users "alice" = true ∧
    hasUser inheritedName.users "constructor" = true ∧
    Reach graphRequest inheritedName
      (handle inheritedName ⟨5, "t5"⟩ (.follow "alice" "constructor")).2 ∧
    (handle inheritedName ⟨5, "t5"⟩ (.follow "alice" "constructor")).1 = .success ∧
    (handle inheritedName ⟨5, "t5"⟩ (.follow "alice" "constructor")).2.friends "alice"
      = some { friends := [], requests := [], following := some ["constructor"],
               followers := some [] } ∧
    (handle inheritedName ⟨5, "t5"⟩ (.follow "alice" "constructor")).2.friends "constructor"
      = none ∧
    "constructor" ∈ (((handle inheritedName ⟨5, "t5"⟩
      (.follow "alice" "constructor")).2.friends.entry "alice").following.getD []) ∧
    "alice" ∉ (((handle inheritedName ⟨5, "t5"⟩
      (.follow "alice" "constructor")).2.friends.entry "constructor").followers.getD []) := by
  refine ⟨fun _ => rfl, by decide, by decide, Reach.step _ _ Reach.init rfl, by decide,
    by decide, by decide, by decide, by decide⟩

/-! ### C15: friendship is symmetric -/

theorem handle_friends_of_not_graph (s : State) (clock : Clock) (r : Request)
    (h : graphRequest r = false) : (handle s clock r).2.friends = s.friends := by
  cases r <;> simp only [graphRequest, Bool.true_eq_false] at h
  case getUsers => rfl
  case getPosts => rfl
  case createPost => rfl
  case upsertUser => simp only [handle, upsertUser]; repeat' split
                     all_goals rfl
  case updateUser => simp only [handle, updateUser]; repeat' split
                     all_goals rfl
  case bookmark => simp only [handle, bookmark]; repeat' split
                   all_goals rfl
  case unbookmark => simp only [handle, unbookmark]; repeat' split
                     all_goals rfl
  case like => simp only [handle, like]; repeat' split
               all_goals rfl
  case unlike => simp only [handle, unlike]; repeat' split
                 all_goals rfl
  case report => simp only [handle, report]; repeat' split
                 all_goals rfl
  case unreport => simp only [handle, unreport]; repeat' split
                   all_goals rfl
  case comment => simp only [handle, comment]; repeat' split
                  all_goals rfl
  case vote => simp only [handle, vote]; repeat' split
               all_goals rfl
  case deletePost => simp only [handle, deletePost]; repeat' split
                     all_goals rfl
  case likeComment => simp only [handle, likeComment]; repeat' split
                      all_goals rfl
  case unlikeComment => simp only [handle, unlikeComment]; repeat' split
                        all_goals rfl
  case replyComment => simp only [handle, replyComment]; repeat' split
                       all_goals rfl
  case getNotifications => simp only [handle, getNotifications]; repeat' split
                           all_goals rfl
  case deleteNotification => simp only [handle, deleteNotification]; repeat' split
                             all_goals rfl
  case deleteAllNotifications => simp only [handle, deleteAllNotifications]; repeat' split
                                 all_goals rfl

theorem acceptRequest_friendsSymmetric (s : State) (clock : Clock) (a b : String)
    (h : FriendsSymmetric s.friends) :
    FriendsSymmetric (acceptRequest s clock a b).2.friends := by
  rcases acceptRequest_cases s clock a b with ⟨_, hs⟩ | ⟨_, _, he, _⟩
  · rw [hs]; exact h
  · intro x y
    rw [(he x).1, (he y).1]
    have hxy := h x y
    by_cases hxa : x = a <;> by_cases hxb : x = b <;> by_cases hya : y = a <;>
      by_cases hyb : y = b <;> simp_all

theorem friendsSymmetric_congr {g g' : Graph}
    (h1 : ∀ x, (g'.entry x).friends = (g.entry x).friends)
    (h : FriendsSymmetric g) : FriendsSymmetric g' := by
  intro x y
  rw [h1, h1]
  exact h x y

theorem friendRequest_friends (s : State) (clock : Clock) (a b x : String) :
    ((friendRequest s clock a b).2.friends.entry x).friends = (s.friends.entry x).friends := by
  rcases friendRequest_cases s clock a b with ⟨_, hs⟩ | ⟨_, _, _, _, _, he, _⟩
  · rw [hs]
  · exact (he x).1

theorem handle_friendsSymmetric (s : State) (clock : Clock) (r : Request)
    (h : FriendsSymmetric s.friends) : FriendsSymmetric (handle s clock r).2.friends := by
  cases hr : graphRequest r with
  | false => rw [handle_friends_of_not_graph s clock r hr]; exact h
  | true =>
    cases r <;> simp only [graphRequest, Bool.false_eq_true] at hr
    case follow a b =>
      exact friendsSymmetric_congr (fun x => (follow_entries s clock a b x).1) h
    case unfollow a b =>
      exact friendsSymmetric_congr (fun x => (unfollow_entries s a b x).1) h
    case friendRequest a b =>
      exact friendsSymmetric_congr (fun x => friendRequest_friends s clock a b x) h
    case acceptRequest a b => exact acceptRequest_friendsSymmetric s clock a b h
    case getFriends u =>
      exact friendsSymmetric_congr (fun x => (getFriends_entries s u x).1) h

theorem reach_friendsSymmetric {s₀ s : State} (h₀ : ∀ k, s₀.friends k = none)
    (h : Reach graphRequest s₀ s) : FriendsSymmetric s.friends := by
  induction h with
  | init => intro x y; simp [Graph.entry, h₀, GraphEntry.empty]
  | step clock r _ _ ih => exact handle_friendsSymmetric _ clock r ih

/-- C15 (friendship is symmetric). In every state reached from an empty social
graph by follow, unfollow, friend-request and accept (and get-friends)
requests, `y ∈ friends(x)` if and only if `x ∈ friends(y)`. -/
theorem friendship_symmetric (s₀ s : State) (h₀ : ∀ k, s₀.friends k = none)
    (h : Reach graphRequest s₀ s) (x y : String) :
    y ∈ (s.friends.entry x).friends ↔ x ∈ (s.friends.entry y).friends :=
  reach_friendsSymmetric h₀ h x y

/-- Witness of C15: alice asks bob, bob accepts. -/
theorem friendship_symmetric_witness :
    (∀ k, twoUsers.friends k = none) ∧ Reach graphRequest twoUsers befriended ∧
    "bob" ∈ (befriended.friends.entry "alice").friends ∧
    ("bob" ∈ (befriended.friends.entry "alice").friends
      ↔ "alice" ∈ (befriended.friends.entry "bob").friends) :=
  have hr : Reach graphRequest twoUsers befriended :=
    Reach.step _ _ (Reach.step _ _ Reach.init rfl) rfl
  ⟨fun _ => rfl, hr, by decide,
    friendship_symmetric twoUsers befriended (fun _ => rfl) hr "alice" "bob"⟩

/-! ### C16: accept postcondition -/

/-- C16 at a failing input: no entry of `friends.json` holds a pending request,
and an accept request with `to = constructor` is answered 500, not NotFound. -/
theorem accept_of_inherited_name_fails :
    (∀ k, inheritedName.friends k = none) ∧
    (inheritedName.friends.entry "constructor").requests = [] ∧
    handle inheritedName ⟨5, "t5"⟩ (.acceptRequest "alice" "constructor")
      = (.internal, inheritedName) ∧
    (handle inheritedName ⟨5, "t5"⟩ (.acceptRequest "alice" "constructor")).1 ≠ .notFound ∧
    (handle inheritedName ⟨5, "t5"⟩ (.acceptRequest "alice" "bob")).1 = .notFound := by
  refine ⟨fun _ => rfl, by decide, ?_, by decide, by decide⟩
  have h1 : (handle inheritedName ⟨5, "t5"⟩ (.acceptRequest "alice" "constructor")).1
      ≠ .success := by decide
  exact Prod.ext (by decide) ((handle_success_or_same _ _ _).resolve_left h1)

/-! ### C17: friend-request outcome -/

/-- C17 at a failing input: alice and constructor are distinct users with User
records, neither is in the friends of the other and no request is pending, so
the request should succeed; it is answered 500 and stores nothing. A request
from constructor to alice is answered 500 too. -/
theorem friendRequest_of_inherited_name_fails :
    "alice" ≠ "constructor" ∧
    hasUser inheritedName.users "alice" = true ∧
    hasUser inheritedName.users "constructor" = true ∧
    "constructor" ∉ (inheritedName.friends.entry "alice").friends ∧
    "alice" ∉ (inheritedName.friends.entry "constructor").friends ∧
    (inheritedName.friends.entry "constructor").requests = [] ∧
    handle inheritedName ⟨5, "t5"⟩ (.friendRequest "alice" "constructor")
      = (.internal, inheritedName) ∧
    (handle inheritedName ⟨5, "t5"⟩ (.friendRequest "alice" "constructor")).1 ≠ .success ∧
    (handle inheritedName ⟨5, "t5"⟩ (.friendRequest "constructor" "alice")).1 = .internal := by
  refine ⟨by decide, by decide, by decide, by decide, by decide, by decide, ?_, by decide,
    by decide⟩
  have h1 : (handle inheritedName ⟨5, "t5"⟩ (.friendRequest "alice" "constructor")).1
      ≠ .success := by decide
  exact Prod.ext (by decide) ((handle_success_or_same _ _ _).resolve_left h1)

/-! ### C18: failure atomicity -/

/-- C18 (failure atomicity). For every request and every prior state, if the
request answers an error then the four collections (and the memory of the
process) are exactly what they were before the request. -/
theorem failure_atomicity (s : State) (clock : Clock) (r : Request)
    (h : (handle s clock r).1 ≠ .success) : (handle s clock r).2 = s :=
  (handle_success_or_same s clock r).resolve_left h

/-- Witness of C18: a like of a post that does not exist. -/
theorem failure_atomicity_witness :
    (handle onePost ⟨7, "t7"⟩ (.like 42 (.text "bob"))).1 ≠ .success ∧
    (handle onePost ⟨7, "t7"⟩ (.like 42 (.text "bob"))).2 = onePost :=
  ⟨by decide, failure_atomicity onePost ⟨7, "t7"⟩ (.like 42 (.text "bob")) (by decide)⟩

/-! ### C19: delete post -/

theorem findPost_none_iff {posts : List Post} {id : Nat} :
    findPost posts id = none ↔ ∀ p ∈ posts, p.id ≠ id := by
  simp [findPost, List.find?_eq_none]

/-- C19 (delete-post outcome). With a username given: NotFound and no change when
no post has the identifier; Forbidden and no change when the owner of the
located post differs from the caller; otherwise success, after which the posts array
is the old one without the posts of that identifier, the others unchanged and
in their order, and the other collections untouched. The outcome and state do
not depend on whether `fs.unlink` reports an error. -/
theorem deletePost_outcome (s : State) (clock : Clock) (id : Nat) (username : String)
    (hu : username ≠ "") :
    ((∀ p ∈ s.posts, p.id ≠ id) →
      handle s clock (.deletePost id username) = (.notFound, s)) ∧
    (∀ post, findPost s.posts id = some post → post.username ≠ .text username →
      handle s clock (.deletePost id username) = (.forbidden, s)) ∧
    (∀ post, findPost s.posts id = some post → post.username = .text username →
      (handle s clock (.deletePost id username)).1 = .success ∧
      (handle s clock (.deletePost id username)).2.posts
        = s.posts.filter (fun p => p.id ≠ id) ∧
      (∀ p ∈ (handle s clock (.deletePost id username)).2.posts, p.id ≠ id) ∧
      (∀ p ∈ s.posts, p.id ≠ id →
        p ∈ (handle s clock (.deletePost id username)).2.posts) ∧
      ((handle s clock (.deletePost id username)).2.posts).Sublist s.posts ∧
      (handle s clock (.deletePost id username)).2.users = s.users ∧
      (handle s clock (.deletePost id username)).2.notifications = s.notifications ∧
      (handle s clock (.deletePost id username)).2.friends = s.friends) ∧
    (∀ unlinkFails : Bool,
      ((deletePostMedia s id username unlinkFails).1,
        (deletePostMedia s id username unlinkFails).2.1)
        = handle s clock (.deletePost id username)) := by
  refine ⟨?_, ?_, ?_, ?_⟩
  · intro h
    have := findPost_none_iff.2 h
    simp [handle, deletePost, hu, this]
  · intro post hp hne
    simp [handle, deletePost, hu, hp, hne]
  · intro post hp he
    simp only [handle, deletePost, hu, hp, he, if_false, ne_eq, not_true_eq_false]
    refine ⟨trivial, trivial, ?_, ?_, List.filter_sublist _, trivial, trivial, trivial⟩
    · intro p hp'
      simpa using (List.mem_filter.1 hp').2
    · intro p hp' hid
      exact List.mem_filter.2 ⟨hp', by simpa using hid⟩
  · intro unlinkFails
    cases hfp : findPost s.posts id with
    | none => simp [handle, deletePost, deletePostMedia, hu, hfp]
    | some post =>
      by_cases hne : post.username = .text username
      · simp [handle, deletePost, deletePostMedia, hu, hfp, hne]
      · simp [handle, deletePost, deletePostMedia, hu, hfp, hne]

/-- Witness of C19: alice deletes her post. -/
theorem deletePost_outcome_witness :
    "alice" ≠ "" ∧ findPost onePost.posts 1000 = some helloPost ∧
    (handle onePost ⟨7, "t7"⟩ (.deletePost 1000 "alice")).1 = .success ∧
    ∀ p ∈ (handle onePost ⟨7, "t7"⟩ (.deletePost 1000 "alice")).2.posts, p.id ≠ 1000 :=
  have h := (deletePost_outcome onePost ⟨7, "t7"⟩ 1000 "alice" (by decide)).2.2.1
    helloPost rfl rfl
  ⟨by decide, rfl, h.1, h.2.2.1⟩

/-! ### C20: delete notification -/

/-- C20 at a failing input, a state reached from the empty collections: two
notifications were created in the same millisecond, so both carry the
identifier 5000, the first for alice and the second for bob; the delete of
5000 by alice succeeds and removes both, so the notifications addressed to bob are not
what they were. -/
theorem deleteNotification_removes_others :
    Reach anyRequest State.empty sameMillisecond ∧
    sameMillisecond.notifications.map (fun n => (n.id, n.recipient))
      = [(5000, .text "alice"), (5000, .text "bob")] ∧
    (handle sameMillisecond ⟨6000, "t6"⟩ (.deleteNotification 5000 "alice")).1 = .success ∧
    (handle sameMillisecond ⟨6000, "t6"⟩ (.deleteNotification 5000 "alice")).2.notifications
      = [] ∧
    sameMillisecond.notifications.filter (fun n => n.recipient ≠ .text "alice")
      ≠ List.filter (fun n => n.recipient ≠ .text "alice")
          (handle sameMillisecond ⟨6000, "t6"⟩
            (.deleteNotification 5000 "alice")).2.notifications := by
  refine ⟨?_, by decide, by decide, by decide, by decide⟩
  exact Reach.step _ _ (Reach.step _ _ (Reach.step _ _ (Reach.step _ _ Reach.init rfl) rfl)
    rfl) rfl

/-! ### C21: post identifiers -/

theorem serve_createPost_ids (steps : List (Clock × Request)) :
    ∀ s : State, (∀ step ∈ steps, isCreatePost step.2 = true) →
      (serve s steps).posts.map Post.id
        = s.posts.map Post.id ++ steps.map (fun step => step.1.now) := by
  induction steps with
  | nil => intro s _; simp [serve]
  | cons step rest ih =>
    intro s hc
    have hrest : ∀ x ∈ rest, isCreatePost x.2 = true :=
      fun x hx => hc x (List.mem_cons_of_mem _ hx)
    have hstep := hc step (List.mem_cons_self _ _)
    obtain ⟨clock, r⟩ := step
    cases r <;> simp only [isCreatePost, Bool.false_eq_true] at hstep
    case createPost username userEmail caption tag file =>
      rw [serve, ih _ hrest]
      simp [handle, createPost]

/-- C21, as the code has it: two create-post requests served within the same
millisecond, a non-decreasing sequence of clock readings, store two posts with
the identifier 1000. -/
theorem post_ids_collide :
    (∀ step ∈ twinPosts, isCreatePost step.2 = true) ∧
    (twinPosts.map (fun step => step.1.now)).Pairwise (fun a b => a ≤ b) ∧
    (serve State.empty twinPosts).posts.map Post.id = [1000, 1000] ∧
    ¬ ((serve State.empty twinPosts).posts.map Post.id).Nodup := by
  refine ⟨by decide, by decide, by decide, by decide⟩

/-- C21 (post identifiers, amended). For every sequence of create-post requests
issued on an empty posts collection, the identifiers of the resulting posts are
the clock readings of the requests, in order; under a strictly increasing
sequence of clock readings they are pairwise distinct. -/
theorem post_ids_unique (s : State) (steps : List (Clock × Request))
    (hs : s.posts = []) (hc : ∀ step ∈ steps, isCreatePost step.2 = true)
    (ht : (steps.map (fun step => step.1.now)).Pairwise (fun a b => a < b)) :
    (serve s steps).posts.map Post.id = steps.map (fun step => step.1.now) ∧
    ((serve s steps).posts.map Post.id).Nodup := by
  have h := serve_createPost_ids steps s hc
  rw [hs] at h
  simp only [List.map_nil, List.nil_append] at h
  refine ⟨h, ?_⟩
  rw [h]
  exact ht.imp (fun hab => Nat.ne_of_lt hab)

/-- Witness of C21: alice and bob post one millisecond apart. -/
theorem post_ids_unique_witness :
    State.empty.posts = [] ∧ (∀ step ∈ spacedPosts, isCreatePost step.2 = true) ∧
    (spacedPosts.map (fun step => step.1.now)).Pairwise (fun a b => a < b) ∧
    (serve State.empty spacedPosts).posts.map Post.id = [1000, 1001] ∧
    ((serve State.empty spacedPosts).posts.map Post.id).Nodup :=
  ⟨rfl, by decide, by decide,
    post_ids_unique State.empty spacedPosts rfl (by decide) (by decide)⟩

/-! ### C22: friends lists -/

/-- C22, as the code has it: alice and bob, both with User records and an empty
social graph, send each other a friend request; neither request is refused,
because `POST /friend-request` looks for a pending request of the same direction
only. Both are then accepted, and `POST /friend-request/accept` pushes on the
friends arrays without the "already friends" test of `POST /friend-request`:
bob is twice in alice's friends list and alice twice in bob's. -/
theorem crossing_requests_duplicate_friends :
    (∀ k, twoUsers.friends k = none) ∧
    hasUser twoUsers.users "alice" = true ∧ hasUser twoUsers.users "bob" = true ∧
    Reach friendshipRequest twoUsers crossed ∧
    (crossed.friends.entry "alice").friends = ["bob", "bob"] ∧
    (crossed.friends.entry "bob").friends = ["alice", "alice"] ∧
    ¬ (crossed.friends.entry "alice").friends.Nodup :=
  ⟨fun _ => rfl, by decide, by decide,
    Reach.step _ _ (Reach.step _ _ (Reach.step _ _ (Reach.step _ _ Reach.init rfl) rfl) rfl) rfl,
    by decide, by decide, by decide⟩

/-! ### C23: upsert keyed on email -/

theorem set_of_getElem? {α : Type} {l : List α} {i : Nat} {a : α} (h : l[i]? = some a) :
    l.set i a = l := by
  induction l generalizing i with
  | nil => simp at h
  | cons x xs ih =>
    cases i with
    | zero => simp at h; simp [h]
    | succ i => simp at h; simp [ih h]

theorem upsertUser_of_found (s : State) {username userEmail : String}
    (photoURL : Option String) (hu : username ≠ "") (he : userEmail ≠ "") {i : Nat}
    (hf : s.users.findIdx? (fun u => u.userEmail == userEmail) = some i) :
    upsertUser s username userEmail photoURL =
      (.success, { s with
        users := s.users.set i ⟨username, userEmail, photoURL, none, none⟩ }) := by
  simp [upsertUser, hu, he, hf]

theorem upsertUser_of_new (s : State) {username userEmail : String}
    (photoURL : Option String) (hu : username ≠ "") (he : userEmail ≠ "")
    (hf : s.users.findIdx? (fun u => u.userEmail == userEmail) = none) :
    upsertUser s username userEmail photoURL =
      (.success, { s with
        users := s.users ++ [⟨username, userEmail, photoURL, none, none⟩] }) := by
  simp [upsertUser, hu, he, hf]

theorem findIdx?_email_some {users : List User} {userEmail : String} {i : Nat}
    (h : users.findIdx? (fun u => u.userEmail == userEmail) = some i) :
    (users[i]?).map User.userEmail = some userEmail := by
  obtain ⟨hi, hp, _⟩ := List.findIdx?_eq_some_iff_getElem.1 h
  rw [List.getElem?_eq_getElem hi]
  simpa using hp

theorem findIdx?_email_none {users : List User} {userEmail : String}
    (h : users.findIdx? (fun u => u.userEmail == userEmail) = none) :
    userEmail ∉ users.map User.userEmail := by
  rw [List.findIdx?_eq_none_iff] at h
  intro hm
  obtain ⟨u, hu, he⟩ := List.mem_map.1 hm
  have := h u hu
  simp [he] at this

theorem upsertUser_emails_nodup (s : State) (username userEmail : String)
    (photoURL : Option String) (h : (s.users.map User.userEmail).Nodup) :
    ((upsertUser s username userEmail photoURL).2.users.map User.userEmail).Nodup := by
  by_cases hv : username = "" ∨ userEmail = ""
  · simp only [upsertUser, hv, if_true]; exact h
  · have hu : username ≠ "" := fun e => hv (Or.inl e)
    have he : userEmail ≠ "" := fun e => hv (Or.inr e)
    cases hf : s.users.findIdx? (fun u => u.userEmail == userEmail) with
    | some i =>
      rw [upsertUser_of_found s photoURL hu he hf]
      simp only [List.map_set]
      have := findIdx?_email_some hf
      rw [← List.getElem?_map] at this
      rw [set_of_getElem? this]
      exact h
    | none =>
      rw [upsertUser_of_new s photoURL hu he hf]
      have hn := findIdx?_email_none hf
      simp only [List.map_append, List.map_cons, List.map_nil]
      rw [List.nodup_append]
      refine ⟨h, List.nodup_singleton _, ?_⟩
      intro a ha hb
      simp at hb
      exact hn (hb ▸ ha)

theorem reach_emails_nodup {s₀ s : State} (h₀ : s₀.users = [])
    (h : Reach upsertRequest s₀ s) : (s.users.map User.userEmail).Nodup := by
  induction h with
  | init => simp [h₀]
  | step clock r _ hr ih =>
    cases r <;> simp only [upsertRequest, Bool.false_eq_true] at hr
    case upsertUser username userEmail photoURL =>
      exact upsertUser_emails_nodup _ username userEmail photoURL ih

/-- C23 (upsert keyed on email). In every state reached from an empty users
collection by upsert requests, no two user records share a `userEmail`. There,
an upsert with non-empty `username` and `userEmail` succeeds; when the email is
present, the one record that carries it is replaced in place by exactly
`{ username, userEmail, photoURL }`, the length and every other record being
kept; when the email is new, that record is appended. -/
theorem upsert_keyed_on_email (s₀ s : State) (h₀ : s₀.users = [])
    (h : Reach upsertRequest s₀ s) (clock : Clock) (username userEmail : String)
    (photoURL : Option String) (hu : username ≠ "") (he : userEmail ≠ "") :
    (s.users.map User.userEmail).Nodup ∧
    (handle s clock (.upsertUser username userEmail photoURL)).1 = .success ∧
    (userEmail ∈ s.users.map User.userEmail →
      ∃ i, (s.users[i]?).map User.userEmail = some userEmail ∧
        (∀ j, (s.users[j]?).map User.userEmail = some userEmail → j = i) ∧
        (handle s clock (.upsertUser username userEmail photoURL)).2.users
          = s.users.set i ⟨username, userEmail, photoURL, none, none⟩ ∧
        (handle s clock (.upsertUser username userEmail photoURL)).2.users.length
          = s.users.length ∧
        ∀ j, j ≠ i →
          (handle s clock (.upsertUser username userEmail photoURL)).2.users[j]?
            = s.users[j]?) ∧
    (userEmail ∉ s.users.map User.userEmail →
      (handle s clock (.upsertUser username userEmail photoURL)).2.users
        = s.users ++ [⟨username, userEmail, photoURL, none, none⟩]) := by
  have hnd := reach_emails_nodup h₀ h
  simp only [handle]
  cases hf : s.users.findIdx? (fun u => u.userEmail == userEmail) with
  | some i =>
    rw [upsertUser_of_found s photoURL hu he hf]
    have hi := findIdx?_email_some hf
    refine ⟨hnd, rfl, fun _ => ⟨i, hi, ?_, rfl, by simp, ?_⟩, ?_⟩
    · intro j hj
      rw [← List.getElem?_map] at hi hj
      have hlt : j < (s.users.map User.userEmail).length := by
        rcases List.getElem?_eq_some.1 hj with ⟨hlt, _⟩
        exact hlt
      exact List.getElem?_inj hlt hnd (hj.trans hi.symm)
    · intro j hj
      exact List.getElem?_set_ne (Ne.symm hj)
    · intro hn
      exact absurd (List.mem_map.2 (by
        rcases hx : s.users[i]? with _ | u
        · simp [hx] at hi
        · simp [hx] at hi
          exact ⟨u, List.mem_iff_getElem?.2 ⟨i, hx⟩, hi⟩)) hn
  | none =>
    rw [upsertUser_of_new s photoURL hu he hf]
    have hn := findIdx?_email_none hf
    exact ⟨hnd, rfl, fun hm => absurd hm hn, fun _ => rfl⟩

/-- Witness of C23: with alice and bob registered, an upsert for alice's email
replaces her record in place. -/
theorem upsert_keyed_on_email_witness :
    Reach upsertRequest State.empty registered ∧
    "alice@example.org" ∈ registered.users.map User.userEmail ∧
    (registered.users.map User.userEmail).Nodup ∧
    (handle registered ⟨3, "t3"⟩
      (.upsertUser "alicia" "alice@example.org" (some "a.png"))).2.users
      = [⟨"alicia", "alice@example.org", some "a.png", none, none⟩,
         ⟨"bob", "bob@example.org", none, none, none⟩] :=
  have hr : Reach upsertRequest State.empty registered :=
    Reach.step _ _ (Reach.step _ _ Reach.init rfl) rfl
  ⟨hr, by decide,
    (upsert_keyed_on_email State.empty registered rfl hr ⟨3, "t3"⟩ "alicia"
      "alice@example.org" (some "a.png") (by decide) (by decide)).1,
    by decide⟩

/-! ### C24: usernames -/

theorem upsertUser_keyed (emailOf : String → String) (s : State) (username userEmail : String)
    (photoURL : Option String) (hk : userEmail = emailOf username)
    (h : ∀ u ∈ s.users, u.userEmail = emailOf u.username) :
    ∀ u ∈ (upsertUser s username userEmail photoURL).2.users,
      u.userEmail = emailOf u.username := by
  by_cases hv : username = "" ∨ userEmail = ""
  · simp only [upsertUser, hv, if_true]; exact h
  · have hu : username ≠ "" := fun e => hv (Or.inl e)
    have he : userEmail ≠ "" := fun e => hv (Or.inr e)
    cases hf : s.users.findIdx? (fun u => u.userEmail == userEmail) with
    | some i =>
      rw [upsertUser_of_found s photoURL hu he hf]
      intro u hmem
      rcases List.mem_or_eq_of_mem_set hmem with hmem | rfl
      · exact h u hmem
      · exact hk
    | none =>
      rw [upsertUser_of_new s photoURL hu he hf]
      intro u hmem
      rcases List.mem_append.1 hmem with hmem | hmem
      · exact h u hmem
      · rw [List.mem_singleton.1 hmem]; exact hk

theorem upsertKeyed_upsertRequest {emailOf : String → String} {r : Request}
    (h : upsertKeyed emailOf r = true) : upsertRequest r = true := by
  cases r <;> simp_all [upsertKeyed, upsertRequest]

theorem reach_upsertRequest_of_keyed {emailOf : String → String} {s₀ s : State}
    (h : Reach (upsertKeyed emailOf) s₀ s) : Reach upsertRequest s₀ s := by
  induction h with
  | init => exact Reach.init
  | step clock r _ hr ih => exact Reach.step clock r ih (upsertKeyed_upsertRequest hr)

theorem reach_keyed {emailOf : String → String} {s₀ s : State} (h₀ : s₀.users = [])
    (h : Reach (upsertKeyed emailOf) s₀ s) :
    ∀ u ∈ s.users, u.userEmail = emailOf u.username := by
  induction h with
  | init => simp [h₀]
  | step clock r _ hr ih =>
    cases r <;> simp only [upsertKeyed, Bool.false_eq_true] at hr
    case upsertUser username userEmail photoURL =>
      exact upsertUser_keyed emailOf _ username userEmail photoURL (by simpa using hr) ih

/-- C24, as the code has it: two upserts for the username alice under two emails
leave two user records with the username alice. -/
theorem usernames_collide :
    State.empty.users = [] ∧ Reach upsertRequest State.empty sameName ∧
    sameName.users.map User.username = ["alice", "alice"] ∧
    ¬ (sameName.users.map User.username).Nodup :=
  ⟨rfl, Reach.step _ _ (Reach.step _ _ Reach.init rfl) rfl, by decide, by decide⟩

/-- C24 (usernames, amended). In every state reached from an empty users
collection by user upserts in which no username is submitted with two different
emails (the email of a request is a function `emailOf` of its username), no two
user records share a username. -/
theorem usernames_unique_when_keyed (emailOf : String → String) (s₀ s : State)
    (h₀ : s₀.users = []) (h : Reach (upsertKeyed emailOf) s₀ s) :
    (s.users.map User.username).Nodup := by
  have hnd := reach_emails_nodup h₀ (reach_upsertRequest_of_keyed h)
  have hk := reach_keyed h₀ h
  have hmap : s.users.map User.userEmail = (s.users.map User.username).map emailOf := by
    rw [List.map_map]
    exact List.map_congr_left (fun u hu => hk u hu)
  rw [hmap] at hnd
  exact List.Nodup.of_map emailOf hnd

/-- Witness of C24: alice and bob, each registered under their own email. -/
theorem usernames_unique_when_keyed_witness :
    State.empty.users = [] ∧ Reach (upsertKeyed exampleEmail) State.empty registered ∧
    registered.users.map User.username = ["alice", "bob"] ∧
    (registered.users.map User.username).Nodup :=
  have hr : Reach (upsertKeyed exampleEmail) State.empty registered :=
    Reach.step _ _ (Reach.step _ _ Reach.init (by decide)) (by decide)
  ⟨rfl, hr, by decide, usernames_unique_when_keyed exampleEmail State.empty registered rfl hr⟩

/-! ### Lemmas on posts as the API leaves them -/

theorem findComment_of_bare {cs : List Comment}
    (h : ∀ c ∈ cs, c.id = none ∧ c.replies = none) (commentId : Nat) :
    findComment commentId cs = none := by
  induction cs with
  | nil => simp [findComment]
  | cons c rest ih =>
    have hc := h c (List.mem_cons_self _ _)
    have hrest := ih (fun x hx => h x (List.mem_cons_of_mem _ hx))
    obtain ⟨i, u, t, l, r⟩ := c
    simp only [Comment.id, Comment.replies] at hc
    obtain ⟨rfl, rfl⟩ := hc
    simp [findComment, findIn, findInReplies, hrest]

theorem preOrder_of_bare {cs : List Comment}
    (h : ∀ c ∈ cs, c.id = none ∧ c.replies = none) : preOrder cs = cs := by
  induction cs with
  | nil => simp [preOrder]
  | cons c rest ih =>
    have hc := h c (List.mem_cons_self _ _)
    have hrest := ih (fun x hx => h x (List.mem_cons_of_mem _ hx))
    obtain ⟨i, u, t, l, r⟩ := c
    simp only [Comment.id, Comment.replies] at hc
    obtain ⟨rfl, rfl⟩ := hc
    simp [preOrder, preOrderOf, preOrderReplies, hrest]

theorem plain_congr {p q : Post} (h : Plain p) (h1 : q.poll = p.poll)
    (h2 : q.comments = p.comments) : Plain q := by
  unfold Plain
  rw [h1, h2]
  exact h

theorem likeComment_of_plain (s : State) (clock : Clock) (id commentId : Nat)
    (username : String) (h : ∀ p ∈ s.posts, Plain p) :
    likeComment s clock id commentId username
      = (if username = "" then .invalidArgument else .notFound, s) := by
  unfold likeComment
  by_cases hu : username = ""
  · simp [hu]
  · simp only [hu, if_false]
    cases hfp : findPost s.posts id with
    | none => rfl
    | some post =>
      simp only [findComment_of_bare (h post (findPost_some hfp).1).2]

theorem unlikeComment_of_plain (s : State) (id commentId : Nat)
    (username : String) (h : ∀ p ∈ s.posts, Plain p) :
    unlikeComment s id commentId username
      = (if username = "" then .invalidArgument else .notFound, s) := by
  unfold unlikeComment
  by_cases hu : username = ""
  · simp [hu]
  · simp only [hu, if_false]
    cases hfp : findPost s.posts id with
    | none => rfl
    | some post =>
      simp only [findComment_of_bare (h post (findPost_some hfp).1).2]

theorem replyComment_of_plain (s : State) (clock : Clock) (id commentId : Nat)
    (username text : String) (h : ∀ p ∈ s.posts, Plain p) :
    replyComment s clock id commentId username text
      = (if username = "" ∨ text = "" then .invalidArgument else .notFound, s) := by
  unfold replyComment
  by_cases hu : username = "" ∨ text = ""
  · simp [hu]
  · simp only [hu, if_false]
    cases hfp : findPost s.posts id with
    | none => rfl
    | some post =>
      simp only [findComment_of_bare (h post (findPost_some hfp).1).2]

theorem vote_of_plain (s : State) (id : Nat) (username : Field)
    (optionIndex : OptionIndex)
    (h : ∀ p ∈ s.posts, Plain p) : vote s id username optionIndex = (.notFound, s) := by
  unfold vote
  cases hfp : findPost s.posts id with
  | none => rfl
  | some post => simp only [(h post (findPost_some hfp).1).1]

theorem handle_plain (s : State) (clock : Clock) (r : Request)
    (h : ∀ p ∈ s.posts, Plain p) : ∀ p ∈ (handle s clock r).2.posts, Plain p := by
  cases r with
  | createPost username userEmail caption tag file =>
    intro p hp
    simp only [handle, createPost, List.mem_append, List.mem_singleton] at hp
    rcases hp with hp | rfl
    · exact h p hp
    · exact ⟨rfl, by simp⟩
  | comment id username text =>
    simp only [handle, comment]
    cases hfp : findPost s.posts id with
    | none => exact h
    | some post =>
      obtain ⟨hpoll, hbare⟩ := h post (findPost_some hfp).1
      have hnew : Plain { post with
          comments := post.comments ++ [Comment.mk none username text none none] } := by
        refine ⟨hpoll, ?_⟩
        intro c hc
        rcases List.mem_append.1 hc with hc | hc
        · exact hbare c hc
        · rw [List.mem_singleton.1 hc]; exact ⟨rfl, rfl⟩
      simp only []
      repeat' split
      all_goals first
        | exact h
        | exact forall_replacePost h hnew
  | vote id username optionIndex =>
    simp only [handle]; rw [vote_of_plain s id username optionIndex h]; exact h
  | likeComment id commentId username =>
    simp only [handle]; rw [likeComment_of_plain s clock id commentId username h]; exact h
  | unlikeComment id commentId username =>
    simp only [handle]; rw [unlikeComment_of_plain s id commentId username h]; exact h
  | replyComment id commentId username text =>
    simp only [handle]; rw [replyComment_of_plain s clock id commentId username text h]
    exact h
  | deletePost id username =>
    simp only [handle, deletePost]
    repeat' split
    all_goals first
      | exact h
      | (intro p hp; exact h p (List.mem_of_mem_filter hp))
  | like id username =>
    simp only [handle, like]
    cases hfp : findPost s.posts id with
    | none => exact h
    | some post =>
      simp only []
      repeat' split
      all_goals first
        | exact h
        | exact forall_replacePost h (plain_congr (h post (findPost_some hfp).1) rfl rfl)
  | unlike id username =>
    simp only [handle, unlike]
    cases hfp : findPost s.posts id with
    | none => exact h
    | some post =>
      simp only []
      repeat' split
      all_goals first
        | exact h
        | exact forall_replacePost h (plain_congr (h post (findPost_some hfp).1) rfl rfl)
  | report id username =>
    simp only [handle, report]
    cases hfp : findPost s.posts id with
    | none => exact h
    | some post =>
      simp only []
      repeat' split
      all_goals first
        | exact h
        | exact forall_replacePost h (plain_congr (h post (findPost_some hfp).1) rfl rfl)
  | unreport id username =>
    simp only [handle, unreport]
    cases hfp : findPost s.posts id with
    | none => exact h
    | some post =>
      simp only []
      repeat' split
      all_goals first
        | exact h
        | exact forall_replacePost h (plain_congr (h post (findPost_some hfp).1) rfl rfl)
  | bookmark id username =>
    simp only [handle, bookmark]
    cases hfp : findPost s.posts id with
    | none => exact h
    | some post =>
      simp only []
      repeat' split
      all_goals first
        | exact h
        | exact forall_replacePost h (plain_congr (h post (findPost_some hfp).1) rfl rfl)
  | unbookmark id username =>
    simp only [handle, unbookmark]
    cases hfp : findPost s.posts id with
    | none => exact h
    | some post =>
      simp only []
      repeat' split
      all_goals first
        | exact h
        | exact forall_replacePost h (plain_congr (h post (findPost_some hfp).1) rfl rfl)
  | getUsers => exact h
  | getPosts => exact h
  | upsertUser username userEmail photoURL =>
    simp only [handle, upsertUser]
    repeat' split
    all_goals exact h
  | updateUser username bio banner =>
    simp only [handle, updateUser]
    repeat' split
    all_goals exact h
  | getNotifications username =>
    simp only [handle, getNotifications]
    repeat' split
    all_goals exact h
  | deleteNotification id username =>
    simp only [handle, deleteNotification]
    repeat' split
    all_goals exact h
  | deleteAllNotifications username =>
    simp only [handle, deleteAllNotifications]
    repeat' split
    all_goals exact h
  | getFriends username =>
    simp only [handle, getFriends]
    repeat' split
    all_goals exact h
  | friendRequest a b =>
    simp only [handle, friendRequest]
    repeat' split
    all_goals exact h
  | acceptRequest a b =>
    simp only [handle, acceptRequest]
    repeat' split
    all_goals exact h
  | follow a b =>
    simp only [handle, follow]
    repeat' split
    all_goals exact h
  | unfollow a b =>
    simp only [handle, unfollow]
    repeat' split
    all_goals exact h

theorem reach_plain {s₀ s : State} (h₀ : s₀.posts = []) (h : Reach anyRequest s₀ s) :
    ∀ p ∈ s.posts, Plain p := by
  induction h with
  | init => simp [h₀]
  | step clock r _ _ ih => exact handle_plain _ clock r ih

/-! ### C25: comments created through the API -/

/-- C25, as the code has it: with a comment of bob under alice's post, a
like-comment or unlike-comment request without a username and a reply request
without a text are answered InvalidArgument, not NotFound: the handlers validate
the body before they look for the post and the comment. -/
theorem comment_requests_validate_first :
    State.empty.posts = [] ∧ Reach anyRequest State.empty commented ∧
    (handle commented ⟨5, "t5"⟩ (.likeComment 1000 1001 "")).1 = .invalidArgument ∧
    (handle commented ⟨5, "t5"⟩ (.unlikeComment 1000 1001 "")).1 = .invalidArgument ∧
    (handle commented ⟨5, "t5"⟩ (.replyComment 1000 1001 "carol" "")).1 = .invalidArgument :=
  ⟨rfl, Reach.step _ _ (Reach.step _ _ Reach.init rfl) rfl, by decide, by decide, by decide⟩

/-- C25 (comments created through the API, amended). In every state reached from
an empty posts collection by any sequence of requests, no comment of any post
carries an identifier or a replies array (so no post contains a reply), and
every like-comment, unlike-comment and reply request fails and changes nothing:
with InvalidArgument when its username (for a reply: its username or its text)
is missing, with NotFound otherwise. -/
theorem comments_not_addressable (s₀ s : State) (h₀ : s₀.posts = [])
    (h : Reach anyRequest s₀ s) :
    (∀ p ∈ s.posts, ∀ c ∈ preOrder p.comments, c.id = none ∧ c.replies = none) ∧
    (∀ clock id commentId username,
      handle s clock (.likeComment id commentId username)
        = (if username = "" then .invalidArgument else .notFound, s)) ∧
    (∀ clock id commentId username,
      handle s clock (.unlikeComment id commentId username)
        = (if username = "" then .invalidArgument else .notFound, s)) ∧
    (∀ clock id commentId username text,
      handle s clock (.replyComment id commentId username text)
        = (if username = "" ∨ text = "" then .invalidArgument else .notFound, s)) := by
  have hp := reach_plain h₀ h
  refine ⟨?_, ?_, ?_, ?_⟩
  · intro p hmem c hc
    rw [preOrder_of_bare (hp p hmem).2] at hc
    exact (hp p hmem).2 c hc
  · intro clock id commentId username
    exact likeComment_of_plain s clock id commentId username hp
  · intro clock id commentId username
    exact unlikeComment_of_plain s id commentId username hp
  · intro clock id commentId username text
    exact replyComment_of_plain s clock id commentId username text hp

/-- Witness of C25: bob's comment under alice's post has no identifier, and
carol's reply to it is answered NotFound. -/
theorem comments_not_addressable_witness :
    State.empty.posts = [] ∧ Reach anyRequest State.empty commented ∧
    (commented.posts.map (fun p => (preOrder p.comments).map Comment.id)) = [[none]] ∧
    handle commented ⟨5, "t5"⟩ (.replyComment 1000 1001 "carol" "hi")
      = (.notFound, commented) :=
  have hr : Reach anyRequest State.empty commented :=
    Reach.step _ _ (Reach.step _ _ Reach.init rfl) rfl
  ⟨rfl, hr, by decide,
    (comments_not_addressable State.empty commented rfl hr).2.2.2 ⟨5, "t5"⟩ 1000 1001
      "carol" "hi"⟩

/-! ### C26: polls -/

/-- C26 (polls are unreachable through the API). In every state reached from an
empty posts collection by any sequence of requests, no post has a poll, and
every vote request is answered NotFound and changes nothing. -/
theorem polls_unreachable (s₀ s : State) (h₀ : s₀.posts = [])
    (h : Reach anyRequest s₀ s) :
    (∀ p ∈ s.posts, p.poll = none) ∧
    ∀ clock id username optionIndex,
      handle s clock (.vote id username optionIndex) = (.notFound, s) := by
  have hp := reach_plain h₀ h
  exact ⟨fun p hmem => (hp p hmem).1,
    fun _ id username optionIndex => vote_of_plain s id username optionIndex hp⟩

/-- Witness of C26: alice's post has no poll and bob's vote on it is answered
NotFound. -/
theorem polls_unreachable_witness :
    State.empty.posts = [] ∧ Reach anyRequest State.empty commented ∧
    commented.posts.map Post.poll = [none] ∧
    (handle commented ⟨5, "t5"⟩ (.vote 1000 (.text "bob") (.integer 0))).1 = .notFound :=
  have hr : Reach anyRequest State.empty commented :=
    Reach.step _ _ (Reach.step _ _ Reach.init rfl) rfl
  ⟨rfl, hr, by decide,
    congrArg Prod.fst
      ((polls_unreachable State.empty commented rfl hr).2 ⟨5, "t5"⟩ 1000 (.text "bob")
        (.integer 0))⟩

/-! ### C27: no self-edges, no duplicate pending requests -/

/-- C27 at a failing input, a state reached from an empty social graph in a
freshly started process by three requests: alice follows the user `__proto__`,
bob sends alice a friend request, bob follows `__proto__`. All three succeed and
`friends.json` ends with bob in the `followers` of bob. -/
theorem follow_of_proto_stores_self_edge :
    (∀ k, protoUsers.friends k = none) ∧
    protoUsers.heap.arrays = [] ∧
    Reach edgeRequest protoUsers selfEdge ∧
    (handle protoUsers ⟨5, "t5"⟩ (.follow "alice" "__proto__")).1 = .success ∧
    (handle (handle protoUsers ⟨5, "t5"⟩ (.follow "alice" "__proto__")).2 ⟨6, "t6"⟩
      (.friendRequest "bob" "alice")).1 = .success ∧
    (handle (handle (handle protoUsers ⟨5, "t5"⟩ (.follow "alice" "__proto__")).2 ⟨6, "t6"⟩
      (.friendRequest "bob" "alice")).2 ⟨7, "t7"⟩ (.follow "bob" "__proto__")).1 = .success ∧
    selfEdge.friends "bob"
      = some { friends := [], requests := [], following := some ["__proto__"],
               followers := some ["alice", "bob"] } ∧
    "bob" ∈ (selfEdge.friends.entry "bob").followers.getD [] := by
  refine ⟨fun _ => rfl, rfl, ?_, by decide, by decide, by decide, by decide, by decide⟩
  exact Reach.step _ _ (Reach.step _ _ (Reach.step _ _ Reach.init rfl) rfl) rfl

end Gravitax
